import Mathlib

/-!
# Verification of the SavedObjectsRepository persistence core

Shallow embedding of the saved-object repository (`SavedObjectsRepository` in
the source) over an explicit document-store state.  Repository operations are
translated from the source file; the document-store client, the serializer,
the version codec and the type registry are external collaborators (their
implementations are not part of the sources) and are modelled from the
specification where noted.
-/

namespace SORepo

/-- Namespace isolation mode of a saved-object type.
Modelled from the spec: the type registry classifies every type as
single-namespace, multi-namespace (shareable or isolated), or
namespace-agnostic. -/
inductive NsKind
  | single
  | multiShareable
  | multiIsolated
  | agnostic
deriving DecidableEq, Repr

/-- A weak reference `{name, type, id}` to another saved object. -/
structure Reference where
  name : String
  type : String
  id : String
deriving DecidableEq, Repr, Inhabited

/-- The opaque attribute payload.  The repository treats attributes as an
opaque bag; counters (`incrementCounter`) read and write integer-valued
fields, so the bag is modelled as an association list from field names to
integers. -/
abbrev Attrs := List (String × Int)

/-- Legacy URL alias document content (`_source[LEGACY_URL_ALIAS_TYPE]`). -/
structure LegacyAlias where
  targetId : String
  disabled : Bool := false
  resolveCounter : Option Int := none
  lastResolved : Option String := none
deriving DecidableEq, Repr, Inhabited

/-- The `_source` of a raw document in the store: the type, namespace
information, the type-keyed attribute bag, references and server-set
fields.  Legacy URL alias documents additionally carry their alias record.
(`nsId` models the `namespace` field; `namespace` is reserved in Lean.) -/
structure DocSource where
  type : String
  nsId : Option String := none
  namespaces : Option (List String) := none
  originId : Option String := none
  attributes : Attrs := []
  references : List Reference := []
  updatedAt : Option String := none
  legacyAlias : Option LegacyAlias := none
deriving DecidableEq, Repr, Inhabited

/-- A stored raw document: `_source` plus the store's concurrency pair
(`_seq_no`, `_primary_term`). -/
structure EsDoc where
  source : DocSource
  seqNo : Nat
  primaryTerm : Nat
deriving DecidableEq, Repr, Inhabited

/-- Modelled from the spec: the version codec encodes the store's
sequence-number / primary-term pair as a stable, reversible, opaque token
(`encodeVersion` / `decodeVersion`); the codec implementation is not among
the sources.  The token is modelled as the pair itself. -/
structure Version where
  seqNo : Nat
  primaryTerm : Nat
deriving DecidableEq, Repr

/-- `encodeVersion(seqNo, primaryTerm)`. -/
def encodeVersion (seqNo primaryTerm : Nat) : Version := ⟨seqNo, primaryTerm⟩

/-- `decodeRequestVersion(version)`: the `if_seq_no` / `if_primary_term`
precondition pair for a caller-supplied version. -/
def decodeRequestVersion (v : Version) : Nat × Nat := (v.seqNo, v.primaryTerm)

/-- The typed error kinds of `SavedObjectsErrorHelpers`.  The helper module is
not among the sources; the kinds are modelled from the spec's error-handling
design (`UnsupportedType`, `NotFound`, `Conflict`, `BadRequest`, plus an
unclassified escalation for unexpected store responses). -/
inductive RepoError
  | unsupportedType (t : String)
  | notFound (t id : String)
  | conflict (t id : String)
  | badRequest (msg : String)
  | esError (msg : String)
deriving DecidableEq, Repr

/-- `SavedObjectsErrorHelpers.isNotFoundError`. -/
def RepoError.isNotFoundError : RepoError → Bool
  | .notFound _ _ => true
  | _ => false

/-- Errors reported by the raw document-store client for a single document
operation.  Modelled from the spec: the store's rejection of a stale
sequence-number/primary-term precondition is a version conflict; an update of
a missing document (without upsert) is a document-missing error; `injected`
models an arbitrary store-side failure (used for failure injection on
specific document ids). -/
inductive EsErr
  | versionConflict
  | docMissing
  | injected
deriving DecidableEq, Repr

/-- A partial document for a store `update` request
(`{ [type]: attributes, updated_at, references? }`). -/
structure DocPatch where
  attributes : Attrs
  updatedAt : String
  references : Option (List Reference) := none
deriving DecidableEq, Repr

/-- One operation of a store `bulk` request. -/
inductive BulkOp
  | createDoc (index id : String) (src : DocSource)
  | indexDoc (index id : String) (src : DocSource) (pre : Option (Nat × Nat))
  | updateDoc (index id : String) (patch : DocPatch) (pre : Option (Nat × Nat))
deriving DecidableEq, Repr

/-- The searchAfter cursor values of a find query (opaque sort values). -/
abbrev SearchAfter := List Int

/-- The search request issued by `find`, as constructed in the source
(`esOptions`).  `getSearchDsl` is not among the sources; its output is
modelled as the record of the arguments the source passes to it. -/
structure EsSearchRequest where
  indexParam : Option (List String)
  fromParam : Option Int
  preference : Option String
  size : Int
  bodySize : Int
  bodyFrom : Int
  search : Option String
  pit : Option String
  types : List String
  searchAfter : Option SearchAfter
  sortField : Option String
  namespaces : Option (List String)
deriving DecidableEq, Repr

/-- A request issued against the document-store client (for stating that an
operation fails before issuing any store call). -/
inductive EsReq
  | getReq (index id : String)
  | mgetReq (docs : List (String × String))
  | indexReq (index id : String)
  | createReq (index id : String)
  | updateReq (index id : String)
  | deleteReq (index id : String)
  | bulkReq (n : Nat)
  | searchReq (req : EsSearchRequest)
  | updateByQueryReq (namespaces : Option (List String)) (types : List String)
deriving DecidableEq, Repr

/-- The external document store: raw documents keyed by (index, raw id), a
set of document ids whose update operations fail (failure injection, for the
best-effort counter claims), and the log of issued requests.
Modelled from the spec: the store is an external collaborator. -/
structure Store where
  docs : List ((String × String) × EsDoc) := []
  failingIds : List String := []
  log : List EsReq := []
deriving DecidableEq, Repr

def Store.getDoc (st : Store) (index id : String) : Option EsDoc :=
  (st.docs.find? (fun e => e.1 == (index, id))).map (·.2)

def Store.putDoc (st : Store) (index id : String) (d : EsDoc) : Store :=
  { st with docs := ((index, id), d) :: st.docs.filter (fun e => e.1 != (index, id)) }

def Store.removeDoc (st : Store) (index id : String) : Store :=
  { st with docs := st.docs.filter (fun e => e.1 != (index, id)) }

def Store.logReq (st : Store) (req : EsReq) : Store :=
  { st with log := st.log ++ [req] }

/-- Does a seq-no/primary-term precondition match the current document?
Modelled from the spec: a write carrying a stale pair is rejected; a
precondition against a missing document is likewise rejected. -/
def preMatches (pre : Option (Nat × Nat)) (cur : Option EsDoc) : Bool :=
  match pre with
  | none => true
  | some (s, p) =>
    match cur with
    | none => false
    | some d => s == d.seqNo && p == d.primaryTerm

/-- Store `get` (with `ignore: [404]`): returns the document if present. -/
def esGet (st : Store) (index id : String) : Option EsDoc × Store :=
  (st.getDoc index id, st.logReq (.getReq index id))

/-- Store `mget`: one batched multi-get. -/
def esMget (st : Store) (docs : List (String × String)) : List (Option EsDoc) × Store :=
  (docs.map (fun d => st.getDoc d.1 d.2), st.logReq (.mgetReq docs))

/-- Apply a `create` document-store operation to the store (no request
logging; used by both the single `create` call and `bulk`). -/
def applyCreateDoc (st : Store) (index id : String) (src : DocSource) :
    Except EsErr (Nat × Nat) × Store :=
  match st.getDoc index id with
  | some _ => (.error .versionConflict, st)
  | none => (.ok (0, 1), st.putDoc index id ⟨src, 0, 1⟩)

/-- Apply an `index` document-store operation (overwrite, with optional
seq-no/primary-term precondition). -/
def applyIndexDoc (st : Store) (index id : String) (src : DocSource)
    (pre : Option (Nat × Nat)) : Except EsErr (Nat × Nat) × Store :=
  let cur := st.getDoc index id
  if preMatches pre cur then
    match cur with
    | some d => (.ok (d.seqNo + 1, d.primaryTerm), st.putDoc index id ⟨src, d.seqNo + 1, d.primaryTerm⟩)
    | none => (.ok (0, 1), st.putDoc index id ⟨src, 0, 1⟩)
  else (.error .versionConflict, st)

/-- Merge an attribute patch into an attribute bag (store partial-document
merge: patched fields override, others are kept). -/
def Attrs.merge (old patch : Attrs) : Attrs :=
  patch ++ old.filter (fun kv => !(patch.any (fun kv2 => kv2.1 == kv.1)))

/-- Apply a partial-document patch to a document source. -/
def DocSource.applyPatch (src : DocSource) (patch : DocPatch) : DocSource :=
  { src with
    attributes := Attrs.merge src.attributes patch.attributes
    updatedAt := some patch.updatedAt
    references := patch.references.getD src.references }

/-- Apply an `update` document-store operation with a partial document and an
optional upsert source.  Honours failure injection on the document id. -/
def applyUpdateDoc (st : Store) (index id : String) (patch : DocPatch)
    (pre : Option (Nat × Nat)) (upsert : Option DocSource) :
    Except EsErr (DocSource × Nat × Nat) × Store :=
  if st.failingIds.contains id then (.error .injected, st)
  else
    match st.getDoc index id with
    | none =>
      match upsert with
      | some src =>
        if preMatches pre none then (.ok (src, 0, 1), st.putDoc index id ⟨src, 0, 1⟩)
        else (.error .versionConflict, st)
      | none =>
        if preMatches pre none then (.error .docMissing, st)
        else (.error .versionConflict, st)
    | some d =>
      if preMatches pre (some d) then
        let src := d.source.applyPatch patch
        (.ok (src, d.seqNo + 1, d.primaryTerm), st.putDoc index id ⟨src, d.seqNo + 1, d.primaryTerm⟩)
      else (.error .versionConflict, st)

/-- Semantics of the counter-increment script (translated from the painless
script in the source): for each field, a missing counter is seeded with the
count, an existing counter is incremented by it; `updated_at` is set. -/
def applyCounterScript (src : DocSource) (fields : List (String × Int))
    (time : String) : DocSource :=
  { src with
    attributes := fields.foldl
      (fun acc f =>
        match acc.find? (fun kv => kv.1 == f.1) with
        | some kv => (f.1, kv.2 + f.2) :: acc.filter (fun kv2 => kv2.1 != f.1)
        | none => acc ++ [f]) src.attributes
    updatedAt := some time }

/-- Store `update` with the counter-increment script and an upsert document
(the shape issued by `incrementCounterInternal`).  Returns the post-update
source and concurrency pair, honouring failure injection. -/
def esUpdateCounter (st0 : Store) (index id : String)
    (fields : List (String × Int)) (time : String) (upsert : DocSource) :
    Except EsErr (DocSource × Nat × Nat) × Store :=
  let st := st0.logReq (.updateReq index id)
  if st.failingIds.contains id then (.error .injected, st)
  else
    match st.getDoc index id with
    | none => (.ok (upsert, 0, 1), st.putDoc index id ⟨upsert, 0, 1⟩)
    | some d =>
      let src := applyCounterScript d.source fields time
      (.ok (src, d.seqNo + 1, d.primaryTerm), st.putDoc index id ⟨src, d.seqNo + 1, d.primaryTerm⟩)

/-- Semantics of the legacy-URL-alias update script (translated from the
painless script in the source): if the alias is not disabled, its resolve
counter is incremented (seeded at 1) and its timestamps are set. -/
def applyAliasScript (src : DocSource) (time : String) : DocSource :=
  match src.legacyAlias with
  | none => src
  | some alias0 =>
    if alias0.disabled != true then
      { src with
        legacyAlias := some { alias0 with
          resolveCounter := some ((alias0.resolveCounter.getD 0) + 1)
          lastResolved := some time }
        updatedAt := some time }
    else src

/-- Store `update` with the legacy-URL-alias script (with `ignore: [404]`):
`none` models the 404 of a missing alias document; otherwise the post-update
source is returned (`_source: 'true'`).  Honours failure injection. -/
def esUpdateAlias (st0 : Store) (index id : String) (time : String) :
    Except EsErr (Option DocSource) × Store :=
  let st := st0.logReq (.updateReq index id)
  if st.failingIds.contains id then (.error .injected, st)
  else
    match st.getDoc index id with
    | none => (.ok none, st)
    | some d =>
      let src := applyAliasScript d.source time
      (.ok (some src), st.putDoc index id ⟨src, d.seqNo + 1, d.primaryTerm⟩)

/-- Store `delete` (with `ignore: [404]`): `true` for result `deleted`,
`false` for `not_found`; a stale precondition is rejected. -/
def esDeleteDoc (st0 : Store) (index id : String) (pre : Option (Nat × Nat)) :
    Except EsErr Bool × Store :=
  let st := st0.logReq (.deleteReq index id)
  match st.getDoc index id with
  | none =>
    if preMatches pre none then (.ok false, st) else (.error .versionConflict, st)
  | some d =>
    if preMatches pre (some d) then (.ok true, st.removeDoc index id)
    else (.error .versionConflict, st)

/-- The per-item response of a store `bulk` request: the new concurrency pair
and (for update operations) the requested slice of the post-update source, or
the item's error. -/
inductive BulkItemRes
  | okRes (seqNo primaryTerm : Nat) (getSource : Option DocSource)
  | errRes (e : EsErr)
deriving DecidableEq, Repr

/-- Apply one bulk sub-operation to the store. -/
def applyBulkOp (st : Store) (op : BulkOp) : BulkItemRes × Store :=
  match op with
  | .createDoc index id src =>
    match applyCreateDoc st index id src with
    | (.ok (s, p), st') => (.okRes s p none, st')
    | (.error e, st') => (.errRes e, st')
  | .indexDoc index id src pre =>
    match applyIndexDoc st index id src pre with
    | (.ok (s, p), st') => (.okRes s p none, st')
    | (.error e, st') => (.errRes e, st')
  | .updateDoc index id patch pre =>
    match applyUpdateDoc st index id patch pre none with
    | (.ok (src, s, p), st') => (.okRes s p (some src), st')
    | (.error e, st') => (.errRes e, st')

/-- Apply the sub-operations of a bulk request in order, collecting each
item's response in its slot. -/
def runBulkOps (st : Store) : List BulkOp → List BulkItemRes × Store
  | [] => ([], st)
  | op :: rest =>
    let (res, st') := applyBulkOp st op
    let (ress, st'') := runBulkOps st' rest
    (res :: ress, st'')

/-- Store `bulk`: one physical request carrying all sub-operations. -/
def esBulk (st0 : Store) (ops : List BulkOp) : List BulkItemRes × Store :=
  runBulkOps (st0.logReq (.bulkReq ops.length)) ops

/-- The (index, id) document key a bulk sub-operation reads and writes. -/
def BulkOp.opKey : BulkOp → String × String
  | .createDoc index id _ => (index, id)
  | .indexDoc index id _ _ => (index, id)
  | .updateDoc index id _ _ => (index, id)

/-- Store `search`: the query evaluation itself is external to the
repository; the model records the issued request and returns an empty hit
list (no claim inspects search hits). -/
def esSearch (st : Store) (req : EsSearchRequest) : Store :=
  st.logReq (.searchReq req)

/-- Store `updateByQuery` (used by `removeReferencesTo` and
`deleteByNamespace`): the model records the issued request and reports no
failures. -/
def esUpdateByQuery (st : Store) (namespaces : Option (List String))
    (types : List String) : (Nat × List String) × Store :=
  ((0, []), st.logReq (.updateByQueryReq namespaces types))

/-! ## Constants and utilities -/

def ALL_NAMESPACES_STRING : String := "*"

def DEFAULT_NAMESPACE_STRING : String := "default"

def LEGACY_URL_ALIAS_TYPE : String := "legacy-url-alias"

def CORE_USAGE_STATS_TYPE : String := "core-usage-stats"

def CORE_USAGE_STATS_ID : String := "core-usage-stats"

/-- Modelled from the spec: the resolve-outcome observability counters are
keyed by outcome kind (one stat string per outcome, plus a total). -/
def RESOLVE_OUTCOME_STAT_EXACT_MATCH : String := "resolvedOutcome.exactMatch"

def RESOLVE_OUTCOME_STAT_ALIAS_MATCH : String := "resolvedOutcome.aliasMatch"

def RESOLVE_OUTCOME_STAT_CONFLICT : String := "resolvedOutcome.conflict"

def RESOLVE_OUTCOME_STAT_NOT_FOUND : String := "resolvedOutcome.notFound"

def RESOLVE_OUTCOME_STAT_TOTAL : String := "resolvedOutcome.total"

def FIND_DEFAULT_PAGE : Int := 1

def FIND_DEFAULT_PER_PAGE : Int := 20

/-- Modelled from the spec: `SavedObjectsUtils.namespaceIdToString` — the
default namespace is represented internally as absent and externally as the
string `'default'`. -/
def namespaceIdToString (ns : Option String) : String :=
  ns.getD DEFAULT_NAMESPACE_STRING

/-- Modelled from the spec: `SavedObjectsUtils.namespaceStringToId` — the
string `'default'` maps to the absent (undefined) namespace id. -/
def namespaceStringToId (s : String) : Option String :=
  if s == DEFAULT_NAMESPACE_STRING then none else some s

/-- `normalizeNamespace` (from the source): `'*'` is rejected as a bad
request; `undefined` is kept; anything else is converted to its namespace-id
representation. -/
def normalizeNamespace (ns : Option String) : Except RepoError (Option String) :=
  match ns with
  | none => .ok none
  | some s =>
    if s == ALL_NAMESPACES_STRING then
      .error (.badRequest "options.namespace cannot be *")
    else .ok (namespaceStringToId s)

/-- `getSavedObjectNamespaces` (from the source): with a preflight document,
its `namespaces` attribute (possibly absent); without one, the singleton of
the current namespace. -/
def getSavedObjectNamespaces (ns : Option String) (doc : Option EsDoc) :
    Option (List String) :=
  match doc with
  | some d => d.source.namespaces
  | none => some [namespaceIdToString ns]

/-- Modelled from the spec: `getExpectedVersionProperties` — an explicit
version becomes the decoded if-match pair; otherwise a preflight document's
current pair is used; otherwise no precondition. -/
def getExpectedVersionProperties (v : Option Version) (doc : Option EsDoc) :
    Option (Nat × Nat) :=
  match v with
  | some ver => some (decodeRequestVersion ver)
  | none => doc.map (fun d => (d.seqNo, d.primaryTerm))

/-- Modelled from the spec: the store-client error decorator surfaces a
rejected seq-no/primary-term precondition as `Conflict`, a missing document
as `NotFound`, and anything else as an unclassified error. -/
def decorateEsErr (type id : String) : EsErr → RepoError
  | .versionConflict => .conflict type id
  | .docMissing => .notFound type id
  | .injected => .esError "store failure"

/-- The repository: allowed types, the type registry (spec-modelled pure
lookups), index routing, and the impure inputs (`_getCurrentTime`, uuid
generation) supplied as explicit data. -/
structure Repo where
  allowedTypes : List String
  nsKindOf : String → NsKind
  allTypes : List String := []
  typeIndexOf : String → Option String := fun _ => none
  defaultIndex : String := "kibana"
  enableV2 : Bool := false
  kibanaVersion : String := ""
  now : String := "T"
  freshId : Nat → String := fun _ => "generated-id"

def Repo.isSingleNamespace (r : Repo) (t : String) : Bool :=
  r.nsKindOf t == .single

def Repo.isMultiNamespace (r : Repo) (t : String) : Bool :=
  r.nsKindOf t == .multiShareable || r.nsKindOf t == .multiIsolated

def Repo.isNamespaceAgnostic (r : Repo) (t : String) : Bool :=
  r.nsKindOf t == .agnostic

def Repo.isShareable (r : Repo) (t : String) : Bool :=
  r.nsKindOf t == .multiShareable

/-- `getIndexForType` (from the source): the registry's per-type index
override or the default index, with the v2-migration suffix when enabled. -/
def Repo.getIndexForType (r : Repo) (t : String) : String :=
  if r.enableV2 then ((r.typeIndexOf t).getD r.defaultIndex) ++ "_" ++ r.kibanaVersion
  else (r.typeIndexOf t).getD r.defaultIndex

/-- `getIndicesForTypes` (from the source). -/
def Repo.getIndicesForTypes (r : Repo) (types : List String) : List String :=
  (types.map r.getIndexForType).eraseDups

/-- Modelled from the spec: `serializer.generateRawId` — the raw store id is
a deterministic function of (namespace, type, id); the namespace is encoded
as a prefix for single-namespace types only. -/
def Repo.generateRawId (r : Repo) (ns : Option String) (type id : String) : String :=
  (if ns.isSome && r.isSingleNamespace type then ns.getD "" ++ ":" else "")
    ++ type ++ ":" ++ id

/-- Modelled from the spec: `serializer.generateRawLegacyUrlAliasId` — the
raw id of the legacy-alias record for (namespace, type, id). -/
def Repo.generateRawLegacyUrlAliasId (_r : Repo) (ns type id : String) : String :=
  LEGACY_URL_ALIAS_TYPE ++ ":" ++ ns ++ ":" ++ type ++ ":" ++ id

/-- Modelled from the spec: `rawDocExistsInNamespace` — single-namespace and
agnostic types are already scoped by their raw id; a multi-namespace document
exists in the target namespace iff its namespace list contains the namespace
(or the all-namespaces wildcard). -/
def Repo.rawDocExistsInNamespace (r : Repo) (src : DocSource) (ns : Option String) : Bool :=
  !(r.isMultiNamespace src.type)
    || (src.namespaces.getD []).contains (namespaceIdToString ns)
    || (src.namespaces.getD []).contains ALL_NAMESPACES_STRING

/-- A decoded saved object returned by repository operations. -/
structure SavedObject where
  id : String
  type : String
  namespaces : Option (List String) := none
  originId : Option String := none
  updatedAt : Option String := none
  version : Option Version := none
  attributes : Attrs := []
  references : List Reference := []
deriving DecidableEq, Repr

/-- Modelled from the spec: `getSavedObjectFromSource` — decode a fetched raw
document into a saved object (namespace list for non-agnostic types, encoded
version from the hit's concurrency pair). -/
def getSavedObjectFromSource (r : Repo) (type id : String) (doc : EsDoc) : SavedObject :=
  { id := id
    type := type
    namespaces :=
      if r.isNamespaceAgnostic type then some []
      else some (doc.source.namespaces.getD [namespaceIdToString doc.source.nsId])
    originId := doc.source.originId
    updatedAt := doc.source.updatedAt
    version := some (encodeVersion doc.seqNo doc.primaryTerm)
    attributes := doc.source.attributes
    references := doc.source.references }

/-- `_rawToSavedObject` (from the source): the serializer's `fromRaw`
(spec-modelled) followed by replacing a single-namespace object's scalar
namespace with a singleton namespace list. -/
def Repo.rawToSavedObject (r : Repo) (id : String) (doc : EsDoc) : SavedObject :=
  { id := id
    type := doc.source.type
    namespaces :=
      if r.isSingleNamespace doc.source.type then
        some [namespaceIdToString doc.source.nsId]
      else doc.source.namespaces
    originId := doc.source.originId
    updatedAt := doc.source.updatedAt
    version := some (encodeVersion doc.seqNo doc.primaryTerm)
    attributes := doc.source.attributes
    references := doc.source.references }

/-- `validateInitialNamespaces` (from the source). -/
def Repo.validateInitialNamespaces (r : Repo) (type : String)
    (initialNamespaces : Option (List String)) : Except RepoError Unit :=
  match initialNamespaces with
  | none => .ok ()
  | some ins =>
    if r.isNamespaceAgnostic type then
      .error (.badRequest "initialNamespaces cannot be used on space-agnostic types")
    else if ins.isEmpty then
      .error (.badRequest "initialNamespaces must be a non-empty array of strings")
    else if !r.isShareable type
        && (ins.length > 1 || ins.contains ALL_NAMESPACES_STRING) then
      .error (.badRequest "initialNamespaces can only specify a single space when used with space-isolated types")
    else .ok ()

/-! ## Preflight checks -/

/-- `preflightGetNamespaces` (from the source): read the existing
multi-namespace document; fail with `Conflict` if it exists outside the
target namespace; otherwise return its namespace list (or the list a new
object would get). -/
def Repo.preflightGetNamespaces (r : Repo) (st : Store) (type id : String)
    (ns : Option String) : Except RepoError (Option (List String)) × Store :=
  if !r.isMultiNamespace type then
    (.error (.esError "preflight get request on non-multi-namespace type"), st)
  else
    match esGet st (r.getIndexForType type) (r.generateRawId none type id) with
    | (some doc, st') =>
      if !r.rawDocExistsInNamespace doc.source ns then (.error (.conflict type id), st')
      else (.ok (getSavedObjectNamespaces ns (some doc)), st')
    | (none, st') => (.ok (getSavedObjectNamespaces ns none), st')

/-- `preflightCheckIncludesNamespace` (from the source): read the existing
multi-namespace document; fail with `NotFound` if it is absent or exists
outside the target namespace; otherwise return the raw document. -/
def Repo.preflightCheckIncludesNamespace (r : Repo) (st : Store) (type id : String)
    (ns : Option String) : Except RepoError EsDoc × Store :=
  if !r.isMultiNamespace type then
    (.error (.esError "preflight get request on non-multi-namespace type"), st)
  else
    match esGet st (r.getIndexForType type) (r.generateRawId none type id) with
    | (some doc, st') =>
      if !r.rawDocExistsInNamespace doc.source ns then
        (.error (.notFound type id), st')
      else (.ok doc, st')
    | (none, st') => (.error (.notFound type id), st')

/-! ## get -/

/-- `get` (from the source): disallowed types and documents that are missing
or invisible in the target namespace are a uniform `NotFound`. -/
def Repo.get (r : Repo) (st : Store) (type id : String) (nsOpt : Option String) :
    Except RepoError SavedObject × Store :=
  if !r.allowedTypes.contains type then (.error (.notFound type id), st)
  else
    match normalizeNamespace nsOpt with
    | .error e => (.error e, st)
    | .ok ns =>
      match esGet st (r.getIndexForType type) (r.generateRawId ns type id) with
      | (some doc, st') =>
        if !r.rawDocExistsInNamespace doc.source ns then
          (.error (.notFound type id), st')
        else (.ok (getSavedObjectFromSource r type id doc), st')
      | (none, st') => (.error (.notFound type id), st')

/-! ## create -/

structure CreateOptions where
  id : Option String := none
  overwrite : Bool := false
  references : List Reference := []
  originId : Option String := none
  initialNamespaces : Option (List String) := none
  version : Option Version := none
  nsOpt : Option String := none
deriving DecidableEq, Repr

/-- The write phase of `create`, after namespace assignment (kept as a
separate definition for readability; it is the straight-line tail of the
source's `create`). -/
def Repo.createWrite (r : Repo) (st : Store) (type id : String) (attributes : Attrs)
    (options : CreateOptions) (_ns : Option String)
    (savedObjectNamespace : Option String)
    (savedObjectNamespaces : Option (List String)) :
    Except RepoError SavedObject × Store :=
  let time := r.now
  let migrated : DocSource :=
    { type := type
      nsId := savedObjectNamespace
      namespaces := savedObjectNamespaces
      originId := options.originId
      attributes := attributes
      references := options.references
      updatedAt := some time }
  -- the serializer derives the raw id from the migrated document's own
  -- namespace (`savedObjectToRaw`), not from the operation namespace
  let rawId := r.generateRawId savedObjectNamespace type id
  let index := r.getIndexForType type
  let pre :=
    match options.version with
    | some v => if options.overwrite then some (decodeRequestVersion v) else none
    | none => none
  if id != "" && options.overwrite then
    match (let st1 := st.logReq (.indexReq index rawId); applyIndexDoc st1 index rawId migrated pre) with
    | (.ok (s, p), st') => (.ok (r.rawToSavedObject id ⟨migrated, s, p⟩), st')
    | (.error e, st') => (.error (decorateEsErr type id e), st')
  else
    match (let st1 := st.logReq (.createReq index rawId); applyCreateDoc st1 index rawId migrated) with
    | (.ok (s, p), st') => (.ok (r.rawToSavedObject id ⟨migrated, s, p⟩), st')
    | (.error e, st') => (.error (decorateEsErr type id e), st')

/-- `create` (from the source): namespace normalization, initial-namespace
validation, the allowed-type check, per-classification namespace assignment
(with a preflight read when overwriting a multi-namespace object), then the
store write (`index` when overwriting an explicit id, `create` otherwise)
carrying the decoded version precondition when `overwrite` and `version` are
both supplied.  The external migrator is modelled as the identity. -/
def Repo.create (r : Repo) (st : Store) (type : String) (attributes : Attrs)
    (options : CreateOptions) : Except RepoError SavedObject × Store :=
  let id := options.id.getD (r.freshId 0)
  match normalizeNamespace options.nsOpt with
  | .error e => (.error e, st)
  | .ok ns =>
    match r.validateInitialNamespaces type options.initialNamespaces with
    | .error e => (.error e, st)
    | .ok _ =>
      if !r.allowedTypes.contains type then (.error (.unsupportedType type), st)
      else if r.isSingleNamespace type then
        r.createWrite st type id attributes options ns
          (match options.initialNamespaces with
           | some l => l.head?
           | none => ns) none
      else if r.isMultiNamespace type then
        if id != "" && options.overwrite then
          match r.preflightGetNamespaces st type id ns with
          | (.error e, st') => (.error e, st')
          | (.ok existingNamespaces, st') =>
            r.createWrite st' type id attributes options ns none
              (options.initialNamespaces.orElse fun _ => existingNamespaces)
        else
          r.createWrite st type id attributes options ns none
            (options.initialNamespaces.orElse fun _ => getSavedObjectNamespaces ns none)
      else
        r.createWrite st type id attributes options ns none none

/-! ## delete -/

structure DeleteOptions where
  force : Bool := false
  nsOpt : Option String := none
deriving DecidableEq, Repr

/-- `delete` (from the source): disallowed type is `NotFound`; a
multi-namespace type first runs the include-namespace preflight, and a
document present in more than one namespace (or in all namespaces) is only
deleted under `force`; the store delete carries the preflight document's
concurrency pair as precondition. -/
def Repo.delete (r : Repo) (st : Store) (type id : String) (options : DeleteOptions) :
    Except RepoError Unit × Store :=
  if !r.allowedTypes.contains type then (.error (.notFound type id), st)
  else
    match normalizeNamespace options.nsOpt with
    | .error e => (.error e, st)
    | .ok ns =>
      let rawId := r.generateRawId ns type id
      let preflight : Except RepoError (Option EsDoc) × Store :=
        if r.isMultiNamespace type then
          match r.preflightCheckIncludesNamespace st type id ns with
          | (.error e, st') => (.error e, st')
          | (.ok doc, st') =>
            let existingNamespaces := (getSavedObjectNamespaces none (some doc)).getD []
            if !options.force
                && (existingNamespaces.length > 1
                    || existingNamespaces.contains ALL_NAMESPACES_STRING) then
              (.error (.badRequest "Unable to delete saved object that exists in multiple namespaces, use the force option to delete it anyway"), st')
            else (.ok (some doc), st')
        else (.ok none, st)
      match preflight with
      | (.error e, st') => (.error e, st')
      | (.ok preflightResult, st') =>
        match esDeleteDoc st' (r.getIndexForType type) rawId
            (getExpectedVersionProperties none preflightResult) with
        | (.ok true, st'') => (.ok (), st'')
        | (.ok false, st'') => (.error (.notFound type id), st'')
        | (.error e, st'') => (.error (decorateEsErr type id e), st'')

/-! ## update -/

structure UpdateOptions where
  version : Option Version := none
  references : Option (List Reference) := none
  upsert : Option Attrs := none
  nsOpt : Option String := none
deriving DecidableEq, Repr

/-- `update` (from the source): disallowed type is `NotFound`; a
multi-namespace type first runs the include-namespace preflight; the store
partial-document update carries the explicit version (decoded) or the
preflight document's concurrency pair as precondition; a store
document-missing outcome is normalized to `NotFound`. -/
def Repo.update (r : Repo) (st : Store) (type id : String) (attributes : Attrs)
    (options : UpdateOptions) : Except RepoError SavedObject × Store :=
  if !r.allowedTypes.contains type then (.error (.notFound type id), st)
  else
    match normalizeNamespace options.nsOpt with
    | .error e => (.error e, st)
    | .ok ns =>
      let preflight : Except RepoError (Option EsDoc) × Store :=
        if r.isMultiNamespace type then
          match r.preflightCheckIncludesNamespace st type id ns with
          | (.error e, st') => (.error e, st')
          | (.ok doc, st') => (.ok (some doc), st')
        else (.ok none, st)
      match preflight with
      | (.error e, st') => (.error e, st')
      | (.ok preflightResult, st') =>
        let time := r.now
        let upsertStep : Except RepoError (Option DocSource) × Store :=
          match options.upsert with
          | none => (.ok none, st')
          | some up =>
            let nsFields : Except RepoError (Option String × Option (List String)) × Store :=
              if r.isSingleNamespace type && ns.isSome then
                (.ok (ns, none), st')
              else if r.isMultiNamespace type then
                match r.preflightGetNamespaces st' type id ns with
                | (.error e, st'') => (.error e, st'')
                | (.ok sons, st'') => (.ok (none, sons), st'')
              else (.ok (none, none), st')
            match nsFields with
            | (.error e, st'') => (.error e, st'')
            | (.ok (son, sons), st'') =>
              (.ok (some { type := type, nsId := son, namespaces := sons,
                           attributes := up, updatedAt := some time }), st'')
        match upsertStep with
        | (.error e, st'') => (.error e, st'')
        | (.ok rawUpsert, st'') =>
          let doc : DocPatch :=
            { attributes := attributes, updatedAt := time, references := options.references }
          let rawId := r.generateRawId ns type id
          let index := r.getIndexForType type
          match (let st1 := st''.logReq (.updateReq index rawId);
                 applyUpdateDoc st1 index rawId doc
                   (getExpectedVersionProperties options.version preflightResult) rawUpsert) with
          | (.error e, st3) => (.error (decorateEsErr type id e), st3)
          | (.ok (getSrc, s, p), st3) =>
            let namespaces : List String :=
              if !r.isNamespaceAgnostic type then
                getSrc.namespaces.getD [namespaceIdToString getSrc.nsId]
              else []
            (.ok { id := id
                   type := type
                   updatedAt := some time
                   version := some (encodeVersion s p)
                   namespaces := some namespaces
                   originId := getSrc.originId
                   attributes := attributes
                   references := options.references.getD [] }, st3)

/-! ## incrementCounter -/

/-- A runtime value passed in the `counterFields` array: a plain string, an
object (whose `fieldName` may fail to be a string), or a value of another
runtime type. -/
inductive CounterFieldArg
  | fieldStr (s : String)
  | fieldObj (fieldName : Option String) (incrementBy : Option Int)
  | malformed
deriving DecidableEq, Repr

/-- The per-element check of `incrementCounter`'s `isArrayOfCounterFields`
guard: a string, or an object whose `fieldName` is a string. -/
def CounterFieldArg.isWellFormed : CounterFieldArg → Bool
  | .fieldStr _ => true
  | .fieldObj (some _) _ => true
  | .fieldObj none _ => false
  | .malformed => false

structure IncrementCounterOptions where
  initFields : Bool := false
  upsertAttributes : Option Attrs := none
  nsOpt : Option String := none
deriving DecidableEq, Repr

/-- The counter-field normalization inside `incrementCounterInternal` (from
the source): a plain string gets delta 1, an object's missing `incrementBy`
defaults to 1, and every delta is 0 under the `initialize` option
(`initFields` here; `initialize` is reserved in Lean).  -/
def normalizedCounterFields (counterFields : List CounterFieldArg)
    (initFields : Bool) : List (String × Int) :=
  counterFields.map fun counterField =>
    match counterField with
    | .fieldStr s => (s, if initFields then 0 else 1)
    | .fieldObj fieldName incrementBy =>
      (fieldName.getD "", if initFields then 0 else incrementBy.getD 1)
    | .malformed => ("", if initFields then 0 else 1)

/-- `incrementCounterInternal` (from the source): namespace normalization,
per-classification namespace assignment (with the get-namespaces preflight
for multi-namespace types), then one store update carrying the
counter-increment script and an upsert document seeded with the deltas. -/
def Repo.incrementCounterInternal (r : Repo) (st : Store) (type id : String)
    (counterFields : List CounterFieldArg) (options : IncrementCounterOptions) :
    Except RepoError SavedObject × Store :=
  let fields := normalizedCounterFields counterFields options.initFields
  match normalizeNamespace options.nsOpt with
  | .error e => (.error e, st)
  | .ok ns =>
    let time := r.now
    let nsFields : Except RepoError (Option String × Option (List String)) × Store :=
      if r.isSingleNamespace type && ns.isSome then (.ok (ns, none), st)
      else if r.isMultiNamespace type then
        match r.preflightGetNamespaces st type id ns with
        | (.error e, st') => (.error e, st')
        | (.ok sons, st') => (.ok (none, sons), st')
      else (.ok (none, none), st)
    match nsFields with
    | (.error e, st') => (.error e, st')
    | (.ok (savedObjectNamespace, savedObjectNamespaces), st') =>
      let migrated : DocSource :=
        { type := type
          nsId := savedObjectNamespace
          namespaces := savedObjectNamespaces
          attributes := Attrs.merge (options.upsertAttributes.getD []) fields
          updatedAt := some time }
      let rawId := r.generateRawId ns type id
      match esUpdateCounter st' (r.getIndexForType type) rawId fields time migrated with
      | (.error e, st'') => (.error (decorateEsErr type id e), st'')
      | (.ok (getSrc, s, p), st'') =>
        (.ok { id := id
               type := type
               namespaces := savedObjectNamespaces
               originId := getSrc.originId
               updatedAt := some time
               references := getSrc.references
               version := some (encodeVersion s p)
               attributes := getSrc.attributes }, st'')

/-- `incrementCounter` (from the source): the `counterFields` argument must
be an array of strings or well-formed field records (rejected with a plain
error before any store call), the type must be allowed (`UnsupportedType`
otherwise), then the unvalidated internal path runs. -/
def Repo.incrementCounter (r : Repo) (st : Store) (type id : String)
    (counterFields : List CounterFieldArg) (options : IncrementCounterOptions) :
    Except RepoError SavedObject × Store :=
  if !(counterFields.all CounterFieldArg.isWellFormed) then
    (.error (.esError "counterFields argument must be of type Array of string or of incrementBy and fieldName records"), st)
  else if !r.allowedTypes.contains type then
    (.error (.unsupportedType type), st)
  else r.incrementCounterInternal st type id counterFields options

/-! ## resolve -/

inductive ResolveOutcome
  | exactMatch
  | aliasMatch
  | conflictOutcome
deriving DecidableEq, Repr

structure ResolveResponse where
  savedObject : SavedObject
  outcome : ResolveOutcome
  aliasTargetId : Option String := none
deriving DecidableEq, Repr

/-- Does a fetched document exist and live in the target namespace (the
`found && rawDocExistsInNamespace` test of `resolve`)? -/
def docExistsInNs (r : Repo) (ns : Option String) : Option EsDoc → Bool
  | some d => r.rawDocExistsInNamespace d.source ns
  | none => false

/-- `incrementResolveOutcomeStats` (from the source): bump the outcome-keyed
counter and the total on the core usage-stats document; any failure of this
internal counter update is intentionally swallowed (the result is dropped,
the state is kept). -/
def Repo.incrementResolveOutcomeStats (r : Repo) (st : Store) (outcomeStat : String) : Store :=
  (r.incrementCounterInternal st CORE_USAGE_STATS_TYPE CORE_USAGE_STATS_ID
    [.fieldStr outcomeStat, .fieldStr RESOLVE_OUTCOME_STAT_TOTAL] {}).2

/-- `resolveExactMatch` (from the source): a plain `get`, with the
exact-match (or, on a not-found failure, the not-found) outcome counter
incremented before returning. -/
def Repo.resolveExactMatch (r : Repo) (st : Store) (type id : String)
    (nsOpt : Option String) : Except RepoError ResolveResponse × Store :=
  match r.get st type id nsOpt with
  | (.ok obj, st') =>
    (.ok { savedObject := obj, outcome := .exactMatch },
     r.incrementResolveOutcomeStats st' RESOLVE_OUTCOME_STAT_EXACT_MATCH)
  | (.error e, st') =>
    if e.isNotFoundError then
      (.error e, r.incrementResolveOutcomeStats st' RESOLVE_OUTCOME_STAT_NOT_FOUND)
    else (.error e, st')

/-- `resolve` (from the source): disallowed type is `NotFound`; in the
default namespace no alias can exist, so the exact match is attempted
directly; otherwise the alias record is read-and-bumped by script, a
disabled or missing alias falls back to the exact match, and otherwise one
batched read fetches both candidate documents and classifies the outcome as
conflict / exactMatch / aliasMatch / not-found, incrementing the
outcome-keyed stat before returning. -/
def Repo.resolve (r : Repo) (st : Store) (type id : String) (nsOpt : Option String) :
    Except RepoError ResolveResponse × Store :=
  if !r.allowedTypes.contains type then (.error (.notFound type id), st)
  else
    match normalizeNamespace nsOpt with
    | .error e => (.error e, st)
    | .ok none => r.resolveExactMatch st type id nsOpt
    | .ok (some n) =>
      let rawAliasId := r.generateRawLegacyUrlAliasId n type id
      let time := r.now
      match esUpdateAlias st (r.getIndexForType LEGACY_URL_ALIAS_TYPE) rawAliasId time with
      | (.error e, st') => (.error (decorateEsErr type id e), st')
      | (.ok none, st') => r.resolveExactMatch st' type id nsOpt
      | (.ok (some postSrc), st') =>
        match postSrc.legacyAlias with
        | none => (.error (.esError "document at the alias raw id is not an alias"), st')
        | some legacyUrlAlias =>
          if legacyUrlAlias.disabled == true then r.resolveExactMatch st' type id nsOpt
          else
            let objectIndex := r.getIndexForType type
            let ns := some n
            match esMget st' [(objectIndex, r.generateRawId ns type id),
                              (objectIndex, r.generateRawId ns type legacyUrlAlias.targetId)] with
            | (docs, st'') =>
              let exactMatchDoc := (docs.get? 0).join
              let aliasMatchDoc := (docs.get? 1).join
              let foundExactMatch :=
                match exactMatchDoc with
                | some d => r.rawDocExistsInNamespace d.source ns
                | none => false
              let foundAliasMatch :=
                match aliasMatchDoc with
                | some d => r.rawDocExistsInNamespace d.source ns
                | none => false
              if foundExactMatch && foundAliasMatch then
                (.ok { savedObject :=
                         getSavedObjectFromSource r type id (exactMatchDoc.getD default)
                       outcome := .conflictOutcome
                       aliasTargetId := some legacyUrlAlias.targetId },
                 r.incrementResolveOutcomeStats st'' RESOLVE_OUTCOME_STAT_CONFLICT)
              else if foundExactMatch then
                (.ok { savedObject :=
                         getSavedObjectFromSource r type id (exactMatchDoc.getD default)
                       outcome := .exactMatch },
                 r.incrementResolveOutcomeStats st'' RESOLVE_OUTCOME_STAT_EXACT_MATCH)
              else if foundAliasMatch then
                (.ok { savedObject :=
                         getSavedObjectFromSource r type legacyUrlAlias.targetId
                           (aliasMatchDoc.getD default)
                       outcome := .aliasMatch
                       aliasTargetId := some legacyUrlAlias.targetId },
                 r.incrementResolveOutcomeStats st'' RESOLVE_OUTCOME_STAT_ALIAS_MATCH)
              else
                (.error (.notFound type id),
                 r.incrementResolveOutcomeStats st'' RESOLVE_OUTCOME_STAT_NOT_FOUND)

/-! ## The two-phase "expected results" pattern of the bulk operations -/

/-- The source's `Left` / `Right` tagged union for per-item bulk results. -/
inductive Either (L V : Type)
  | left (l : L)
  | right (v : V)
deriving DecidableEq, Repr

/-- Truthiness of an optional string (an absent or empty id is falsy). -/
def strOptTruthy (o : Option String) : Bool :=
  !((o.getD "").isEmpty)

/-- Phase 1 of a bulk operation: classify each input into an already-failed
`left` or a provisionally-valid `right`, assigning consecutive batch indices
(the source's `bulkGetRequestIndexCounter` pattern) to the rights that
require a slot in the batched multi-get.  `f` also receives the input's
position (used only for generated ids); `pos` is the current position and
`c` the next free batch index. -/
def assignIndices (f : Nat → α → Either L (V × Bool)) :
    Nat → Nat → List α → List (Either L (V × Option Nat))
  | _, _, [] => []
  | pos, c, a :: rest =>
    match f pos a with
    | .left l => .left l :: assignIndices f (pos + 1) c rest
    | .right (v, true) => .right (v, some c) :: assignIndices f (pos + 1) (c + 1) rest
    | .right (v, false) => .right (v, none) :: assignIndices f (pos + 1) c rest

/-- The right values that received a batch index, in batch order. -/
def idxItems (f : Nat → α → Either L (V × Bool)) : Nat → List α → List V
  | _, [] => []
  | pos, a :: rest =>
    match f pos a with
    | .right (v, true) => v :: idxItems f (pos + 1) rest
    | _ => idxItems f (pos + 1) rest

/-- Phase 2 of a bulk operation: zip the batched responses back to the
expected results by batch index; `left` entries are reproduced verbatim
through `leftF`. -/
def phase2Map (resp : List D) (leftF : L → S) (rightIdxF : V → Option D → S)
    (rightNoIdxF : V → S) : List (Either L (V × Option Nat)) → List S :=
  List.map fun e =>
    match e with
    | .left l => leftF l
    | .right (v, some i) => rightIdxF v (resp.get? i)
    | .right (v, none) => rightNoIdxF v

/-- Extract the batched request entries of the indexed rights (the source's
`filter(isRight).filter(esRequestIndex !== undefined).map(...)`). -/
def idxRequests (build : V → D) (es : List (Either L (V × Option Nat))) : List D :=
  es.filterMap fun e =>
    match e with
    | .right (v, some _) => some (build v)
    | _ => none

/-- `List.map` with access to each element's absolute position. -/
def mapPos (f : Nat → α → β) : Nat → List α → List β
  | _, [] => []
  | pos, a :: rest => f pos a :: mapPos f (pos + 1) rest

/-- `List.filterMap` with access to each element's absolute position. -/
def filterMapPos (f : Nat → α → Option β) : Nat → List α → List β
  | _, [] => []
  | pos, a :: rest =>
    match f pos a with
    | some b => b :: filterMapPos f (pos + 1) rest
    | none => filterMapPos f (pos + 1) rest

/-- A per-item failure record `{id, type, error}` of a bulk operation
(`isNotOverwritable` models the conflict metadata of `bulkCreate` /
`checkConflicts`). -/
structure BulkErrSlot where
  id : Option String
  type : String
  error : RepoError
  isNotOverwritable : Bool := false
deriving DecidableEq, Repr

/-- A slot of a bulk result array: the saved object or the item's error. -/
inductive BulkSlot
  | failure (e : BulkErrSlot)
  | success (obj : SavedObject)
deriving DecidableEq, Repr

/-- Modelled from the spec: `getBulkOperationError` — a store bulk item's
version-conflict is a `Conflict`, a missing document a `NotFound`, anything
else unclassified; a successful item has no error. -/
def getBulkOperationError (type id : String) : BulkItemRes → Option RepoError
  | .okRes _ _ _ => none
  | .errRes e => some (decorateEsErr type id e)

/-! ## bulkGet -/

structure BulkGetObj where
  type : String
  id : String
  fields : Option (List String) := none
deriving DecidableEq, Repr

/-- Phase-1 classification of one `bulkGet` input (from the source): an
unregistered type is an `UnsupportedType` left; every right takes a slot in
the batched multi-get. -/
def Repo.bulkGetPhase1 (r : Repo) (_pos : Nat) (object : BulkGetObj) :
    Either BulkErrSlot (BulkGetObj × Bool) :=
  if !r.allowedTypes.contains object.type then
    .left { id := some object.id, type := object.type,
            error := .unsupportedType object.type }
  else .right (object, true)

/-- The multi-get entry of one valid `bulkGet` input. -/
def Repo.bulkGetDocOf (r : Repo) (ns : Option String) (v : BulkGetObj) : String × String :=
  (r.getIndexForType v.type, r.generateRawId ns v.type v.id)

/-- The result slot of one valid `bulkGet` input given its multi-get
response: missing or namespace-invisible documents are a per-item
`NotFound`. -/
def Repo.bulkGetRightSlot (r : Repo) (ns : Option String) (v : BulkGetObj)
    (doc : Option (Option EsDoc)) : BulkSlot :=
  match doc.join with
  | some d =>
    if !r.rawDocExistsInNamespace d.source ns then
      .failure { id := some v.id, type := v.type, error := .notFound v.type v.id }
    else .success (getSavedObjectFromSource r v.type v.id d)
  | none => .failure { id := some v.id, type := v.type, error := .notFound v.type v.id }

/-- `bulkGet` (from the source): namespace normalization, phase-1
classification, one batched multi-get for the valid items, and the zip back
to input order. -/
def Repo.bulkGet (r : Repo) (st : Store) (objects : List BulkGetObj)
    (nsOpt : Option String) : Except RepoError (List BulkSlot) × Store :=
  match normalizeNamespace nsOpt with
  | .error e => (.error e, st)
  | .ok ns =>
    if objects.isEmpty then (.ok [], st)
    else
      let es := assignIndices r.bulkGetPhase1 0 0 objects
      let bulkGetDocs := idxRequests (r.bulkGetDocOf ns) es
      let (resp, st') :=
        if bulkGetDocs.isEmpty then ([], st) else esMget st bulkGetDocs
      (.ok (phase2Map resp BulkSlot.failure (r.bulkGetRightSlot ns)
              (fun v => r.bulkGetRightSlot ns v none) es), st')

/-- The per-item semantics of `bulkGet`: what the slot for one input is, as
a function of that input and the store alone. -/
def Repo.bulkGetSlot (r : Repo) (st : Store) (ns : Option String)
    (object : BulkGetObj) : BulkSlot :=
  match r.bulkGetPhase1 0 object with
  | .left l => .failure l
  | .right (v, _) =>
    let d := r.bulkGetDocOf ns v
    r.bulkGetRightSlot ns v (some (st.getDoc d.1 d.2))

/-! ## checkConflicts -/

structure CheckConflictsObj where
  type : String
  id : String
deriving DecidableEq, Repr

/-- Phase-1 classification of one `checkConflicts` input (from the source). -/
def Repo.checkConflictsPhase1 (r : Repo) (_pos : Nat) (object : CheckConflictsObj) :
    Either BulkErrSlot (CheckConflictsObj × Bool) :=
  if !r.allowedTypes.contains object.type then
    .left { id := some object.id, type := object.type,
            error := .unsupportedType object.type }
  else .right (object, true)

/-- The per-item error of one valid `checkConflicts` input given its
multi-get response: an existing document is a `Conflict`, marked
not-overwritable when it is invisible in the target namespace. -/
def Repo.checkConflictsRightSlot (r : Repo) (ns : Option String)
    (v : CheckConflictsObj) (doc : Option (Option EsDoc)) : Option BulkErrSlot :=
  match doc.join with
  | some d =>
    some { id := some v.id, type := v.type, error := .conflict v.type v.id,
           isNotOverwritable := !r.rawDocExistsInNamespace d.source ns }
  | none => none

/-- `checkConflicts` (from the source). -/
def Repo.checkConflicts (r : Repo) (st : Store) (objects : List CheckConflictsObj)
    (nsOpt : Option String) : Except RepoError (List BulkErrSlot) × Store :=
  if objects.isEmpty then (.ok [], st)
  else
    match normalizeNamespace nsOpt with
    | .error e => (.error e, st)
    | .ok ns =>
      let es := assignIndices r.checkConflictsPhase1 0 0 objects
      let bulkGetDocs := idxRequests
        (fun v => (r.getIndexForType v.type, r.generateRawId ns v.type v.id)) es
      let (resp, st') :=
        if bulkGetDocs.isEmpty then ([], st) else esMget st bulkGetDocs
      (.ok ((phase2Map resp (fun l => some l) (r.checkConflictsRightSlot ns)
              (fun v => r.checkConflictsRightSlot ns v none) es).reduceOption), st')

/-! ## bulkCreate -/

structure BulkCreateObj where
  type : String
  id : Option String := none
  attributes : Attrs := []
  references : Option (List Reference) := none
  originId : Option String := none
  initialNamespaces : Option (List String) := none
  version : Option Version := none
deriving DecidableEq, Repr

inductive BulkMethod
  | indexM
  | createM
deriving DecidableEq, Repr

/-- A phase-1 right of `bulkCreate`: the chosen store method and the object
(with its id generated when the caller supplied none). -/
structure BulkCreateRight where
  method : BulkMethod
  object : BulkCreateObj
deriving DecidableEq, Repr

/-- Phase-1 classification of one `bulkCreate` input (from the source):
unregistered type or invalid initial namespaces is a left; the method is
`index` for an overwrite of an explicit id, else `create`; only explicit-id
multi-namespace inputs need a preflight multi-get slot; a missing id is
generated (modelled by an injective position-indexed uuid supply). -/
def Repo.bulkCreatePhase1 (r : Repo) (overwrite : Bool) (pos : Nat)
    (object : BulkCreateObj) : Either BulkErrSlot (BulkCreateRight × Bool) :=
  let error : Option RepoError :=
    if !r.allowedTypes.contains object.type then some (.unsupportedType object.type)
    else
      match r.validateInitialNamespaces object.type object.initialNamespaces with
      | .error e => some e
      | .ok _ => none
  match error with
  | some e => .left { id := object.id, type := object.type, error := e }
  | none =>
    let method := if strOptTruthy object.id && overwrite then BulkMethod.indexM
                  else BulkMethod.createM
    let requiresNamespacesCheck := strOptTruthy object.id && r.isMultiNamespace object.type
    let objectId := object.id.getD (r.freshId pos)
    .right ({ method := method, object := { object with id := some objectId } },
            requiresNamespacesCheck)

/-- The multi-get entry of one preflight-needing `bulkCreate` right. -/
def Repo.bulkCreateDocOf (r : Repo) (ns : Option String) (v : BulkCreateRight) :
    String × String :=
  (r.getIndexForType v.object.type,
   r.generateRawId ns v.object.type (v.object.id.getD ""))

/-- A phase-2 right of `bulkCreate`: everything needed for the item's slot
in the physical bulk request and for decoding its response. -/
structure BulkCreateW where
  method : BulkMethod
  requestedId : String
  index : String
  rawId : String
  rawSource : DocSource
  versionProperties : Option (Nat × Nat)
deriving DecidableEq, Repr

/-- Phase-2 classification of one `bulkCreate` expected result (from the
source): with a preflight response (`pre = some actualResult`), an existing
document invisible in the target namespace is a not-overwritable `Conflict`
left, else the existing namespace list is preserved and the document's
concurrency pair becomes the version precondition; without one, namespaces
are assigned per type classification.  Every right takes a slot in the
physical bulk request. -/
def Repo.bulkCreatePhase2R (r : Repo) (ns : Option String) (time : String)
    (v : BulkCreateRight) (pre : Option (Option EsDoc)) :
    Either BulkErrSlot (BulkCreateW × Bool) :=
  let object := v.object
  let id := object.id.getD ""
  let next : Either BulkErrSlot
      ((Option String × Option (List String)) × Option (Nat × Nat)) :=
    match pre with
    | some actualResult =>
      let docFound := actualResult.isSome
      if docFound
          && !(r.rawDocExistsInNamespace (actualResult.getD default).source ns) then
        .left { id := some id, type := object.type,
                error := .conflict object.type id, isNotOverwritable := true }
      else
        .right ((none,
                 object.initialNamespaces.orElse fun _ =>
                   getSavedObjectNamespaces ns (if docFound then actualResult else none)),
                getExpectedVersionProperties object.version actualResult)
    | none =>
      if r.isSingleNamespace object.type then
        .right (((match object.initialNamespaces with
                  | some l => l.head?
                  | none => ns), none),
                getExpectedVersionProperties object.version none)
      else if r.isMultiNamespace object.type then
        .right ((none,
                 object.initialNamespaces.orElse fun _ =>
                   getSavedObjectNamespaces ns none),
                getExpectedVersionProperties object.version none)
      else .right ((none, none), getExpectedVersionProperties object.version none)
  match next with
  | .left l => .left l
  | .right ((savedObjectNamespace, savedObjectNamespaces), versionProperties) =>
    let rawSource : DocSource :=
      { type := object.type
        nsId := savedObjectNamespace
        namespaces := savedObjectNamespaces
        originId := object.originId
        attributes := object.attributes
        references := object.references.getD []
        updatedAt := some time }
    .right ({ method := v.method
              requestedId := id
              index := r.getIndexForType object.type
              rawId := r.generateRawId savedObjectNamespace object.type id
              rawSource := rawSource
              versionProperties := versionProperties }, true)

/-- Phase 2 over the expected results, feeding each indexed right its slice
of the batched multi-get response (`docs[esRequestIndex]`, missing slots
treated as not found). -/
def Repo.bulkCreatePhase2 (r : Repo) (ns : Option String) (time : String)
    (resp1 : List (Option EsDoc)) :
    Either BulkErrSlot (BulkCreateRight × Option Nat) →
    Either BulkErrSlot (BulkCreateW × Bool)
  | .left l => .left l
  | .right (v, oi) =>
    r.bulkCreatePhase2R ns time v (oi.map fun i => (resp1.get? i).join)

/-- The physical bulk sub-operation of one phase-2 right (from the source):
the version precondition is attached only under `overwrite` (and only
`index` operations carry one). -/
def bulkCreateOpOf (overwrite : Bool) (w : BulkCreateW) : BulkOp :=
  match w.method with
  | .indexM => .indexDoc w.index w.rawId w.rawSource
      (if overwrite then w.versionProperties else none)
  | .createM => .createDoc w.index w.rawId w.rawSource

/-- The result slot of one phase-2 right given its bulk response item. -/
def Repo.bulkCreateRightSlot (r : Repo) (w : BulkCreateW)
    (res : Option BulkItemRes) : BulkSlot :=
  match res with
  | none =>
    .failure { id := some w.requestedId, type := w.rawSource.type,
               error := .esError "missing bulk response item" }
  | some item =>
    match getBulkOperationError w.rawSource.type w.requestedId item with
    | some err => .failure { id := some w.requestedId, type := w.rawSource.type,
                             error := err }
    | none =>
      match item with
      | .okRes s p _ => .success (r.rawToSavedObject w.requestedId ⟨w.rawSource, s, p⟩)
      | .errRes _ => .failure { id := some w.requestedId, type := w.rawSource.type,
                                error := .esError "unreachable" }

/-- `bulkCreate` (from the source): namespace normalization, phase-1
classification with batch-index bookkeeping, one batched multi-get for the
preflight-needing items, phase-2 classification (preserving existing
namespace lists and deriving version preconditions), one physical bulk
write, and the zip back to input order. -/
def Repo.bulkCreate (r : Repo) (st : Store) (objects : List BulkCreateObj)
    (overwrite : Bool) (nsOpt : Option String) :
    Except RepoError (List BulkSlot) × Store :=
  match normalizeNamespace nsOpt with
  | .error e => (.error e, st)
  | .ok ns =>
    let time := r.now
    let es1 := assignIndices (r.bulkCreatePhase1 overwrite) 0 0 objects
    let bulkGetDocs := idxRequests (r.bulkCreateDocOf ns) es1
    let (resp1, st') :=
      if bulkGetDocs.isEmpty then ([], st) else esMget st bulkGetDocs
    let es2 := assignIndices (fun _ e => r.bulkCreatePhase2 ns time resp1 e) 0 0 es1
    let bulkCreateParams := idxRequests (bulkCreateOpOf overwrite) es2
    let (resp2, st'') :=
      if bulkCreateParams.isEmpty then ([], st') else esBulk st' bulkCreateParams
    (.ok (phase2Map resp2 BulkSlot.failure r.bulkCreateRightSlot
            (fun w => r.bulkCreateRightSlot w none) es2), st'')

/-- The per-item semantics of `bulkCreate`: the slot for one input as a
function of that input, its position, and the store alone. -/
def Repo.bulkCreateSlot (r : Repo) (st : Store) (ns : Option String)
    (overwrite : Bool) (pos : Nat) (object : BulkCreateObj) : BulkSlot :=
  match r.bulkCreatePhase1 overwrite pos object with
  | .left l => .failure l
  | .right (v, needsCheck) =>
    match r.bulkCreatePhase2R ns r.now v
        (if needsCheck then
          some (st.getDoc (r.bulkCreateDocOf ns v).1 (r.bulkCreateDocOf ns v).2)
        else none) with
    | .left l => .failure l
    | .right (w, _) =>
      r.bulkCreateRightSlot w (some (applyBulkOp st (bulkCreateOpOf overwrite w)).1)

/-! ## bulkUpdate -/

structure BulkUpdateObj where
  type : String
  id : String
  attributes : Attrs := []
  references : Option (List Reference) := none
  version : Option Version := none
  nsObj : Option String := none
deriving DecidableEq, Repr

/-- A phase-1 right of `bulkUpdate`. -/
structure BulkUpdateRight where
  type : String
  id : String
  version : Option Version
  documentToSave : DocPatch
  nsObj : Option String
deriving DecidableEq, Repr

/-- Phase-1 classification of one `bulkUpdate` input (from the source): an
unregistered type is a per-item `NotFound` left; a per-object namespace of
`'*'` is a per-item `BadRequest` left; only multi-namespace inputs need a
preflight multi-get slot. -/
def Repo.bulkUpdatePhase1 (r : Repo) (time : String) (_pos : Nat)
    (object : BulkUpdateObj) : Either BulkErrSlot (BulkUpdateRight × Bool) :=
  if !r.allowedTypes.contains object.type then
    .left { id := some object.id, type := object.type,
            error := .notFound object.type object.id }
  else if object.nsObj == some ALL_NAMESPACES_STRING then
    .left { id := some object.id, type := object.type,
            error := .badRequest "namespace cannot be *" }
  else
    .right ({ type := object.type
              id := object.id
              version := object.version
              documentToSave := { attributes := object.attributes, updatedAt := time,
                                  references := object.references }
              nsObj := object.nsObj },
            r.isMultiNamespace object.type)

/-- `getNamespaceId` (from the source): a per-object namespace string
supersedes the operation's namespace id. -/
def getNamespaceId (ns : Option String) (nsObj : Option String) : Option String :=
  match nsObj with
  | some s => namespaceStringToId s
  | none => ns

/-- `getNamespaceString` (from the source). -/
def getNamespaceString (ns : Option String) (nsObj : Option String) : String :=
  nsObj.getD (namespaceIdToString ns)

/-- The multi-get entry of one preflight-needing `bulkUpdate` right. -/
def Repo.bulkUpdateDocOf (r : Repo) (ns : Option String) (v : BulkUpdateRight) :
    String × String :=
  (r.getIndexForType v.type, r.generateRawId (getNamespaceId ns v.nsObj) v.type v.id)

/-- A phase-2 right of `bulkUpdate`. -/
structure BulkUpdateW where
  type : String
  id : String
  namespaces : Option (List String)
  documentToSave : DocPatch
  nsObj : Option String
  versionProperties : Option (Nat × Nat)
deriving DecidableEq, Repr

/-- Phase-2 classification of one `bulkUpdate` expected result (from the
source): with a preflight response (`pre = some actualResult`), a missing or
namespace-invisible document is a per-item `NotFound` left, else its
namespace list is carried into the response and its concurrency pair becomes
the fallback version precondition; without one, a single-namespace object's
namespace string is derived from the per-object or operation namespace. -/
def Repo.bulkUpdatePhase2R (r : Repo) (ns : Option String) (v : BulkUpdateRight) :
    Option (Option EsDoc) → Either BulkErrSlot (BulkUpdateW × Bool)
  | some actualResult =>
    let docFound := actualResult.isSome
    if !docFound
        || !(r.rawDocExistsInNamespace (actualResult.getD default).source
              (getNamespaceId ns v.nsObj)) then
      .left { id := some v.id, type := v.type, error := .notFound v.type v.id }
    else
      let d := actualResult.getD default
      .right ({ type := v.type, id := v.id
                namespaces := some (d.source.namespaces.getD
                  [namespaceIdToString d.source.nsId])
                documentToSave := v.documentToSave
                nsObj := v.nsObj
                versionProperties := getExpectedVersionProperties v.version actualResult },
              true)
  | none =>
    .right ({ type := v.type, id := v.id
              namespaces :=
                if r.isSingleNamespace v.type then
                  some [getNamespaceString ns v.nsObj]
                else none
              documentToSave := v.documentToSave
              nsObj := v.nsObj
              versionProperties := getExpectedVersionProperties v.version none },
            true)

/-- Phase 2 over the expected results, feeding each indexed right its slice
of the batched multi-get response. -/
def Repo.bulkUpdatePhase2 (r : Repo) (ns : Option String)
    (resp1 : List (Option EsDoc)) :
    Either BulkErrSlot (BulkUpdateRight × Option Nat) →
    Either BulkErrSlot (BulkUpdateW × Bool)
  | .left l => .left l
  | .right (v, oi) =>
    r.bulkUpdatePhase2R ns v (oi.map fun i => (resp1.get? i).join)

/-- The physical bulk sub-operation of one phase-2 right (from the source). -/
def Repo.bulkUpdateOpOf (r : Repo) (ns : Option String) (w : BulkUpdateW) : BulkOp :=
  .updateDoc (r.getIndexForType w.type)
    (r.generateRawId (getNamespaceId ns w.nsObj) w.type w.id)
    w.documentToSave w.versionProperties

/-- The result slot of one phase-2 right given its bulk response item. -/
def bulkUpdateRightSlot (w : BulkUpdateW) (res : Option BulkItemRes) : BulkSlot :=
  match res with
  | none =>
    .failure { id := some w.id, type := w.type,
               error := .esError "missing bulk response item" }
  | some item =>
    match getBulkOperationError w.type w.id item with
    | some err => .failure { id := some w.id, type := w.type, error := err }
    | none =>
      match item with
      | .okRes s p getSource =>
        .success { id := w.id
                   type := w.type
                   namespaces := w.namespaces
                   originId := (getSource.getD default).originId
                   updatedAt := some w.documentToSave.updatedAt
                   version := some (encodeVersion s p)
                   attributes := w.documentToSave.attributes
                   references := w.documentToSave.references.getD [] }
      | .errRes _ => .failure { id := some w.id, type := w.type,
                                error := .esError "unreachable" }

/-- `bulkUpdate` (from the source): namespace normalization, phase-1
classification, one batched multi-get for the multi-namespace items,
phase-2 classification, one physical bulk of partial-document updates
carrying the per-item version preconditions, and the zip back to input
order. -/
def Repo.bulkUpdate (r : Repo) (st : Store) (objects : List BulkUpdateObj)
    (nsOpt : Option String) : Except RepoError (List BulkSlot) × Store :=
  let time := r.now
  match normalizeNamespace nsOpt with
  | .error e => (.error e, st)
  | .ok ns =>
    let es1 := assignIndices (r.bulkUpdatePhase1 time) 0 0 objects
    let bulkGetDocs := idxRequests (r.bulkUpdateDocOf ns) es1
    let (resp1, st') :=
      if bulkGetDocs.isEmpty then ([], st) else esMget st bulkGetDocs
    let es2 := assignIndices (fun _ e => r.bulkUpdatePhase2 ns resp1 e) 0 0 es1
    let bulkUpdateParams := idxRequests (r.bulkUpdateOpOf ns) es2
    let (resp2, st'') :=
      if bulkUpdateParams.isEmpty then ([], st') else esBulk st' bulkUpdateParams
    (.ok (phase2Map resp2 BulkSlot.failure bulkUpdateRightSlot
            (fun w => bulkUpdateRightSlot w none) es2), st'')

/-- The per-item semantics of `bulkUpdate`: the slot for one input as a
function of that input and the store alone. -/
def Repo.bulkUpdateSlot (r : Repo) (st : Store) (ns : Option String)
    (object : BulkUpdateObj) : BulkSlot :=
  match r.bulkUpdatePhase1 r.now 0 object with
  | .left l => .failure l
  | .right (v, needsCheck) =>
    match r.bulkUpdatePhase2R ns v
        (if needsCheck then
          some (st.getDoc (r.bulkUpdateDocOf ns v).1 (r.bulkUpdateDocOf ns v).2)
        else none) with
    | .left l => .failure l
    | .right (w, _) =>
      bulkUpdateRightSlot w (some (applyBulkOp st (r.bulkUpdateOpOf ns w)).1)

/-! ## find -/

/-- The `type` option: a single string or an array. -/
inductive TypeArg
  | one (s : String)
  | many (l : List String)
deriving DecidableEq, Repr

/-- Truthiness of the `type` option (an empty string is falsy; any array,
even an empty one, is truthy). -/
def TypeArg.truthy : Option TypeArg → Bool
  | none => false
  | some (.one s) => !s.isEmpty
  | some (.many _) => true

structure FindOptions where
  search : Option String := none
  page : Option Int := none
  perPage : Option Int := none
  pit : Option String := none
  searchAfter : Option SearchAfter := none
  sortField : Option String := none
  fields : Option (List String) := none
  namespaces : Option (List String) := none
  type : Option TypeArg := none
  typeToNamespacesMap : Option (List (String × List String)) := none
  preference : Option String := none
deriving DecidableEq, Repr

structure FindResponse where
  page : Int
  perPage : Int
  total : Int
  savedObjects : List SavedObject
deriving DecidableEq, Repr

/-- The precondition checks of `find` (from the source), in source order:
exactly one of `type` / `typeToNamespacesMap`; no empty `namespaces` array
without the map, and only an (explicitly) empty one with it; no `preference`
together with a point-in-time. -/
def findPrecheck (options : FindOptions) : Option RepoError :=
  if !TypeArg.truthy options.type && options.typeToNamespacesMap.isNone then
    some (.badRequest "options.type must be a string or an array of strings")
  else if options.namespaces == some [] && options.typeToNamespacesMap.isNone then
    some (.badRequest "options.namespaces cannot be an empty array")
  else if TypeArg.truthy options.type && options.typeToNamespacesMap.isSome then
    some (.badRequest "options.type must be an empty string when options.typeToNamespacesMap is used")
  else if (options.namespaces.isNone || (options.namespaces.getD []).length != 0)
      && options.typeToNamespacesMap.isSome then
    some (.badRequest "options.namespaces must be an empty array when options.typeToNamespacesMap is used")
  else if !(options.preference.getD "").isEmpty && options.pit.isSome then
    some (.badRequest "options.preference must be excluded when options.pit is used")
  else none

/-- The search request `find` issues (the source's `esOptions`): the
top-level `from` offset is dropped when a `searchAfter` cursor is supplied,
the index list is dropped when a point-in-time is supplied, and the body
carries size/from plus the search DSL inputs. -/
def Repo.buildFindRequest (r : Repo) (options : FindOptions)
    (allowedTypes : List String) : EsSearchRequest :=
  let page := options.page.getD FIND_DEFAULT_PAGE
  let perPage := options.perPage.getD FIND_DEFAULT_PER_PAGE
  { indexParam := if options.pit.isSome then none
                  else some (r.getIndicesForTypes allowedTypes)
    fromParam := if options.searchAfter.isSome then none
                 else some (perPage * (page - 1))
    preference := options.preference
    size := perPage
    bodySize := perPage
    bodyFrom := perPage * (page - 1)
    search := options.search
    pit := options.pit
    types := allowedTypes
    searchAfter := options.searchAfter
    sortField := options.sortField
    namespaces := options.namespaces }

/-- The types a find query targets after the allowed-type filter (from the
source: `type ? (array or singleton) : typeToNamespacesMap keys`, filtered
to the allowed set). -/
def Repo.findAllowedTypes (r : Repo) (options : FindOptions) : List String :=
  (if TypeArg.truthy options.type then
      match options.type with
      | some (.one s) => [s]
      | some (.many l) => l
      | none => []
    else (options.typeToNamespacesMap.getD []).map (·.1)).filter r.allowedTypes.contains

/-- `find` (from the source): precondition checks before any store call, the
allowed-type filter (an empty remainder short-circuits to an empty response
without a store call), then one search request.  The model returns the empty
hit list (search evaluation is external); structured filters and
aggregations are not modelled (no claim concerns them). -/
def Repo.find (r : Repo) (st : Store) (options : FindOptions) :
    Except RepoError FindResponse × Store :=
  let page := options.page.getD FIND_DEFAULT_PAGE
  let perPage := options.perPage.getD FIND_DEFAULT_PER_PAGE
  match findPrecheck options with
  | some e => (.error e, st)
  | none =>
    let allowedTypes := r.findAllowedTypes options
    if allowedTypes.isEmpty then
      (.ok { page := page, perPage := perPage, total := 0, savedObjects := [] }, st)
    else
      let st' := esSearch st (r.buildFindRequest options allowedTypes)
      (.ok { page := page, perPage := perPage, total := 0, savedObjects := [] }, st')

/-! ## removeReferencesTo -/

structure RemoveReferencesToOptions where
  nsOpt : Option String := none
  refresh : Bool := true
deriving DecidableEq, Repr

/-- `removeReferencesTo` (from the source): one update-by-query sweep over
all types' indices removing the matching reference entries (script
semantics store-side); any reported failures surface as a `Conflict`.  Note
the source uses `options.namespace` directly, without `normalizeNamespace`. -/
def Repo.removeReferencesTo (r : Repo) (st : Store) (type id : String)
    (options : RemoveReferencesToOptions) : Except RepoError Nat × Store :=
  let ns := options.nsOpt
  let allTypes := r.allTypes
  match esUpdateByQuery st (ns.map fun n => [n]) allTypes with
  | ((updated, failures), st') =>
    if failures.length != 0 then (.error (.conflict type id), st')
    else (.ok updated, st')

/-- The stored value of one counter field of one document (observable
consequence of the counter-increment script). -/
def Store.counterVal (st : Store) (index id field : String) : Option Int :=
  (st.getDoc index id).bind fun d =>
    (d.source.attributes.find? fun kv => kv.1 == field).map (·.2)

/-! ## Sample fixtures (used by the concrete witnesses below) -/

/-- A sample type registry: one type per namespace classification. -/
def sampleRegistry : String → NsKind
  | "dash" => .single
  | "share" => .multiShareable
  | "iso" => .multiIsolated
  | "conf" => .agnostic
  | _ => .single

def sampleRepo : Repo :=
  { allowedTypes := ["dash", "share", "iso", "conf"]
    allTypes := ["dash", "share", "iso", "conf"]
    nsKindOf := sampleRegistry
    now := "T1"
    freshId := fun n => "gen" ++ toString n }

def emptyStore : Store := {}

/-- A store holding one single-namespace `dash` document (default namespace)
and one shared `share` document that lives in namespaces `a` and `b`. -/
def sampleStore : Store :=
  { docs :=
      [(("kibana", "dash:w1"),
        ⟨{ type := "dash", attributes := [("n", 1)], updatedAt := some "T0" }, 4, 2⟩),
       (("kibana", "share:s1"),
        ⟨{ type := "share", namespaces := some ["a", "b"],
           attributes := [("m", 7)], updatedAt := some "T0" }, 9, 3⟩)] }

/-- A store holding a non-disabled legacy alias for
(namespace `a`, `share`, `old1`) targeting `new1`, and the target document
(no direct-id document), for the resolve witnesses. -/
def resolveStore : Store :=
  { docs :=
      [(("kibana", "legacy-url-alias:a:share:old1"),
        ⟨{ type := "legacy-url-alias",
           legacyAlias := some { targetId := "new1" } }, 0, 1⟩),
       (("kibana", "share:new1"),
        ⟨{ type := "share", namespaces := some ["a"],
           attributes := [("m", 1)] }, 2, 1⟩)] }

/-!
# Theorems
-/

/-- Every `findPrecheck` failure is a bad-request error. -/
theorem findPrecheck_badRequest {options : FindOptions} {e : RepoError}
    (h : findPrecheck options = some e) : ∃ msg, e = .badRequest msg := by
  unfold findPrecheck at h
  split at h
  · exact ⟨_, (Option.some.inj h).symm⟩
  · split at h
    · exact ⟨_, (Option.some.inj h).symm⟩
    · split at h
      · exact ⟨_, (Option.some.inj h).symm⟩
      · split at h
        · exact ⟨_, (Option.some.inj h).symm⟩
        · split at h
          · exact ⟨_, (Option.some.inj h).symm⟩
          · exact absurd h (by simp)

/-- `find` returns the precheck error with the store untouched. -/
theorem find_error_of_precheck (r : Repo) (st : Store) (options : FindOptions)
    (h : (findPrecheck options).isSome = true) :
    (∃ msg, (r.find st options).1 = .error (.badRequest msg)) ∧ (r.find st options).2 = st := by
  obtain ⟨e, he⟩ := Option.isSome_iff_exists.mp h
  obtain ⟨msg, rfl⟩ := findPrecheck_badRequest he
  constructor
  · exact ⟨msg, by simp only [Repo.find, he]⟩
  · simp only [Repo.find, he]

/-- C5: every find call whose options violate a precondition — neither
`type` nor `typeToNamespacesMap`, both, an explicit non-empty `namespaces`
list with the map, an empty `namespaces` array without it, or `preference`
together with a point-in-time — fails with a BadRequest error before issuing
any store query (the store, including its request log, is returned
untouched). -/
theorem claim_C5_find_precondition_errors (r : Repo) (st : Store) (options : FindOptions) :
    ((TypeArg.truthy options.type = false ∧ options.typeToNamespacesMap = none) →
       (∃ msg, (r.find st options).1 = .error (.badRequest msg)) ∧ (r.find st options).2 = st)
  ∧ ((TypeArg.truthy options.type = true ∧ options.typeToNamespacesMap ≠ none) →
       (∃ msg, (r.find st options).1 = .error (.badRequest msg)) ∧ (r.find st options).2 = st)
  ∧ (∀ l, (options.namespaces = some l ∧ l ≠ [] ∧ options.typeToNamespacesMap ≠ none) →
       (∃ msg, (r.find st options).1 = .error (.badRequest msg)) ∧ (r.find st options).2 = st)
  ∧ ((options.namespaces = some [] ∧ options.typeToNamespacesMap = none) →
       (∃ msg, (r.find st options).1 = .error (.badRequest msg)) ∧ (r.find st options).2 = st)
  ∧ (∀ p, (options.preference = some p ∧ p ≠ "" ∧ options.pit.isSome = true) →
       (∃ msg, (r.find st options).1 = .error (.badRequest msg)) ∧ (r.find st options).2 = st) := by
  refine ⟨?_, ?_, ?_, ?_, ?_⟩
  · rintro ⟨h1, h2⟩
    exact find_error_of_precheck r st options (by simp [findPrecheck, h1, h2])
  · rintro ⟨h1, h2⟩
    obtain ⟨m, hm⟩ := Option.ne_none_iff_exists.mp h2
    exact find_error_of_precheck r st options (by simp [findPrecheck, h1, ← hm])
  · rintro l ⟨h1, h2, h3⟩
    obtain ⟨m, hm⟩ := Option.ne_none_iff_exists.mp h3
    refine find_error_of_precheck r st options ?_
    by_cases ht : TypeArg.truthy options.type <;>
      simp [findPrecheck, h1, ← hm, ht, List.length_eq_zero, h2]
  · rintro ⟨h1, h2⟩
    refine find_error_of_precheck r st options ?_
    by_cases ht : TypeArg.truthy options.type <;> simp [findPrecheck, h1, h2, ht]
  · rintro p ⟨h1, h2, h3⟩
    refine find_error_of_precheck r st options ?_
    unfold findPrecheck
    split
    · simp
    · split
      · simp
      · split
        · simp
        · split
          · simp
          · have hp : p.isEmpty = false := by
              rw [Bool.eq_false_iff]
              simp [String.isEmpty_iff, h2]
            simp [h1, h3, hp]

/-- Witness for C5 at a concrete input: `preference` together with a
point-in-time token is rejected. -/
theorem claim_C5_witness :
    (({ type := some (.one "dash"), preference := some "p", pit := some "pid" }
        : FindOptions).preference = some "p" ∧ "p" ≠ "" ∧
      ({ type := some (.one "dash"), preference := some "p", pit := some "pid" }
        : FindOptions).pit.isSome = true)
  ∧ ((∃ msg, (sampleRepo.find emptyStore
        { type := some (.one "dash"), preference := some "p", pit := some "pid" }).1
        = .error (.badRequest msg)) ∧
      (sampleRepo.find emptyStore
        { type := some (.one "dash"), preference := some "p", pit := some "pid" }).2
        = emptyStore) :=
  ⟨⟨rfl, by decide, rfl⟩,
   (claim_C5_find_precondition_errors sampleRepo emptyStore _).2.2.2.2 "p"
     ⟨rfl, by decide, rfl⟩⟩

/-- C10: when the given type is not in the allowed-type set, the error kind
depends on the operation: get, delete, update, resolve, and per-item
bulkUpdate fail with NotFound, while create, bulkCreate, checkConflicts and
incrementCounter fail with UnsupportedType; in every case the store is not
touched for the single-object paths, and bulk slots carry the per-item
error. -/
theorem claim_C10_disallowed_type_error_kinds (r : Repo) (st : Store)
    (type id : String) (ht : r.allowedTypes.contains type = false) :
    (∀ nsOpt, (r.get st type id nsOpt).1 = .error (.notFound type id)
        ∧ (r.get st type id nsOpt).2 = st)
  ∧ (∀ options, (r.delete st type id options).1 = .error (.notFound type id)
        ∧ (r.delete st type id options).2 = st)
  ∧ (∀ attrs options, (r.update st type id attrs options).1 = .error (.notFound type id)
        ∧ (r.update st type id attrs options).2 = st)
  ∧ (∀ nsOpt, (r.resolve st type id nsOpt).1 = .error (.notFound type id)
        ∧ (r.resolve st type id nsOpt).2 = st)
  ∧ (∀ attrs refs ver nsObj nsOpt ns, normalizeNamespace nsOpt = .ok ns →
      (r.bulkUpdate st [{ type := type, id := id, attributes := attrs,
                          references := refs, version := ver, nsObj := nsObj }] nsOpt).1
        = .ok [.failure { id := some id, type := type, error := .notFound type id }])
  ∧ (∀ attrs options ns, options.initialNamespaces = none →
      normalizeNamespace options.nsOpt = .ok ns →
      (r.create st type attrs options).1 = .error (.unsupportedType type)
        ∧ (r.create st type attrs options).2 = st)
  ∧ (∀ oid attrs overwrite nsOpt ns, normalizeNamespace nsOpt = .ok ns →
      (r.bulkCreate st [{ type := type, id := oid, attributes := attrs }] overwrite nsOpt).1
        = .ok [.failure { id := oid, type := type, error := .unsupportedType type }])
  ∧ (∀ nsOpt ns, normalizeNamespace nsOpt = .ok ns →
      (r.checkConflicts st [{ type := type, id := id }] nsOpt).1
        = .ok [{ id := some id, type := type, error := .unsupportedType type }])
  ∧ (∀ cf options, cf.all CounterFieldArg.isWellFormed = true →
      (r.incrementCounter st type id cf options).1 = .error (.unsupportedType type)
        ∧ (r.incrementCounter st type id cf options).2 = st) := by
  have ht' : ¬ type ∈ r.allowedTypes := by simpa using ht
  refine ⟨?_, ?_, ?_, ?_, ?_, ?_, ?_, ?_, ?_⟩
  · intro nsOpt; simp [Repo.get, ht, ht']
  · intro options; simp [Repo.delete, ht, ht']
  · intro attrs options; simp [Repo.update, ht, ht']
  · intro nsOpt; simp [Repo.resolve, ht, ht']
  · intro attrs refs ver nsObj nsOpt ns hns
    simp [Repo.bulkUpdate, hns, assignIndices, Repo.bulkUpdatePhase1, ht, ht',
      Repo.bulkUpdatePhase2, Repo.bulkUpdatePhase2R, idxRequests, phase2Map, esBulk, runBulkOps]
  · intro attrs options ns hin hns
    simp [Repo.create, hns, hin, Repo.validateInitialNamespaces, ht, ht']
  · intro oid attrs overwrite nsOpt ns hns
    simp [Repo.bulkCreate, hns, assignIndices, Repo.bulkCreatePhase1, ht, ht',
      Repo.bulkCreatePhase2, Repo.bulkCreatePhase2R, idxRequests, phase2Map, esBulk, runBulkOps]
  · intro nsOpt ns hns
    simp [Repo.checkConflicts, hns, assignIndices, Repo.checkConflictsPhase1, ht, ht',
      idxRequests, phase2Map, List.reduceOption]
  · intro cf options hcf
    simp [Repo.incrementCounter, hcf, ht, ht']

/-- Request logging does not change the stored documents. -/
@[simp]
theorem Store.getDoc_logReq (st : Store) (q : EsReq) (i j : String) :
    (st.logReq q).getDoc i j = st.getDoc i j := rfl

/-- Reading back the key a document was just written to. -/
@[simp]
theorem Store.getDoc_putDoc_self (st : Store) (i j : String) (d : EsDoc) :
    (st.putDoc i j d).getDoc i j = some d := by
  simp [Store.getDoc, Store.putDoc]

/-- Searching a filtered list finds the same element when the filter keeps
everything the search matches. -/
theorem find?_filter_of_imp {α : Type} (l : List α) (p q : α → Bool)
    (h : ∀ e, p e = true → q e = true) :
    (l.filter q).find? p = l.find? p := by
  induction l with
  | nil => rfl
  | cons a rest ih =>
    by_cases hq : q a
    · rw [List.filter_cons_of_pos hq]
      by_cases hp : p a
      · rw [List.find?_cons_of_pos _ hp, List.find?_cons_of_pos _ hp]
      · rw [List.find?_cons_of_neg _ hp, List.find?_cons_of_neg _ hp, ih]
    · have hp : ¬ p a := fun hpa => hq (h a hpa)
      rw [List.filter_cons_of_neg hq, List.find?_cons_of_neg _ hp, ih]

/-- Writing one key leaves every other key unchanged. -/
theorem Store.getDoc_putDoc_ne (st : Store) (i j i' j' : String) (d : EsDoc)
    (h : (i, j) ≠ (i', j')) : (st.putDoc i j d).getDoc i' j' = st.getDoc i' j' := by
  unfold Store.getDoc Store.putDoc
  rw [List.find?_cons_of_neg _ (by simp [h])]
  rw [find?_filter_of_imp]
  intro e he
  have : e.1 = (i', j') := by simpa using he
  simp [this, Ne.symm h]

/-- The counter script bumps the matched field in place. -/
theorem find?_applyCounterScript_self (src : DocSource) (f : String) (n dl : Int)
    (time : String)
    (hn : src.attributes.find? (fun kv => kv.1 == f) = some (f, n)) :
    ((applyCounterScript src [(f, dl)] time).attributes.find? fun kv => kv.1 == f)
      = some (f, n + dl) := by
  simp only [applyCounterScript, List.foldl]
  rw [hn]
  exact List.find?_cons_of_pos _ (by simp)

@[simp]
theorem Store.docs_logReq (st : Store) (q : EsReq) : (st.logReq q).docs = st.docs := rfl

@[simp]
theorem Store.failingIds_logReq (st : Store) (q : EsReq) :
    (st.logReq q).failingIds = st.failingIds := rfl

/-- A non-single-namespace type's raw id carries no namespace prefix. -/
theorem generateRawId_of_not_single {r : Repo} {t : String}
    (h : r.isSingleNamespace t = false) (ns : Option String) (id : String) :
    r.generateRawId ns t id = r.generateRawId none t id := by
  simp [Repo.generateRawId, h]

theorem isSingle_false_of_multi {r : Repo} {t : String}
    (h : r.isMultiNamespace t = true) : r.isSingleNamespace t = false := by
  unfold Repo.isMultiNamespace at h
  unfold Repo.isSingleNamespace
  rcases hk : r.nsKindOf t <;> simp [hk] at h ⊢

/-- A stale decoded version never matches the current concurrency pair. -/
theorem preMatches_false_of_ne {v : Version} {d : EsDoc}
    (hv : decodeRequestVersion v ≠ (d.seqNo, d.primaryTerm)) :
    preMatches (some (decodeRequestVersion v)) (some d) = false := by
  have hne : ¬(v.seqNo = d.seqNo ∧ v.primaryTerm = d.primaryTerm) := by
    rintro ⟨h1, h2⟩
    exact hv (by simp [decodeRequestVersion, h1, h2])
  unfold preMatches decodeRequestVersion
  rw [Bool.eq_false_iff]
  simpa only [ne_eq, Bool.and_eq_true, beq_iff_eq] using hne

/-- C1: for every write operation that accepts an explicit version option —
create with overwrite, update, and (per item) bulkUpdate — the version is
decoded into the store-level if-match (seq-no / primary-term) precondition;
when the stored document's current pair differs, the operation fails with a
Conflict error and the stored documents are unchanged. -/
theorem claim_C1_stale_version_conflict (r : Repo) (st : Store) (type id : String)
    (d : EsDoc) (v : Version) (nsOpt ns : Option String)
    (hns : normalizeNamespace nsOpt = .ok ns)
    (hallow : type ∈ r.allowedTypes)
    (hdoc : st.getDoc (r.getIndexForType type) (r.generateRawId ns type id) = some d)
    (hin : r.rawDocExistsInNamespace d.source ns = true)
    (hid : id ≠ "")
    (hfail : st.failingIds.contains (r.generateRawId ns type id) = false)
    (hv : decodeRequestVersion v ≠ (d.seqNo, d.primaryTerm)) :
    (∀ attrs refs originId,
      (r.create st type attrs { id := some id, overwrite := true, version := some v,
                                references := refs, originId := originId,
                                nsOpt := nsOpt }).1 = .error (.conflict type id)
      ∧ (r.create st type attrs { id := some id, overwrite := true, version := some v,
                                  references := refs, originId := originId,
                                  nsOpt := nsOpt }).2.docs = st.docs)
  ∧ (∀ attrs refs,
      (r.update st type id attrs { version := some v, references := refs,
                                   nsOpt := nsOpt }).1 = .error (.conflict type id)
      ∧ (r.update st type id attrs { version := some v, references := refs,
                                     nsOpt := nsOpt }).2.docs = st.docs)
  ∧ (∀ attrs refs,
      (r.bulkUpdate st [{ type := type, id := id, attributes := attrs,
                          references := refs, version := some v }] nsOpt).1
        = .ok [.failure { id := some id, type := type, error := .conflict type id }]
      ∧ (r.bulkUpdate st [{ type := type, id := id, attributes := attrs,
                            references := refs, version := some v }] nsOpt).2.docs
        = st.docs) := by
  have hid' : (id != "") = true := by simp [hid]
  have hfail' : ¬ r.generateRawId ns type id ∈ st.failingIds := by simpa using hfail
  have hpre := preMatches_false_of_ne hv
  refine ⟨?_, ?_, ?_⟩
  · intro attrs refs originId
    rcases hk : r.nsKindOf type with k1 | k2 | k3 | k4
    · have hS : r.isSingleNamespace type = true := by simp [Repo.isSingleNamespace, hk]
      have hM : r.isMultiNamespace type = false := by simp [Repo.isMultiNamespace, hk]
      simp [Repo.create, hns, Repo.validateInitialNamespaces, hallow, hS, hM,
        Repo.createWrite, hid', applyIndexDoc, hdoc, hpre, getExpectedVersionProperties,
        decorateEsErr]
    · have hS : r.isSingleNamespace type = false := by simp [Repo.isSingleNamespace, hk]
      have hM : r.isMultiNamespace type = true := by simp [Repo.isMultiNamespace, hk]
      have hdoc0 : st.getDoc (r.getIndexForType type) (r.generateRawId none type id) = some d := by
        rw [← generateRawId_of_not_single hS ns id]; exact hdoc
      simp [Repo.create, hns, Repo.validateInitialNamespaces, hallow, hS, hM,
        Repo.preflightGetNamespaces, esGet, hdoc0, hin,
        Repo.createWrite, hid', applyIndexDoc, hdoc0, hpre, getExpectedVersionProperties,
        decorateEsErr]
    · have hS : r.isSingleNamespace type = false := by simp [Repo.isSingleNamespace, hk]
      have hM : r.isMultiNamespace type = true := by simp [Repo.isMultiNamespace, hk]
      have hdoc0 : st.getDoc (r.getIndexForType type) (r.generateRawId none type id) = some d := by
        rw [← generateRawId_of_not_single hS ns id]; exact hdoc
      simp [Repo.create, hns, Repo.validateInitialNamespaces, hallow, hS, hM,
        Repo.preflightGetNamespaces, esGet, hdoc0, hin,
        Repo.createWrite, hid', applyIndexDoc, hdoc0, hpre, getExpectedVersionProperties,
        decorateEsErr]
    · have hS : r.isSingleNamespace type = false := by simp [Repo.isSingleNamespace, hk]
      have hM : r.isMultiNamespace type = false := by simp [Repo.isMultiNamespace, hk]
      have hdoc0 : st.getDoc (r.getIndexForType type) (r.generateRawId none type id) = some d := by
        rw [← generateRawId_of_not_single hS ns id]; exact hdoc
      simp [Repo.create, hns, Repo.validateInitialNamespaces, hallow, hS, hM,
        Repo.createWrite, hid', applyIndexDoc, hdoc0, hpre, getExpectedVersionProperties,
        decorateEsErr]
  · intro attrs refs
    rcases hk : r.nsKindOf type with k1 | k2 | k3 | k4
    · have hM : r.isMultiNamespace type = false := by simp [Repo.isMultiNamespace, hk]
      simp [Repo.update, hns, hallow, hM, applyUpdateDoc, hdoc, hfail, hfail', hpre,
        getExpectedVersionProperties, decorateEsErr]
    · have hS : r.isSingleNamespace type = false := by simp [Repo.isSingleNamespace, hk]
      have hM : r.isMultiNamespace type = true := by simp [Repo.isMultiNamespace, hk]
      have hdoc0 : st.getDoc (r.getIndexForType type) (r.generateRawId none type id) = some d := by
        rw [← generateRawId_of_not_single hS ns id]; exact hdoc
      simp [Repo.update, hns, hallow, hM, Repo.preflightCheckIncludesNamespace, esGet,
        hdoc0, hin, applyUpdateDoc, hdoc, hfail, hfail', hpre,
        getExpectedVersionProperties, decorateEsErr]
    · have hS : r.isSingleNamespace type = false := by simp [Repo.isSingleNamespace, hk]
      have hM : r.isMultiNamespace type = true := by simp [Repo.isMultiNamespace, hk]
      have hdoc0 : st.getDoc (r.getIndexForType type) (r.generateRawId none type id) = some d := by
        rw [← generateRawId_of_not_single hS ns id]; exact hdoc
      simp [Repo.update, hns, hallow, hM, Repo.preflightCheckIncludesNamespace, esGet,
        hdoc0, hin, applyUpdateDoc, hdoc, hfail, hfail', hpre,
        getExpectedVersionProperties, decorateEsErr]
    · have hM : r.isMultiNamespace type = false := by simp [Repo.isMultiNamespace, hk]
      simp [Repo.update, hns, hallow, hM, applyUpdateDoc, hdoc, hfail, hfail', hpre,
        getExpectedVersionProperties, decorateEsErr]
  · intro attrs refs
    rcases hk : r.nsKindOf type with k1 | k2 | k3 | k4
    all_goals
      first
      | (have hS : r.isSingleNamespace type = true := by simp [Repo.isSingleNamespace, hk]
         have hM : r.isMultiNamespace type = false := by simp [Repo.isMultiNamespace, hk]
         simp [Repo.bulkUpdate, hns, assignIndices, Repo.bulkUpdatePhase1, hallow, hM,
           Repo.bulkUpdatePhase2, Repo.bulkUpdatePhase2R, idxRequests, phase2Map, esBulk, runBulkOps,
           applyBulkOp, applyUpdateDoc, Repo.bulkUpdateOpOf, getNamespaceId, hdoc, hfail, hfail',
           hpre, getExpectedVersionProperties, bulkUpdateRightSlot, getBulkOperationError,
           decorateEsErr])
      | (have hS : r.isSingleNamespace type = false := by simp [Repo.isSingleNamespace, hk]
         have hM : r.isMultiNamespace type = true := by simp [Repo.isMultiNamespace, hk]
         simp [Repo.bulkUpdate, hns, assignIndices, Repo.bulkUpdatePhase1, hallow, hM,
           Repo.bulkUpdateDocOf, Repo.bulkUpdatePhase2, Repo.bulkUpdatePhase2R, idxRequests, phase2Map, esMget,
           esBulk, runBulkOps, applyBulkOp, applyUpdateDoc, Repo.bulkUpdateOpOf,
           getNamespaceId, hdoc, hin, hfail, hfail', hpre, getExpectedVersionProperties,
           bulkUpdateRightSlot, getBulkOperationError, decorateEsErr])
      | (have hS : r.isSingleNamespace type = false := by simp [Repo.isSingleNamespace, hk]
         have hM : r.isMultiNamespace type = false := by simp [Repo.isMultiNamespace, hk]
         simp [Repo.bulkUpdate, hns, assignIndices, Repo.bulkUpdatePhase1, hallow, hM,
           Repo.bulkUpdatePhase2, Repo.bulkUpdatePhase2R, idxRequests, phase2Map, esBulk, runBulkOps,
           applyBulkOp, applyUpdateDoc, Repo.bulkUpdateOpOf, getNamespaceId, hdoc, hfail, hfail',
           hpre, getExpectedVersionProperties, bulkUpdateRightSlot, getBulkOperationError,
           decorateEsErr])

/-- C7: `incrementCounter` rejects a malformed `counterFields` argument with
an error before any store call; a counter field given as a plain string gets
delta 1, a record's unspecified `incrementBy` defaults to 1, an explicit
`incrementBy` is used as given, and under the initialize option every delta
is 0 (observed on the stored counter value). -/
theorem claim_C7_increment_counter_fields (r : Repo) (st : Store) (type id : String)
    (options : IncrementCounterOptions) :
    (∀ cf, cf.all CounterFieldArg.isWellFormed = false →
      (r.incrementCounter st type id cf options).1
        = .error (.esError "counterFields argument must be of type Array of string or of incrementBy and fieldName records")
      ∧ (r.incrementCounter st type id cf options).2 = st)
  ∧ (∀ ns d f n,
      type ∈ r.allowedTypes →
      normalizeNamespace options.nsOpt = .ok ns →
      st.getDoc (r.getIndexForType type) (r.generateRawId ns type id) = some d →
      r.rawDocExistsInNamespace d.source ns = true →
      st.failingIds.contains (r.generateRawId ns type id) = false →
      d.source.attributes.find? (fun kv => kv.1 == f) = some (f, n) →
      ((options.initFields = false →
          (r.incrementCounter st type id [.fieldStr f] options).2.counterVal
              (r.getIndexForType type) (r.generateRawId ns type id) f = some (n + 1)
        ∧ (r.incrementCounter st type id [.fieldObj (some f) none] options).2.counterVal
              (r.getIndexForType type) (r.generateRawId ns type id) f = some (n + 1)
        ∧ ∀ k, (r.incrementCounter st type id [.fieldObj (some f) (some k)] options).2.counterVal
              (r.getIndexForType type) (r.generateRawId ns type id) f = some (n + k))
      ∧ (options.initFields = true →
          (r.incrementCounter st type id [.fieldStr f] options).2.counterVal
              (r.getIndexForType type) (r.generateRawId ns type id) f = some n
        ∧ ∀ k, (r.incrementCounter st type id [.fieldObj (some f) (some k)] options).2.counterVal
              (r.getIndexForType type) (r.generateRawId ns type id) f = some n))) := by
  constructor
  · intro cf hcf
    simp [Repo.incrementCounter, hcf]
  · intro ns d f n hallow hns hdoc hin hfail hn
    have hfail' : ¬ r.generateRawId ns type id ∈ st.failingIds := by simpa using hfail
    have main : ∀ (cf : List CounterFieldArg) (δ : Int),
        normalizedCounterFields cf options.initFields = [(f, δ)] →
        cf.all CounterFieldArg.isWellFormed = true →
        (r.incrementCounter st type id cf options).2.counterVal
            (r.getIndexForType type) (r.generateRawId ns type id) f = some (n + δ) := by
      intro cf δ hnorm hwf
      have hscript := find?_applyCounterScript_self d.source f n δ r.now hn
      rcases hk : r.nsKindOf type with k1 | k2 | k3 | k4
      · have hS : r.isSingleNamespace type = true := by simp [Repo.isSingleNamespace, hk]
        have hM : r.isMultiNamespace type = false := by simp [Repo.isMultiNamespace, hk]
        cases hb : ns.isSome <;>
          simp [Repo.incrementCounter, hwf, hallow, Repo.incrementCounterInternal, hns,
            hnorm, hS, hM, hb, esUpdateCounter, hfail', hdoc, hscript, Store.counterVal]
      · have hS : r.isSingleNamespace type = false := by simp [Repo.isSingleNamespace, hk]
        have hM : r.isMultiNamespace type = true := by simp [Repo.isMultiNamespace, hk]
        have hdoc0 : st.getDoc (r.getIndexForType type) (r.generateRawId none type id)
            = some d := by rw [← generateRawId_of_not_single hS ns id]; exact hdoc
        have hkey := generateRawId_of_not_single hS (r := r) (t := type) ns id
        have hfail0 : ¬ r.generateRawId none type id ∈ st.failingIds := by
          rw [← hkey]; exact hfail'
        simp [Repo.incrementCounter, hwf, hallow, Repo.incrementCounterInternal, hns,
          hnorm, hS, hM, Repo.preflightGetNamespaces, esGet, hdoc0, hin,
          esUpdateCounter, hkey, hfail', hfail0, hscript, Store.counterVal]
      · have hS : r.isSingleNamespace type = false := by simp [Repo.isSingleNamespace, hk]
        have hM : r.isMultiNamespace type = true := by simp [Repo.isMultiNamespace, hk]
        have hdoc0 : st.getDoc (r.getIndexForType type) (r.generateRawId none type id)
            = some d := by rw [← generateRawId_of_not_single hS ns id]; exact hdoc
        have hkey := generateRawId_of_not_single hS (r := r) (t := type) ns id
        have hfail0 : ¬ r.generateRawId none type id ∈ st.failingIds := by
          rw [← hkey]; exact hfail'
        simp [Repo.incrementCounter, hwf, hallow, Repo.incrementCounterInternal, hns,
          hnorm, hS, hM, Repo.preflightGetNamespaces, esGet, hdoc0, hin,
          esUpdateCounter, hkey, hfail', hfail0, hscript, Store.counterVal]
      · have hS : r.isSingleNamespace type = false := by simp [Repo.isSingleNamespace, hk]
        have hM : r.isMultiNamespace type = false := by simp [Repo.isMultiNamespace, hk]
        have hdoc0 : st.getDoc (r.getIndexForType type) (r.generateRawId none type id)
            = some d := by rw [← generateRawId_of_not_single hS ns id]; exact hdoc
        have hkey := generateRawId_of_not_single hS (r := r) (t := type) ns id
        have hfail0 : ¬ r.generateRawId none type id ∈ st.failingIds := by
          rw [← hkey]; exact hfail'
        simp [Repo.incrementCounter, hwf, hallow, Repo.incrementCounterInternal, hns,
          hnorm, hS, hM, esUpdateCounter, hkey, hfail', hfail0, hdoc0, hscript,
          Store.counterVal]
    constructor
    · intro hinit
      refine ⟨?_, ?_, fun k => ?_⟩
      · have := main [.fieldStr f] 1 (by simp [normalizedCounterFields, hinit]) (by simp [CounterFieldArg.isWellFormed])
        simpa using this
      · have := main [.fieldObj (some f) none] 1 (by simp [normalizedCounterFields, hinit]) (by simp [CounterFieldArg.isWellFormed])
        simpa using this
      · have := main [.fieldObj (some f) (some k)] k (by simp [normalizedCounterFields, hinit]) (by simp [CounterFieldArg.isWellFormed])
        simpa using this
    · intro hinit
      refine ⟨?_, fun k => ?_⟩
      · have := main [.fieldStr f] 0 (by simp [normalizedCounterFields, hinit]) (by simp [CounterFieldArg.isWellFormed])
        simpa using this
      · have := main [.fieldObj (some f) (some k)] 0 (by simp [normalizedCounterFields, hinit]) (by simp [CounterFieldArg.isWellFormed])
        simpa using this

/-- Witness for C7 at a concrete input: a malformed counter-field record is
rejected with the store untouched, and a plain-string field on the stored
counter value 1 yields 2. -/
theorem claim_C7_witness :
    ([CounterFieldArg.fieldObj none none].all CounterFieldArg.isWellFormed = false
      ∧ (sampleRepo.incrementCounter sampleStore "dash" "w1"
           [.fieldObj none none] {}).2 = sampleStore)
  ∧ (sampleRepo.incrementCounter sampleStore "dash" "w1" [.fieldStr "n"] {}).2.counterVal
        "kibana" "dash:w1" "n" = some 2 :=
  ⟨⟨by decide,
    ((claim_C7_increment_counter_fields sampleRepo sampleStore "dash" "w1" {}).1
      [.fieldObj none none] (by decide)).2⟩,
   (((claim_C7_increment_counter_fields sampleRepo sampleStore "dash" "w1" {}).2
      none ⟨{ type := "dash", attributes := [("n", 1)], updatedAt := some "T0" }, 4, 2⟩
      "n" 1 (by decide) rfl (by decide) (by decide) (by decide) (by decide)).1 rfl).1⟩

/-- C9 (counterexample): `removeReferencesTo` accepts an `options.namespace`
of `'*'` without any BadRequest error and issues a store (update-by-query)
call — so not every repository operation that accepts an `options.namespace`
rejects the all-namespaces wildcard. -/
theorem claim_C9_counterexample :
    (sampleRepo.removeReferencesTo emptyStore "dash" "w1" { nsOpt := some "*" }).1
      = .ok 0
  ∧ (sampleRepo.removeReferencesTo emptyStore "dash" "w1" { nsOpt := some "*" }).2.log
      = [.updateByQueryReq (some ["*"]) ["dash", "share", "iso", "conf"]] :=
  ⟨rfl, rfl⟩

/-- C9 (amended): every repository operation that normalizes its operation
namespace — create, bulkCreate, checkConflicts (on a non-empty input),
delete, bulkGet, get, resolve, update, bulkUpdate and incrementCounter —
fails with a BadRequest error before any store call when
`options.namespace` is `'*'`; in bulkUpdate a per-object namespace of `'*'`
yields a per-item BadRequest error slot; the string `'default'` is
normalized to the undefined default-namespace representation; exception:
`removeReferencesTo` uses `options.namespace` directly without this
normalization. -/
theorem claim_C9_wildcard_namespace (r : Repo) (st : Store) (type id : String) :
    normalizeNamespace (some "*") = .error (.badRequest "options.namespace cannot be *")
  ∧ normalizeNamespace (some "default") = .ok none
  ∧ (∀ s, s ≠ "*" → s ≠ "default" → normalizeNamespace (some s) = .ok (some s))
  ∧ (∀ attrs options, options.nsOpt = some "*" →
      (r.create st type attrs options).1 = .error (.badRequest "options.namespace cannot be *")
      ∧ (r.create st type attrs options).2 = st)
  ∧ (∀ objects overwrite,
      (r.bulkCreate st objects overwrite (some "*")).1
        = .error (.badRequest "options.namespace cannot be *")
      ∧ (r.bulkCreate st objects overwrite (some "*")).2 = st)
  ∧ (∀ objects, (r.bulkGet st objects (some "*")).1
        = .error (.badRequest "options.namespace cannot be *")
      ∧ (r.bulkGet st objects (some "*")).2 = st)
  ∧ (∀ objects, (r.bulkUpdate st objects (some "*")).1
        = .error (.badRequest "options.namespace cannot be *")
      ∧ (r.bulkUpdate st objects (some "*")).2 = st)
  ∧ (∀ objects, objects.isEmpty = false →
      (r.checkConflicts st objects (some "*")).1
        = .error (.badRequest "options.namespace cannot be *")
      ∧ (r.checkConflicts st objects (some "*")).2 = st)
  ∧ (∀ options, type ∈ r.allowedTypes → options.nsOpt = some "*" →
      (r.delete st type id options).1 = .error (.badRequest "options.namespace cannot be *")
      ∧ (r.delete st type id options).2 = st)
  ∧ (type ∈ r.allowedTypes →
      (r.get st type id (some "*")).1 = .error (.badRequest "options.namespace cannot be *")
      ∧ (r.get st type id (some "*")).2 = st)
  ∧ (type ∈ r.allowedTypes →
      (r.resolve st type id (some "*")).1 = .error (.badRequest "options.namespace cannot be *")
      ∧ (r.resolve st type id (some "*")).2 = st)
  ∧ (∀ attrs options, type ∈ r.allowedTypes → options.nsOpt = some "*" →
      (r.update st type id attrs options).1 = .error (.badRequest "options.namespace cannot be *")
      ∧ (r.update st type id attrs options).2 = st)
  ∧ (∀ cf options, cf.all CounterFieldArg.isWellFormed = true →
      type ∈ r.allowedTypes → options.nsOpt = some "*" →
      (r.incrementCounter st type id cf options).1
        = .error (.badRequest "options.namespace cannot be *")
      ∧ (r.incrementCounter st type id cf options).2 = st)
  ∧ (∀ oid attrs refs ver nsOpt ns,
      normalizeNamespace nsOpt = .ok ns → type ∈ r.allowedTypes →
      (r.bulkUpdate st [{ type := type, id := oid, attributes := attrs,
                          references := refs, version := ver,
                          nsObj := some "*" }] nsOpt).1
        = .ok [.failure { id := some oid, type := type,
                          error := .badRequest "namespace cannot be *" }])
  ∧ (∀ options, options.nsOpt = some "*" →
      (r.removeReferencesTo st type id options).1 = .ok 0
      ∧ (r.removeReferencesTo st type id options).2.log
          = st.log ++ [.updateByQueryReq (some ["*"]) r.allTypes]) := by
  have hstar : normalizeNamespace (some "*")
      = .error (.badRequest "options.namespace cannot be *") := by
    simp [normalizeNamespace, ALL_NAMESPACES_STRING]
  refine ⟨hstar, by simp [normalizeNamespace, namespaceStringToId,
      ALL_NAMESPACES_STRING, DEFAULT_NAMESPACE_STRING],
    ?_, ?_, ?_, ?_, ?_, ?_, ?_, ?_, ?_, ?_, ?_, ?_, ?_⟩
  · intro s h1 h2
    simp [normalizeNamespace, namespaceStringToId, ALL_NAMESPACES_STRING,
      DEFAULT_NAMESPACE_STRING, h1, h2]
  · intro attrs options hop; rw [Repo.create, hop, hstar]; exact ⟨rfl, rfl⟩
  · intro objects overwrite; rw [Repo.bulkCreate, hstar]; exact ⟨rfl, rfl⟩
  · intro objects; rw [Repo.bulkGet, hstar]; exact ⟨rfl, rfl⟩
  · intro objects; rw [Repo.bulkUpdate, hstar]; exact ⟨rfl, rfl⟩
  · intro objects hne
    rw [Repo.checkConflicts]
    rw [hne, hstar]
    exact ⟨rfl, rfl⟩
  · intro options hallow hop
    simp [Repo.delete, hallow, hop, hstar]
  · intro hallow
    simp [Repo.get, hallow, hstar]
  · intro hallow
    simp [Repo.resolve, hallow, hstar]
  · intro attrs options hallow hop
    simp [Repo.update, hallow, hop, hstar]
  · intro cf options hwf hallow hop
    simp [Repo.incrementCounter, hwf, hallow, Repo.incrementCounterInternal, hop, hstar]
  · intro oid attrs refs ver nsOpt ns hns hallow
    simp [Repo.bulkUpdate, hns, assignIndices, Repo.bulkUpdatePhase1, hallow,
      ALL_NAMESPACES_STRING, Repo.bulkUpdatePhase2, Repo.bulkUpdatePhase2R, idxRequests, phase2Map,
      esBulk, runBulkOps]
  · intro options hop
    simp [Repo.removeReferencesTo, hop, esUpdateByQuery, Store.logReq]

/-- C4 (counterexample): with a `searchAfter` cursor and page 2 / perPage 20
the issued store query still carries the page/perPage offset in its body
(`body.from = 20`), so the offset is not absent from the issued query — only
the top-level `from` parameter is dropped. -/
theorem claim_C4_counterexample :
    (sampleRepo.find emptyStore
       { type := some (.one "dash"), searchAfter := some [3], page := some 2 }).2.log
      = [.searchReq
          { indexParam := some ["kibana"], fromParam := none, preference := none,
            size := 20, bodySize := 20, bodyFrom := 20, search := none, pit := none,
            types := ["dash"], searchAfter := some [3], sortField := none,
            namespaces := none }]
  ∧ (20 : Int) ≠ 0 :=
  ⟨rfl, by decide⟩

/-- C4 (amended): offset and cursor pagination are mutually exclusive only in
the top-level `from` parameter of the query plan: when a `searchAfter`
cursor is supplied the top-level `from` is dropped, otherwise it is
`perPage * (page - 1)`; the request body's `from` field is
`perPage * (page - 1)` regardless; and a valid find call issues exactly this
search request. -/
theorem claim_C4_search_after_offset (r : Repo) (options : FindOptions) :
    (∀ allowedTypes, options.searchAfter.isSome = true →
      (r.buildFindRequest options allowedTypes).fromParam = none)
  ∧ (∀ allowedTypes, options.searchAfter = none →
      (r.buildFindRequest options allowedTypes).fromParam
        = some ((options.perPage.getD FIND_DEFAULT_PER_PAGE)
            * ((options.page.getD FIND_DEFAULT_PAGE) - 1)))
  ∧ (∀ allowedTypes, (r.buildFindRequest options allowedTypes).bodyFrom
      = (options.perPage.getD FIND_DEFAULT_PER_PAGE)
          * ((options.page.getD FIND_DEFAULT_PAGE) - 1))
  ∧ (∀ st, findPrecheck options = none →
      (r.findAllowedTypes options).isEmpty = false →
      (r.find st options).2.log
        = st.log ++ [.searchReq (r.buildFindRequest options (r.findAllowedTypes options))]) := by
  refine ⟨?_, ?_, ?_, ?_⟩
  · intro allowedTypes h; simp [Repo.buildFindRequest, h]
  · intro allowedTypes h; simp [Repo.buildFindRequest, h]
  · intro allowedTypes; simp [Repo.buildFindRequest]
  · intro st hpre hne
    simp [Repo.find, hpre, hne, esSearch, Store.logReq]

/-- Witness for C4 at a concrete input: without a cursor, the top-level
`from` is the page offset. -/
theorem claim_C4_witness :
    ({ type := some (.one "dash"), page := some 2 } : FindOptions).searchAfter = none
  ∧ (sampleRepo.buildFindRequest { type := some (.one "dash"), page := some 2 }
       ["dash"]).fromParam = some 20 :=
  ⟨rfl,
   (claim_C4_search_after_offset sampleRepo
      { type := some (.one "dash"), page := some 2 }).2.1 ["dash"] rfl⟩

/-- C6: for a multi-namespace type, create-with-overwrite, update, delete
(unless forced) and incrementCounter preflight-read the existing document's
namespace list; when the document exists outside the target namespace the
operation fails (Conflict for create/incrementCounter, NotFound for
update/delete) without writing, and on success the full existing namespace
list is preserved across the write rather than collapsed to the caller's
namespace. -/
theorem claim_C6_preflight_namespaces (r : Repo) (st : Store) (type id : String)
    (d : EsDoc) (ns nsOpt : Option String)
    (hns : normalizeNamespace nsOpt = .ok ns)
    (hallow : type ∈ r.allowedTypes)
    (hM : r.isMultiNamespace type = true)
    (hdoc : st.getDoc (r.getIndexForType type) (r.generateRawId none type id) = some d)
    (hfail : st.failingIds.contains (r.generateRawId none type id) = false)
    (hid : id ≠ "") :
    (r.rawDocExistsInNamespace d.source ns = false →
      (∀ attrs refs originId ver,
        (r.create st type attrs { id := some id, overwrite := true, version := ver,
                                  references := refs, originId := originId,
                                  nsOpt := nsOpt }).1 = .error (.conflict type id)
        ∧ (r.create st type attrs { id := some id, overwrite := true, version := ver,
                                    references := refs, originId := originId,
                                    nsOpt := nsOpt }).2.docs = st.docs)
      ∧ (∀ cf initb up, cf.all CounterFieldArg.isWellFormed = true →
          (r.incrementCounter st type id cf
              { initFields := initb, upsertAttributes := up, nsOpt := nsOpt }).1
            = .error (.conflict type id)
          ∧ (r.incrementCounter st type id cf
              { initFields := initb, upsertAttributes := up, nsOpt := nsOpt }).2.docs
            = st.docs)
      ∧ (∀ attrs ver refs up,
          (r.update st type id attrs
              { version := ver, references := refs, upsert := up, nsOpt := nsOpt }).1
            = .error (.notFound type id)
          ∧ (r.update st type id attrs
              { version := ver, references := refs, upsert := up, nsOpt := nsOpt }).2.docs
            = st.docs)
      ∧ (∀ force,
          (r.delete st type id { force := force, nsOpt := nsOpt }).1
            = .error (.notFound type id)
          ∧ (r.delete st type id { force := force, nsOpt := nsOpt }).2.docs = st.docs))
  ∧ (r.rawDocExistsInNamespace d.source ns = true →
      (∀ attrs,
        (((r.create st type attrs
              { id := some id, overwrite := true, nsOpt := nsOpt }).2.getDoc
              (r.getIndexForType type)
              (r.generateRawId none type id)).map fun d' => d'.source.namespaces)
          = some d.source.namespaces)
      ∧ (∀ cf initb up, cf.all CounterFieldArg.isWellFormed = true →
          (((r.incrementCounter st type id cf
                { initFields := initb, upsertAttributes := up, nsOpt := nsOpt }).2.getDoc
                (r.getIndexForType type) (r.generateRawId none type id)).map
              fun d' => d'.source.namespaces)
            = some d.source.namespaces)
      ∧ (∀ attrs refs,
          (((r.update st type id attrs { references := refs, nsOpt := nsOpt }).2.getDoc
                (r.getIndexForType type) (r.generateRawId none type id)).map
              fun d' => d'.source.namespaces)
            = some d.source.namespaces)) := by
  have hS : r.isSingleNamespace type = false := isSingle_false_of_multi hM
  have hkey := generateRawId_of_not_single hS (r := r) (t := type) ns id
  have hfail' : ¬ r.generateRawId none type id ∈ st.failingIds := by simpa using hfail
  have hid' : (id != "") = true := by simp [hid]
  have hprm : preMatches (some (d.seqNo, d.primaryTerm)) (some d) = true := by
    simp [preMatches]
  constructor
  · intro hout
    refine ⟨?_, ?_, ?_, ?_⟩
    · intro attrs refs originId ver
      simp [Repo.create, hns, Repo.validateInitialNamespaces, hallow, hS, hM, hid',
        Repo.preflightGetNamespaces, esGet, hdoc, hout]
    · intro cf initb up hwf
      simp [Repo.incrementCounter, hwf, hallow, Repo.incrementCounterInternal, hns,
        hS, hM, Repo.preflightGetNamespaces, esGet, hdoc, hout]
    · intro attrs ver refs up
      simp [Repo.update, hns, hallow, hM, Repo.preflightCheckIncludesNamespace,
        esGet, hdoc, hout]
    · intro force
      simp [Repo.delete, hns, hallow, hM, Repo.preflightCheckIncludesNamespace,
        esGet, hdoc, hout]
  · intro hin
    refine ⟨?_, ?_, ?_⟩
    · intro attrs
      simp [Repo.create, hns, Repo.validateInitialNamespaces, hallow, hS, hM, hid',
        Repo.preflightGetNamespaces, esGet, hdoc, hin, Repo.createWrite,
        applyIndexDoc, getSavedObjectNamespaces, preMatches]
    · intro cf initb up hwf
      simp [Repo.incrementCounter, hwf, hallow, Repo.incrementCounterInternal, hns,
        hS, hM, Repo.preflightGetNamespaces, esGet, hdoc, hin, esUpdateCounter,
        hkey, hfail', applyCounterScript, getSavedObjectNamespaces]
    · intro attrs refs
      simp [Repo.update, hns, hallow, hM, Repo.preflightCheckIncludesNamespace,
        esGet, hdoc, hin, applyUpdateDoc, hkey, hfail',
        getExpectedVersionProperties, hprm, DocSource.applyPatch]

/-- Witness for C6 at a concrete input: overwriting the shared `share`
document from namespace `a` preserves its namespace list `[a, b]`, while
from namespace `c` (not included) the create fails with Conflict. -/
theorem claim_C6_witness :
    sampleRepo.rawDocExistsInNamespace
      { type := "share", namespaces := some ["a", "b"], attributes := [("m", 7)],
        updatedAt := some "T0" } (some "c") = false
  ∧ (sampleRepo.create sampleStore "share" [("m", 8)]
       { id := some "s1", overwrite := true, nsOpt := some "c" }).1
      = .error (.conflict "share" "s1")
  ∧ (((sampleRepo.create sampleStore "share" [("m", 8)]
        { id := some "s1", overwrite := true, nsOpt := some "a" }).2.getDoc
        "kibana" "share:s1").map fun d' => d'.source.namespaces)
      = some (some ["a", "b"]) :=
  ⟨by decide,
   (((claim_C6_preflight_namespaces sampleRepo sampleStore "share" "s1"
       ⟨{ type := "share", namespaces := some ["a", "b"], attributes := [("m", 7)],
          updatedAt := some "T0" }, 9, 3⟩ (some "c") (some "c") rfl (by decide)
       (by decide) (by decide) (by decide) (by decide)).1 (by decide)).1
     [("m", 8)] [] none none).1,
   ((claim_C6_preflight_namespaces sampleRepo sampleStore "share" "s1"
       ⟨{ type := "share", namespaces := some ["a", "b"], attributes := [("m", 7)],
          updatedAt := some "T0" }, 9, 3⟩ (some "a") (some "a") rfl (by decide)
       (by decide) (by decide) (by decide) (by decide)).2 (by decide)).1
     [("m", 8)]⟩

/-- C3: with a non-disabled legacy alias present for (namespace, type, id),
`resolve` classifies its outcome exactly as: `conflict` when both the
direct-id document and the alias-target document exist in the namespace
(returning the direct id's object with the alias target id surfaced),
`exactMatch` when only the direct id exists, `aliasMatch` when only the
alias target exists (result keyed by the alias target id), and a NotFound
failure when neither exists; without an alias record, the outcome is the
plain exact-match lookup (exactMatch on success, NotFound otherwise). -/
theorem claim_C3_resolve_outcomes (r : Repo) (st : Store) (type id n : String)
    (la : LegacyAlias) (ad : EsDoc) (oE oA : Option EsDoc)
    (aliasIdx objIdx aliasKey exactKey targetKey : String)
    (hAI : aliasIdx = r.getIndexForType LEGACY_URL_ALIAS_TYPE)
    (hOI : objIdx = r.getIndexForType type)
    (hAK : aliasKey = r.generateRawLegacyUrlAliasId n type id)
    (hEK : exactKey = r.generateRawId (some n) type id)
    (hTK : targetKey = r.generateRawId (some n) type la.targetId)
    (hallow : type ∈ r.allowedTypes)
    (hns : normalizeNamespace (some n) = .ok (some n))
    (had : st.getDoc aliasIdx aliasKey = some ad)
    (hla : ad.source.legacyAlias = some la)
    (hdis : la.disabled = false)
    (hafail : st.failingIds.contains aliasKey = false)
    (hne1 : (aliasIdx, aliasKey) ≠ (objIdx, exactKey))
    (hne2 : (aliasIdx, aliasKey) ≠ (objIdx, targetKey))
    (hE : st.getDoc objIdx exactKey = oE)
    (hA : st.getDoc objIdx targetKey = oA) :
    (docExistsInNs r (some n) oE = true → docExistsInNs r (some n) oA = true →
      (r.resolve st type id (some n)).1
        = .ok { savedObject := getSavedObjectFromSource r type id (oE.getD default)
                outcome := .conflictOutcome
                aliasTargetId := some la.targetId })
  ∧ (docExistsInNs r (some n) oE = true → docExistsInNs r (some n) oA = false →
      (r.resolve st type id (some n)).1
        = .ok { savedObject := getSavedObjectFromSource r type id (oE.getD default)
                outcome := .exactMatch
                aliasTargetId := none })
  ∧ (docExistsInNs r (some n) oE = false → docExistsInNs r (some n) oA = true →
      (r.resolve st type id (some n)).1
        = .ok { savedObject :=
                  getSavedObjectFromSource r type la.targetId (oA.getD default)
                outcome := .aliasMatch
                aliasTargetId := some la.targetId })
  ∧ (docExistsInNs r (some n) oE = false → docExistsInNs r (some n) oA = false →
      (r.resolve st type id (some n)).1 = .error (.notFound type id))
  ∧ (∀ st2 nsOpt2, (r.resolveExactMatch st2 type id nsOpt2).1
      = match (r.get st2 type id nsOpt2).1 with
        | .ok o => .ok { savedObject := o, outcome := .exactMatch, aliasTargetId := none }
        | .error e => .error e)
  ∧ (∀ st3, st3.getDoc aliasIdx aliasKey = none →
      st3.failingIds.contains aliasKey = false →
      (r.resolve st3 type id (some n)).1
        = (r.resolveExactMatch (st3.logReq (.updateReq aliasIdx aliasKey))
            type id (some n)).1) := by
  subst hAI hOI hAK hEK hTK
  have hafail' : ¬ r.generateRawLegacyUrlAliasId n type id ∈ st.failingIds := by
    simpa using hafail
  have hg1 : ∀ dd,
      ((st.logReq (EsReq.updateReq (r.getIndexForType LEGACY_URL_ALIAS_TYPE)
          (r.generateRawLegacyUrlAliasId n type id))).putDoc
          (r.getIndexForType LEGACY_URL_ALIAS_TYPE)
          (r.generateRawLegacyUrlAliasId n type id) dd).getDoc
          (r.getIndexForType type) (r.generateRawId (some n) type id) = oE := by
    intro dd
    rw [Store.getDoc_putDoc_ne _ _ _ _ _ _ hne1, Store.getDoc_logReq, hE]
  have hg2 : ∀ dd,
      ((st.logReq (EsReq.updateReq (r.getIndexForType LEGACY_URL_ALIAS_TYPE)
          (r.generateRawLegacyUrlAliasId n type id))).putDoc
          (r.getIndexForType LEGACY_URL_ALIAS_TYPE)
          (r.generateRawLegacyUrlAliasId n type id) dd).getDoc
          (r.getIndexForType type) (r.generateRawId (some n) type la.targetId) = oA := by
    intro dd
    rw [Store.getDoc_putDoc_ne _ _ _ _ _ _ hne2, Store.getDoc_logReq, hA]
  refine ⟨?_, ?_, ?_, ?_, ?_, ?_⟩
  · intro h1 h2
    rcases oE with _ | dE
    · simp [docExistsInNs] at h1
    rcases oA with _ | dA
    · simp [docExistsInNs] at h2
    have hbe : r.rawDocExistsInNamespace dE.source (some n) = true := by
      simpa [docExistsInNs] using h1
    have hba : r.rawDocExistsInNamespace dA.source (some n) = true := by
      simpa [docExistsInNs] using h2
    simp [Repo.resolve, hallow, hns, esUpdateAlias, hafail', had, applyAliasScript,
      hla, hdis, esMget, hg1, hg2, hbe, hba]
  · intro h1 h2
    rcases oE with _ | dE
    · simp [docExistsInNs] at h1
    have hbe : r.rawDocExistsInNamespace dE.source (some n) = true := by
      simpa [docExistsInNs] using h1
    rcases oA with _ | dA
    · simp [Repo.resolve, hallow, hns, esUpdateAlias, hafail', had, applyAliasScript,
        hla, hdis, esMget, hg1, hg2, hbe]
    · have hba : r.rawDocExistsInNamespace dA.source (some n) = false := by
        simpa [docExistsInNs] using h2
      simp [Repo.resolve, hallow, hns, esUpdateAlias, hafail', had, applyAliasScript,
        hla, hdis, esMget, hg1, hg2, hbe, hba]
  · intro h1 h2
    rcases oA with _ | dA
    · simp [docExistsInNs] at h2
    have hba : r.rawDocExistsInNamespace dA.source (some n) = true := by
      simpa [docExistsInNs] using h2
    rcases oE with _ | dE
    · simp [Repo.resolve, hallow, hns, esUpdateAlias, hafail', had, applyAliasScript,
        hla, hdis, esMget, hg1, hg2, hba]
    · have hbe : r.rawDocExistsInNamespace dE.source (some n) = false := by
        simpa [docExistsInNs] using h1
      simp [Repo.resolve, hallow, hns, esUpdateAlias, hafail', had, applyAliasScript,
        hla, hdis, esMget, hg1, hg2, hbe, hba]
  · intro h1 h2
    rcases oE with _ | dE <;> rcases oA with _ | dA <;>
      [skip;
       (have hba : r.rawDocExistsInNamespace dA.source (some n) = false := by
          simpa [docExistsInNs] using h2);
       (have hbe : r.rawDocExistsInNamespace dE.source (some n) = false := by
          simpa [docExistsInNs] using h1);
       (have hbe : r.rawDocExistsInNamespace dE.source (some n) = false := by
          simpa [docExistsInNs] using h1
        have hba : r.rawDocExistsInNamespace dA.source (some n) = false := by
          simpa [docExistsInNs] using h2)] <;>
      simp [Repo.resolve, hallow, hns, esUpdateAlias, hafail', had, applyAliasScript,
        hla, hdis, esMget, hg1, hg2, *]
  · intro st2 nsOpt2
    rcases hg : r.get st2 type id nsOpt2 with ⟨res, stx⟩
    cases res with
    | ok o => simp [Repo.resolveExactMatch, hg]
    | error e =>
      cases hnf : e.isNotFoundError <;> simp [Repo.resolveExactMatch, hg, hnf]
  · intro st3 h3 hf3
    have hf3' : ¬ r.generateRawLegacyUrlAliasId n type id ∈ st3.failingIds := by
      simpa using hf3
    simp [Repo.resolve, hallow, hns, esUpdateAlias, hf3', h3]

/-- Witness for C3 at a concrete input: only the alias target exists, so the
outcome is `aliasMatch` keyed by the alias target id. -/
theorem claim_C3_witness :
    docExistsInNs sampleRepo (some "a") (resolveStore.getDoc "kibana" "share:old1") = false
  ∧ docExistsInNs sampleRepo (some "a") (resolveStore.getDoc "kibana" "share:new1") = true
  ∧ (sampleRepo.resolve resolveStore "share" "old1" (some "a")).1
      = .ok { savedObject := getSavedObjectFromSource sampleRepo "share" "new1"
                ⟨{ type := "share", namespaces := some ["a"],
                   attributes := [("m", 1)] }, 2, 1⟩
              outcome := .aliasMatch
              aliasTargetId := some "new1" } :=
  ⟨by decide, by decide,
   (claim_C3_resolve_outcomes sampleRepo resolveStore "share" "old1" "a"
      { targetId := "new1" }
      ⟨{ type := "legacy-url-alias", legacyAlias := some { targetId := "new1" } }, 0, 1⟩
      none
      (some ⟨{ type := "share", namespaces := some ["a"],
               attributes := [("m", 1)] }, 2, 1⟩)
      "kibana" "kibana" "legacy-url-alias:a:share:old1" "share:old1" "share:new1"
      (by decide) (by decide) (by decide) (by decide) (by decide) (by decide)
      rfl (by decide) rfl rfl (by decide) (by decide) (by decide)
      (by decide) (by decide)).2.2.1 (by decide) (by decide)⟩

/-- Writing a document leaves the failure-injection set unchanged. -/
@[simp] theorem Store.failingIds_putDoc (st : Store) (i j : String) (d : EsDoc) :
    (st.putDoc i j d).failingIds = st.failingIds := rfl

/-- C8: every resolve outcome increments the observability counter keyed by
the outcome kind together with the total — on the legacy-alias path all four
outcomes (conflict, exactMatch, aliasMatch, notFound), and on the
default-namespace path exactMatch and notFound — and a failure of that
internal counter update (injected store failure on the usage-stats document)
is swallowed: resolve still returns exactly the classified result (a success
stays a success) and the stats document is left unwritten. -/
theorem claim_C8_resolve_outcome_stats (r : Repo) (st : Store) (type id n : String)
    (la : LegacyAlias) (ad : EsDoc) (oE oA : Option EsDoc)
    (aliasIdx objIdx aliasKey exactKey targetKey statsIdx statsKey : String)
    (hAI : aliasIdx = r.getIndexForType LEGACY_URL_ALIAS_TYPE)
    (hOI : objIdx = r.getIndexForType type)
    (hAK : aliasKey = r.generateRawLegacyUrlAliasId n type id)
    (hEK : exactKey = r.generateRawId (some n) type id)
    (hTK : targetKey = r.generateRawId (some n) type la.targetId)
    (hSI : statsIdx = r.getIndexForType CORE_USAGE_STATS_TYPE)
    (hSK : statsKey = r.generateRawId none CORE_USAGE_STATS_TYPE CORE_USAGE_STATS_ID)
    (hallow : type ∈ r.allowedTypes)
    (hns : normalizeNamespace (some n) = .ok (some n))
    (hcore : r.isMultiNamespace CORE_USAGE_STATS_TYPE = false)
    (had : st.getDoc aliasIdx aliasKey = some ad)
    (hla : ad.source.legacyAlias = some la)
    (hdis : la.disabled = false)
    (hafail : st.failingIds.contains aliasKey = false)
    (hne1 : (aliasIdx, aliasKey) ≠ (objIdx, exactKey))
    (hne2 : (aliasIdx, aliasKey) ≠ (objIdx, targetKey))
    (hne3 : (aliasIdx, aliasKey) ≠ (statsIdx, statsKey))
    (hstats : st.getDoc statsIdx statsKey = none)
    (hE : st.getDoc objIdx exactKey = oE)
    (hA : st.getDoc objIdx targetKey = oA) :
    (st.failingIds.contains statsKey = false →
      (docExistsInNs r (some n) oE = true → docExistsInNs r (some n) oA = true →
        (r.resolve st type id (some n)).2.counterVal statsIdx statsKey
            RESOLVE_OUTCOME_STAT_CONFLICT = some 1
        ∧ (r.resolve st type id (some n)).2.counterVal statsIdx statsKey
            RESOLVE_OUTCOME_STAT_TOTAL = some 1)
      ∧ (docExistsInNs r (some n) oE = true → docExistsInNs r (some n) oA = false →
        (r.resolve st type id (some n)).2.counterVal statsIdx statsKey
            RESOLVE_OUTCOME_STAT_EXACT_MATCH = some 1
        ∧ (r.resolve st type id (some n)).2.counterVal statsIdx statsKey
            RESOLVE_OUTCOME_STAT_TOTAL = some 1)
      ∧ (docExistsInNs r (some n) oE = false → docExistsInNs r (some n) oA = true →
        (r.resolve st type id (some n)).2.counterVal statsIdx statsKey
            RESOLVE_OUTCOME_STAT_ALIAS_MATCH = some 1
        ∧ (r.resolve st type id (some n)).2.counterVal statsIdx statsKey
            RESOLVE_OUTCOME_STAT_TOTAL = some 1)
      ∧ (docExistsInNs r (some n) oE = false → docExistsInNs r (some n) oA = false →
        (r.resolve st type id (some n)).2.counterVal statsIdx statsKey
            RESOLVE_OUTCOME_STAT_NOT_FOUND = some 1
        ∧ (r.resolve st type id (some n)).2.counterVal statsIdx statsKey
            RESOLVE_OUTCOME_STAT_TOTAL = some 1))
  ∧ (st.failingIds.contains statsKey = true →
      (docExistsInNs r (some n) oE = true → docExistsInNs r (some n) oA = true →
        (r.resolve st type id (some n)).1
          = .ok { savedObject := getSavedObjectFromSource r type id (oE.getD default)
                  outcome := .conflictOutcome
                  aliasTargetId := some la.targetId }
        ∧ (r.resolve st type id (some n)).2.getDoc statsIdx statsKey = none)
      ∧ (docExistsInNs r (some n) oE = true → docExistsInNs r (some n) oA = false →
        (r.resolve st type id (some n)).1
          = .ok { savedObject := getSavedObjectFromSource r type id (oE.getD default)
                  outcome := .exactMatch
                  aliasTargetId := none }
        ∧ (r.resolve st type id (some n)).2.getDoc statsIdx statsKey = none)
      ∧ (docExistsInNs r (some n) oE = false → docExistsInNs r (some n) oA = true →
        (r.resolve st type id (some n)).1
          = .ok { savedObject :=
                    getSavedObjectFromSource r type la.targetId (oA.getD default)
                  outcome := .aliasMatch
                  aliasTargetId := some la.targetId }
        ∧ (r.resolve st type id (some n)).2.getDoc statsIdx statsKey = none)
      ∧ (docExistsInNs r (some n) oE = false → docExistsInNs r (some n) oA = false →
        (r.resolve st type id (some n)).1 = .error (.notFound type id)
        ∧ (r.resolve st type id (some n)).2.getDoc statsIdx statsKey = none))
  ∧ (∀ (st2 : Store) (d2 : EsDoc), st2.getDoc statsIdx statsKey = none →
      st2.getDoc objIdx (r.generateRawId none type id) = some d2 →
      r.rawDocExistsInNamespace d2.source none = true →
      (st2.failingIds.contains statsKey = false →
        (r.resolve st2 type id none).2.counterVal statsIdx statsKey
            RESOLVE_OUTCOME_STAT_EXACT_MATCH = some 1
        ∧ (r.resolve st2 type id none).2.counterVal statsIdx statsKey
            RESOLVE_OUTCOME_STAT_TOTAL = some 1)
      ∧ (st2.failingIds.contains statsKey = true →
        (r.resolve st2 type id none).1
          = .ok { savedObject := getSavedObjectFromSource r type id d2,
                  outcome := .exactMatch, aliasTargetId := none }
        ∧ (r.resolve st2 type id none).2.getDoc statsIdx statsKey = none))
  ∧ (∀ (st2 : Store), st2.getDoc statsIdx statsKey = none →
      st2.getDoc objIdx (r.generateRawId none type id) = none →
      (st2.failingIds.contains statsKey = false →
        (r.resolve st2 type id none).2.counterVal statsIdx statsKey
            RESOLVE_OUTCOME_STAT_NOT_FOUND = some 1
        ∧ (r.resolve st2 type id none).2.counterVal statsIdx statsKey
            RESOLVE_OUTCOME_STAT_TOTAL = some 1)
      ∧ (st2.failingIds.contains statsKey = true →
        (r.resolve st2 type id none).1 = .error (.notFound type id)
        ∧ (r.resolve st2 type id none).2.getDoc statsIdx statsKey = none)) := by
  subst hAI hOI hAK hEK hTK hSI hSK
  have hafail' : ¬ r.generateRawLegacyUrlAliasId n type id ∈ st.failingIds := by
    simpa using hafail
  have hnsn : normalizeNamespace none = Except.ok none := rfl
  have hg1 : ∀ dd,
      ((st.logReq (EsReq.updateReq (r.getIndexForType LEGACY_URL_ALIAS_TYPE)
          (r.generateRawLegacyUrlAliasId n type id))).putDoc
          (r.getIndexForType LEGACY_URL_ALIAS_TYPE)
          (r.generateRawLegacyUrlAliasId n type id) dd).getDoc
          (r.getIndexForType type) (r.generateRawId (some n) type id) = oE := by
    intro dd
    rw [Store.getDoc_putDoc_ne _ _ _ _ _ _ hne1, Store.getDoc_logReq, hE]
  have hg2 : ∀ dd,
      ((st.logReq (EsReq.updateReq (r.getIndexForType LEGACY_URL_ALIAS_TYPE)
          (r.generateRawLegacyUrlAliasId n type id))).putDoc
          (r.getIndexForType LEGACY_URL_ALIAS_TYPE)
          (r.generateRawLegacyUrlAliasId n type id) dd).getDoc
          (r.getIndexForType type) (r.generateRawId (some n) type la.targetId) = oA := by
    intro dd
    rw [Store.getDoc_putDoc_ne _ _ _ _ _ _ hne2, Store.getDoc_logReq, hA]
  have hg3 : ∀ dd,
      ((st.logReq (EsReq.updateReq (r.getIndexForType LEGACY_URL_ALIAS_TYPE)
          (r.generateRawLegacyUrlAliasId n type id))).putDoc
          (r.getIndexForType LEGACY_URL_ALIAS_TYPE)
          (r.generateRawLegacyUrlAliasId n type id) dd).getDoc
          (r.getIndexForType CORE_USAGE_STATS_TYPE)
          (r.generateRawId none CORE_USAGE_STATS_TYPE CORE_USAGE_STATS_ID) = none := by
    intro dd
    rw [Store.getDoc_putDoc_ne _ _ _ _ _ _ hne3, Store.getDoc_logReq, hstats]
  refine ⟨?_, ?_, ?_, ?_⟩
  · intro hsok
    have hsok' : ¬ r.generateRawId none CORE_USAGE_STATS_TYPE CORE_USAGE_STATS_ID
        ∈ st.failingIds := by simpa using hsok
    refine ⟨?_, ?_, ?_, ?_⟩
    · intro h1 h2
      rcases oE with _ | dE
      · simp [docExistsInNs] at h1
      rcases oA with _ | dA
      · simp [docExistsInNs] at h2
      have hbe : r.rawDocExistsInNamespace dE.source (some n) = true := by
        simpa [docExistsInNs] using h1
      have hba : r.rawDocExistsInNamespace dA.source (some n) = true := by
        simpa [docExistsInNs] using h2
      constructor <;>
        simp [Repo.resolve, hallow, hns, esUpdateAlias, hafail', had, applyAliasScript,
          hla, hdis, esMget, hg1, hg2, hg3, hbe, hba,
          Repo.incrementResolveOutcomeStats, Repo.incrementCounterInternal,
          normalizedCounterFields, hcore, esUpdateCounter, hsok', Store.counterVal,
          Attrs.merge, hnsn,
          RESOLVE_OUTCOME_STAT_CONFLICT, RESOLVE_OUTCOME_STAT_TOTAL]
    · intro h1 h2
      rcases oE with _ | dE
      · simp [docExistsInNs] at h1
      have hbe : r.rawDocExistsInNamespace dE.source (some n) = true := by
        simpa [docExistsInNs] using h1
      rcases oA with _ | dA
      · constructor <;>
          simp [Repo.resolve, hallow, hns, esUpdateAlias, hafail', had, applyAliasScript,
            hla, hdis, esMget, hg1, hg2, hg3, hbe,
            Repo.incrementResolveOutcomeStats, Repo.incrementCounterInternal,
            normalizedCounterFields, hcore, esUpdateCounter, hsok', Store.counterVal,
            Attrs.merge, hnsn,
            RESOLVE_OUTCOME_STAT_EXACT_MATCH, RESOLVE_OUTCOME_STAT_TOTAL]
      · have hba : r.rawDocExistsInNamespace dA.source (some n) = false := by
          simpa [docExistsInNs] using h2
        constructor <;>
          simp [Repo.resolve, hallow, hns, esUpdateAlias, hafail', had, applyAliasScript,
            hla, hdis, esMget, hg1, hg2, hg3, hbe, hba,
            Repo.incrementResolveOutcomeStats, Repo.incrementCounterInternal,
            normalizedCounterFields, hcore, esUpdateCounter, hsok', Store.counterVal,
            Attrs.merge, hnsn,
            RESOLVE_OUTCOME_STAT_EXACT_MATCH, RESOLVE_OUTCOME_STAT_TOTAL]
    · intro h1 h2
      rcases oA with _ | dA
      · simp [docExistsInNs] at h2
      have hba : r.rawDocExistsInNamespace dA.source (some n) = true := by
        simpa [docExistsInNs] using h2
      rcases oE with _ | dE
      · constructor <;>
          simp [Repo.resolve, hallow, hns, esUpdateAlias, hafail', had, applyAliasScript,
            hla, hdis, esMget, hg1, hg2, hg3, hba,
            Repo.incrementResolveOutcomeStats, Repo.incrementCounterInternal,
            normalizedCounterFields, hcore, esUpdateCounter, hsok', Store.counterVal,
            Attrs.merge, hnsn,
            RESOLVE_OUTCOME_STAT_ALIAS_MATCH, RESOLVE_OUTCOME_STAT_TOTAL]
      · have hbe : r.rawDocExistsInNamespace dE.source (some n) = false := by
          simpa [docExistsInNs] using h1
        constructor <;>
          simp [Repo.resolve, hallow, hns, esUpdateAlias, hafail', had, applyAliasScript,
            hla, hdis, esMget, hg1, hg2, hg3, hbe, hba,
            Repo.incrementResolveOutcomeStats, Repo.incrementCounterInternal,
            normalizedCounterFields, hcore, esUpdateCounter, hsok', Store.counterVal,
            Attrs.merge, hnsn,
            RESOLVE_OUTCOME_STAT_ALIAS_MATCH, RESOLVE_OUTCOME_STAT_TOTAL]
    · intro h1 h2
      rcases oE with _ | dE <;> rcases oA with _ | dA <;>
        [skip;
         (have hba : r.rawDocExistsInNamespace dA.source (some n) = false := by
            simpa [docExistsInNs] using h2);
         (have hbe : r.rawDocExistsInNamespace dE.source (some n) = false := by
            simpa [docExistsInNs] using h1);
         (have hbe : r.rawDocExistsInNamespace dE.source (some n) = false := by
            simpa [docExistsInNs] using h1
          have hba : r.rawDocExistsInNamespace dA.source (some n) = false := by
            simpa [docExistsInNs] using h2)] <;>
        constructor <;>
        simp [Repo.resolve, hallow, hns, esUpdateAlias, hafail', had, applyAliasScript,
          hla, hdis, esMget, hg1, hg2, hg3,
          Repo.incrementResolveOutcomeStats, Repo.incrementCounterInternal,
          normalizedCounterFields, hcore, esUpdateCounter, hsok', Store.counterVal,
          Attrs.merge, hnsn,
          RESOLVE_OUTCOME_STAT_NOT_FOUND, RESOLVE_OUTCOME_STAT_TOTAL, *]
  · intro hsf
    have hsf' : r.generateRawId none CORE_USAGE_STATS_TYPE CORE_USAGE_STATS_ID
        ∈ st.failingIds := by simpa using hsf
    refine ⟨?_, ?_, ?_, ?_⟩
    · intro h1 h2
      rcases oE with _ | dE
      · simp [docExistsInNs] at h1
      rcases oA with _ | dA
      · simp [docExistsInNs] at h2
      have hbe : r.rawDocExistsInNamespace dE.source (some n) = true := by
        simpa [docExistsInNs] using h1
      have hba : r.rawDocExistsInNamespace dA.source (some n) = true := by
        simpa [docExistsInNs] using h2
      constructor <;>
        simp [Repo.resolve, hallow, hns, esUpdateAlias, hafail', had, applyAliasScript,
          hla, hdis, esMget, hg1, hg2, hg3, hbe, hba,
          Repo.incrementResolveOutcomeStats, Repo.incrementCounterInternal,
          normalizedCounterFields, hcore, esUpdateCounter, hsf, hsf',
          hnsn]
    · intro h1 h2
      rcases oE with _ | dE
      · simp [docExistsInNs] at h1
      have hbe : r.rawDocExistsInNamespace dE.source (some n) = true := by
        simpa [docExistsInNs] using h1
      rcases oA with _ | dA
      · constructor <;>
          simp [Repo.resolve, hallow, hns, esUpdateAlias, hafail', had, applyAliasScript,
            hla, hdis, esMget, hg1, hg2, hg3, hbe,
            Repo.incrementResolveOutcomeStats, Repo.incrementCounterInternal,
            normalizedCounterFields, hcore, esUpdateCounter, hsf, hsf',
            hnsn]
      · have hba : r.rawDocExistsInNamespace dA.source (some n) = false := by
          simpa [docExistsInNs] using h2
        constructor <;>
          simp [Repo.resolve, hallow, hns, esUpdateAlias, hafail', had, applyAliasScript,
            hla, hdis, esMget, hg1, hg2, hg3, hbe, hba,
            Repo.incrementResolveOutcomeStats, Repo.incrementCounterInternal,
            normalizedCounterFields, hcore, esUpdateCounter, hsf, hsf',
            hnsn]
    · intro h1 h2
      rcases oA with _ | dA
      · simp [docExistsInNs] at h2
      have hba : r.rawDocExistsInNamespace dA.source (some n) = true := by
        simpa [docExistsInNs] using h2
      rcases oE with _ | dE
      · constructor <;>
          simp [Repo.resolve, hallow, hns, esUpdateAlias, hafail', had, applyAliasScript,
            hla, hdis, esMget, hg1, hg2, hg3, hba,
            Repo.incrementResolveOutcomeStats, Repo.incrementCounterInternal,
            normalizedCounterFields, hcore, esUpdateCounter, hsf, hsf',
            hnsn]
      · have hbe : r.rawDocExistsInNamespace dE.source (some n) = false := by
          simpa [docExistsInNs] using h1
        constructor <;>
          simp [Repo.resolve, hallow, hns, esUpdateAlias, hafail', had, applyAliasScript,
            hla, hdis, esMget, hg1, hg2, hg3, hbe, hba,
            Repo.incrementResolveOutcomeStats, Repo.incrementCounterInternal,
            normalizedCounterFields, hcore, esUpdateCounter, hsf, hsf',
            hnsn]
    · intro h1 h2
      rcases oE with _ | dE <;> rcases oA with _ | dA <;>
        [skip;
         (have hba : r.rawDocExistsInNamespace dA.source (some n) = false := by
            simpa [docExistsInNs] using h2);
         (have hbe : r.rawDocExistsInNamespace dE.source (some n) = false := by
            simpa [docExistsInNs] using h1);
         (have hbe : r.rawDocExistsInNamespace dE.source (some n) = false := by
            simpa [docExistsInNs] using h1
          have hba : r.rawDocExistsInNamespace dA.source (some n) = false := by
            simpa [docExistsInNs] using h2)] <;>
        constructor <;>
        simp [Repo.resolve, hallow, hns, esUpdateAlias, hafail', had, applyAliasScript,
          hla, hdis, esMget, hg1, hg2, hg3,
          Repo.incrementResolveOutcomeStats, Repo.incrementCounterInternal,
          normalizedCounterFields, hcore, esUpdateCounter, hsf, hsf',
          hnsn, *]
  · intro st2 d2 hstats2 hdoc2 hin2
    constructor
    · intro hsok2
      have hsok2' : ¬ r.generateRawId none CORE_USAGE_STATS_TYPE CORE_USAGE_STATS_ID
          ∈ st2.failingIds := by simpa using hsok2
      constructor <;>
        simp [Repo.resolve, hallow, Repo.resolveExactMatch, Repo.get, esGet, hdoc2,
          hin2, Repo.incrementResolveOutcomeStats, Repo.incrementCounterInternal,
          normalizedCounterFields, hcore, esUpdateCounter, hsok2', hstats2,
          Store.counterVal, Attrs.merge, normalizeNamespace,
          RESOLVE_OUTCOME_STAT_EXACT_MATCH, RESOLVE_OUTCOME_STAT_TOTAL]
    · intro hsf2
      have hsf2' : r.generateRawId none CORE_USAGE_STATS_TYPE CORE_USAGE_STATS_ID
          ∈ st2.failingIds := by simpa using hsf2
      constructor <;>
        simp [Repo.resolve, hallow, Repo.resolveExactMatch, Repo.get, esGet, hdoc2,
          hin2, Repo.incrementResolveOutcomeStats, Repo.incrementCounterInternal,
          normalizedCounterFields, hcore, esUpdateCounter, hsf2, hsf2', hstats2,
          normalizeNamespace]
  · intro st2 hstats2 hdoc2
    constructor
    · intro hsok2
      have hsok2' : ¬ r.generateRawId none CORE_USAGE_STATS_TYPE CORE_USAGE_STATS_ID
          ∈ st2.failingIds := by simpa using hsok2
      constructor <;>
        simp [Repo.resolve, hallow, Repo.resolveExactMatch, Repo.get, esGet, hdoc2,
          RepoError.isNotFoundError, Repo.incrementResolveOutcomeStats,
          Repo.incrementCounterInternal, normalizedCounterFields, hcore,
          esUpdateCounter, hsok2', hstats2, Store.counterVal, Attrs.merge,
          normalizeNamespace, RESOLVE_OUTCOME_STAT_NOT_FOUND,
          RESOLVE_OUTCOME_STAT_TOTAL]
    · intro hsf2
      have hsf2' : r.generateRawId none CORE_USAGE_STATS_TYPE CORE_USAGE_STATS_ID
          ∈ st2.failingIds := by simpa using hsf2
      constructor <;>
        simp [Repo.resolve, hallow, Repo.resolveExactMatch, Repo.get, esGet, hdoc2,
          RepoError.isNotFoundError, Repo.incrementResolveOutcomeStats,
          Repo.incrementCounterInternal, normalizedCounterFields, hcore,
          esUpdateCounter, hsf2, hsf2', hstats2, normalizeNamespace]

/-- Witness for C8 at concrete inputs: on the alias store the `aliasMatch`
outcome seeds its counter and the total at 1; on the same scenario extended
with a direct-id document and an injected failure on the usage-stats
document, the `conflict` outcome is still returned as a success and the
stats document stays unwritten. -/
theorem claim_C8_witness :
    ((sampleRepo.resolve resolveStore "share" "old1" (some "a")).2.counterVal
        "kibana" "core-usage-stats:core-usage-stats"
        RESOLVE_OUTCOME_STAT_ALIAS_MATCH = some 1
      ∧ (sampleRepo.resolve resolveStore "share" "old1" (some "a")).2.counterVal
          "kibana" "core-usage-stats:core-usage-stats"
          RESOLVE_OUTCOME_STAT_TOTAL = some 1)
  ∧ ((sampleRepo.resolve
        { docs :=
            [(("kibana", "legacy-url-alias:a:share:old1"),
              ⟨{ type := "legacy-url-alias",
                 legacyAlias := some { targetId := "new1" } }, 0, 1⟩),
             (("kibana", "share:old1"),
              ⟨{ type := "share", namespaces := some ["a"],
                 attributes := [("x", 5)] }, 1, 1⟩),
             (("kibana", "share:new1"),
              ⟨{ type := "share", namespaces := some ["a"],
                 attributes := [("m", 1)] }, 2, 1⟩)]
          failingIds := ["core-usage-stats:core-usage-stats"] }
        "share" "old1" (some "a")).1
      = .ok { savedObject := getSavedObjectFromSource sampleRepo "share" "old1"
                ⟨{ type := "share", namespaces := some ["a"],
                   attributes := [("x", 5)] }, 1, 1⟩
              outcome := .conflictOutcome
              aliasTargetId := some "new1" }
    ∧ (sampleRepo.resolve
        { docs :=
            [(("kibana", "legacy-url-alias:a:share:old1"),
              ⟨{ type := "legacy-url-alias",
                 legacyAlias := some { targetId := "new1" } }, 0, 1⟩),
             (("kibana", "share:old1"),
              ⟨{ type := "share", namespaces := some ["a"],
                 attributes := [("x", 5)] }, 1, 1⟩),
             (("kibana", "share:new1"),
              ⟨{ type := "share", namespaces := some ["a"],
                 attributes := [("m", 1)] }, 2, 1⟩)]
          failingIds := ["core-usage-stats:core-usage-stats"] }
        "share" "old1" (some "a")).2.getDoc
        "kibana" "core-usage-stats:core-usage-stats" = none) :=
  ⟨((claim_C8_resolve_outcome_stats sampleRepo resolveStore "share" "old1" "a"
      { targetId := "new1" }
      ⟨{ type := "legacy-url-alias", legacyAlias := some { targetId := "new1" } }, 0, 1⟩
      none
      (some ⟨{ type := "share", namespaces := some ["a"],
               attributes := [("m", 1)] }, 2, 1⟩)
      "kibana" "kibana" "legacy-url-alias:a:share:old1" "share:old1" "share:new1"
      "kibana" "core-usage-stats:core-usage-stats"
      (by decide) (by decide) (by decide) (by decide) (by decide) (by decide)
      (by decide) (by decide) rfl (by decide) (by decide) (by decide) (by decide)
      (by decide) (by decide) (by decide) (by decide) (by decide) (by decide)
      (by decide)).1 (by decide)).2.2.1 (by decide) (by decide),
   ((claim_C8_resolve_outcome_stats sampleRepo
      { docs :=
          [(("kibana", "legacy-url-alias:a:share:old1"),
            ⟨{ type := "legacy-url-alias",
               legacyAlias := some { targetId := "new1" } }, 0, 1⟩),
           (("kibana", "share:old1"),
            ⟨{ type := "share", namespaces := some ["a"],
               attributes := [("x", 5)] }, 1, 1⟩),
           (("kibana", "share:new1"),
            ⟨{ type := "share", namespaces := some ["a"],
               attributes := [("m", 1)] }, 2, 1⟩)]
        failingIds := ["core-usage-stats:core-usage-stats"] }
      "share" "old1" "a"
      { targetId := "new1" }
      ⟨{ type := "legacy-url-alias", legacyAlias := some { targetId := "new1" } }, 0, 1⟩
      (some ⟨{ type := "share", namespaces := some ["a"],
               attributes := [("x", 5)] }, 1, 1⟩)
      (some ⟨{ type := "share", namespaces := some ["a"],
               attributes := [("m", 1)] }, 2, 1⟩)
      "kibana" "kibana" "legacy-url-alias:a:share:old1" "share:old1" "share:new1"
      "kibana" "core-usage-stats:core-usage-stats"
      (by decide) (by decide) (by decide) (by decide) (by decide) (by decide)
      (by decide) (by decide) rfl (by decide) (by decide) (by decide) (by decide)
      (by decide) (by decide) (by decide) (by decide) (by decide) (by decide)
      (by decide)).2.1 (by decide)).1 (by decide) (by decide)⟩

/-! ### Machinery for the two-phase, index-correlated bulk pattern -/

/-- The batched requests collected from the expected results are exactly the
indexed rights' requests, in batch order. -/
theorem idxRequests_assignIndices {α L V D : Type}
    (f : Nat → α → Either L (V × Bool)) (build : V → D) :
    ∀ (objs : List α) (pos c : Nat),
      idxRequests build (assignIndices f pos c objs)
        = (idxItems f pos objs).map build := by
  intro objs
  induction objs with
  | nil => intro pos c; rfl
  | cons a rest ih =>
    intro pos c
    rcases hf : f pos a with l | ⟨v, b⟩
    · simpa [assignIndices, idxItems, idxRequests, hf] using ih (pos + 1) c
    · cases b
      · simpa [assignIndices, idxItems, idxRequests, hf] using ih (pos + 1) c
      · simpa [assignIndices, idxItems, idxRequests, hf] using ih (pos + 1) (c + 1)

/-- `mapPos` of a position-independent function is a plain map. -/
theorem mapPos_eq_map {α β : Type} (f : Nat → α → β) (g : α → β) :
    ∀ (objs : List α) (pos : Nat), (∀ p a, a ∈ objs → f p a = g a) →
      mapPos f pos objs = objs.map g := by
  intro objs
  induction objs with
  | nil => intro pos h; rfl
  | cons a rest ih =>
    intro pos h
    simp only [mapPos, List.map_cons, h pos a (by simp)]
    rw [ih (pos + 1) fun p a' ha' => h p a' (List.mem_cons_of_mem a ha')]

/-- Master correlation lemma: zipping the batched responses back through the
batch indices produces, slot by slot, the per-item function of each input
(provided the response list matches the indexed items pointwise). -/
theorem phase2Map_assignIndices {α L V D S : Type}
    (f : Nat → α → Either L (V × Bool)) (g : V → D)
    (leftF : L → S) (rIF : V → Option D → S) (rNF : V → S) :
    ∀ (objs : List α) (pos c : Nat) (resp : List D),
      (∀ k, resp.get? (c + k) = ((idxItems f pos objs).get? k).map g) →
      phase2Map resp leftF rIF rNF (assignIndices f pos c objs)
        = mapPos (fun p a =>
            match f p a with
            | .left l => leftF l
            | .right (v, true) => rIF v (some (g v))
            | .right (v, false) => rNF v) pos objs := by
  intro objs
  induction objs with
  | nil => intro pos c resp h; rfl
  | cons a rest ih =>
    intro pos c resp h
    rcases hf : f pos a with l | ⟨v, b⟩
    · simp only [assignIndices, hf, phase2Map, List.map_cons, mapPos]
      congr 1
      exact ih (pos + 1) c resp fun k => by
        simpa [idxItems, hf] using h k
    · cases b
      · simp only [assignIndices, hf, phase2Map, List.map_cons, mapPos]
        congr 1
        exact ih (pos + 1) c resp fun k => by
          simpa [idxItems, hf] using h k
      · simp only [assignIndices, hf, phase2Map, List.map_cons, mapPos]
        congr 1
        · have h0 := h 0
          simp [idxItems, hf, List.get?] at h0
          simp [h0]
        · exact ih (pos + 1) (c + 1) resp fun k => by
            have := h (k + 1)
            rw [show c + (k + 1) = c + 1 + k by omega] at this
            simpa [idxItems, hf] using this

/-- A right value in the expected results comes from some input, and it got
a batch index exactly when its classification requested one. -/
theorem right_mem_assignIndices {α L V : Type} (f : Nat → α → Either L (V × Bool)) :
    ∀ (objs : List α) (pos c : Nat) (v : V) (oi : Option Nat),
      Either.right (v, oi) ∈ assignIndices f pos c objs →
      ∃ p a, a ∈ objs ∧ f p a = .right (v, oi.isSome) := by
  intro objs
  induction objs with
  | nil => intro pos c v oi h; simp [assignIndices] at h
  | cons a rest ih =>
    intro pos c v oi h
    rcases hf : f pos a with l | ⟨v', b⟩ <;> rw [assignIndices, hf] at h
    · rcases List.mem_cons.mp h with h1 | h1
      · exact absurd h1 (by simp)
      · obtain ⟨p, a', ha', hfa⟩ := ih (pos + 1) c v oi h1
        exact ⟨p, a', by simp [ha'], hfa⟩
    · cases b <;> rcases List.mem_cons.mp h with h1 | h1
      · obtain ⟨h2, h3⟩ : v = v' ∧ oi = none := by
          simpa [Prod.ext_iff] using h1
        subst h2; subst h3
        exact ⟨pos, a, by simp, by simp [hf]⟩
      · obtain ⟨p, a', ha', hfa⟩ := ih (pos + 1) c v oi h1
        exact ⟨p, a', by simp [ha'], hfa⟩
      · obtain ⟨h2, h3⟩ : v = v' ∧ oi = some c := by
          simpa [Prod.ext_iff] using h1
        subst h2; subst h3
        exact ⟨pos, a, by simp, by simp [hf]⟩
      · obtain ⟨p, a', ha', hfa⟩ := ih (pos + 1) (c + 1) v oi h1
        exact ⟨p, a', by simp [ha'], hfa⟩

/-- The indexed items' keys form a sublist of the per-input optional keys. -/
theorem idxItems_map_sublist_fm {α L V K : Type}
    (f : Nat → α → Either L (V × Bool)) (h : V → K) (kA : Nat → α → Option K) :
    ∀ (objs : List α) (pos : Nat),
      (∀ p a v b, a ∈ objs → f p a = .right (v, b) → kA p a = some (h v)) →
      ((idxItems f pos objs).map h).Sublist (filterMapPos kA pos objs) := by
  intro objs
  induction objs with
  | nil => intro pos hc; simp [idxItems, filterMapPos]
  | cons a rest ih =>
    intro pos hc
    have hrest : ∀ p a' v b, a' ∈ rest → f p a' = .right (v, b) →
        kA p a' = some (h v) :=
      fun p a' v b ha' hf' => hc p a' v b (List.mem_cons_of_mem a ha') hf'
    rcases hf : f pos a with l | ⟨v, b⟩
    · rw [idxItems, hf]
      rw [filterMapPos]
      rcases hka : kA pos a with _ | k
      · exact ih (pos + 1) hrest
      · exact (ih (pos + 1) hrest).cons k
    · have hka := hc pos a v b (by simp) hf
      cases b <;> rw [idxItems, hf] <;> rw [filterMapPos, hka]
      · exact (ih (pos + 1) hrest).cons (h v)
      · exact (ih (pos + 1) hrest).cons₂ (h v)

/-- Collapsing the expected-result layer of a filterMap over keys. -/
theorem filterMap_assignIndices {α L V K : Type}
    (f : Nat → α → Either L (V × Bool))
    (kA : Either L (V × Option Nat) → Option K) (kB : Nat → α → Option K)
    (hco : ∀ p a, kB p a
      = match f p a with
        | .left l => kA (.left l)
        | .right (v, _) => kA (.right (v, none)))
    (hIdxFree : ∀ v i j, kA (.right (v, i)) = kA (.right (v, j))) :
    ∀ (objs : List α) (pos c : Nat),
      (assignIndices f pos c objs).filterMap kA = filterMapPos kB pos objs := by
  intro objs
  induction objs with
  | nil => intro pos c; rfl
  | cons a rest ih =>
    intro pos c
    rcases hf : f pos a with l | ⟨v, b⟩
    · rw [assignIndices, hf, List.filterMap_cons, filterMapPos, hco pos a, hf]
      rcases hka : kA (.left l) with _ | k <;> simp [hka, ih (pos + 1) c]
    · cases b
      · rw [assignIndices, hf, List.filterMap_cons, filterMapPos, hco pos a, hf]
        rcases hka : kA (.right (v, none)) with _ | k <;> simp [hka, ih (pos + 1) c]
      · rw [assignIndices, hf, List.filterMap_cons, filterMapPos, hco pos a, hf,
          hIdxFree v (some c) none]
        rcases hka : kA (.right (v, none)) with _ | k <;>
          simp [hka, ih (pos + 1) (c + 1)]

/-- A positional filterMap whose hits agree with a total key function is a
sublist of the map of that function. -/
theorem filterMapPos_sublist_map {α K : Type} (kB : Nat → α → Option K) (kT : α → K) :
    ∀ (objs : List α) (pos : Nat),
      (∀ p a k, a ∈ objs → kB p a = some k → k = kT a) →
      (filterMapPos kB pos objs).Sublist (objs.map kT) := by
  intro objs
  induction objs with
  | nil => intro pos h; simp [filterMapPos]
  | cons a rest ih =>
    intro pos h
    have hrest : ∀ p a' k, a' ∈ rest → kB p a' = some k → k = kT a' :=
      fun p a' k ha' hk => h p a' k (List.mem_cons_of_mem a ha') hk
    rw [filterMapPos]
    rcases hka : kB pos a with _ | k
    · exact (ih (pos + 1) hrest).cons (kT a)
    · rw [h pos a k (by simp) hka]
      exact (ih (pos + 1) hrest).cons₂ (kT a)

/-- A bulk sub-operation's response depends only on the document at its own
key and on the failure-injection set. -/
theorem applyBulkOp_fst_congr (st1 st2 : Store) (op : BulkOp)
    (hd : st1.getDoc op.opKey.1 op.opKey.2 = st2.getDoc op.opKey.1 op.opKey.2)
    (hf : st1.failingIds = st2.failingIds) :
    (applyBulkOp st1 op).1 = (applyBulkOp st2 op).1 := by
  cases op with
  | createDoc i j src =>
    simp only [BulkOp.opKey] at hd
    simp only [applyBulkOp, applyCreateDoc, hd]
    cases st2.getDoc i j <;> rfl
  | indexDoc i j src pre =>
    simp only [BulkOp.opKey] at hd
    simp only [applyBulkOp, applyIndexDoc, hd]
    cases hc : st2.getDoc i j <;> cases hpm : preMatches pre (st2.getDoc i j) <;>
      simp_all
  | updateDoc i j patch pre =>
    simp only [BulkOp.opKey] at hd
    simp only [applyBulkOp, applyUpdateDoc, hd, hf]
    cases hc : st2.getDoc i j <;> cases hpm : preMatches pre (st2.getDoc i j) <;>
      cases hfc : st2.failingIds.contains j <;> simp_all

/-- Creating a document does not change the failure-injection set. -/
theorem applyCreateDoc_failingIds (st : Store) (i j : String) (src : DocSource) :
    (applyCreateDoc st i j src).2.failingIds = st.failingIds := by
  simp only [applyCreateDoc]
  split <;> simp [Store.putDoc]

/-- Indexing a document does not change the failure-injection set. -/
theorem applyIndexDoc_failingIds (st : Store) (i j : String) (src : DocSource)
    (pre : Option (Nat × Nat)) :
    (applyIndexDoc st i j src pre).2.failingIds = st.failingIds := by
  simp only [applyIndexDoc]
  (repeat' split) <;> simp [Store.putDoc]

/-- Updating a document does not change the failure-injection set. -/
theorem applyUpdateDoc_failingIds (st : Store) (i j : String) (patch : DocPatch)
    (pre : Option (Nat × Nat)) (ups : Option DocSource) :
    (applyUpdateDoc st i j patch pre ups).2.failingIds = st.failingIds := by
  simp only [applyUpdateDoc]
  (repeat' split) <;> simp [Store.putDoc]

/-- A bulk sub-operation does not change the failure-injection set. -/
theorem applyBulkOp_failingIds (st : Store) (op : BulkOp) :
    (applyBulkOp st op).2.failingIds = st.failingIds := by
  cases op with
  | createDoc i j src =>
    rcases h : applyCreateDoc st i j src with ⟨res, st'⟩
    have h2 : st'.failingIds = st.failingIds := by
      rw [show st' = (applyCreateDoc st i j src).2 from by rw [h]]
      exact applyCreateDoc_failingIds st i j src
    cases res <;> simp [applyBulkOp, h, h2]
  | indexDoc i j src pre =>
    rcases h : applyIndexDoc st i j src pre with ⟨res, st'⟩
    have h2 : st'.failingIds = st.failingIds := by
      rw [show st' = (applyIndexDoc st i j src pre).2 from by rw [h]]
      exact applyIndexDoc_failingIds st i j src pre
    cases res <;> simp [applyBulkOp, h, h2]
  | updateDoc i j patch pre =>
    rcases h : applyUpdateDoc st i j patch pre none with ⟨res, st'⟩
    have h2 : st'.failingIds = st.failingIds := by
      rw [show st' = (applyUpdateDoc st i j patch pre none).2 from by rw [h]]
      exact applyUpdateDoc_failingIds st i j patch pre none
    cases res <;> simp [applyBulkOp, h, h2]

/-- A bulk sub-operation writes only at its own key. -/
theorem applyBulkOp_getDoc_ne (st : Store) (op : BulkOp) (i j : String)
    (hne : op.opKey ≠ (i, j)) :
    (applyBulkOp st op).2.getDoc i j = st.getDoc i j := by
  cases op with
  | createDoc i' j' src =>
    simp only [BulkOp.opKey] at hne
    simp only [applyBulkOp, applyCreateDoc]
    cases hc : st.getDoc i' j' <;>
      simp [Store.getDoc_putDoc_ne _ _ _ _ _ _ hne]
  | indexDoc i' j' src pre =>
    simp only [BulkOp.opKey] at hne
    simp only [applyBulkOp, applyIndexDoc]
    cases hc : st.getDoc i' j' <;> cases hpm : preMatches pre (st.getDoc i' j') <;>
      simp_all [Store.getDoc_putDoc_ne _ _ _ _ _ _ hne]
  | updateDoc i' j' patch pre =>
    simp only [BulkOp.opKey] at hne
    simp only [applyBulkOp, applyUpdateDoc]
    cases hfc : st.failingIds.contains j' <;> cases hc : st.getDoc i' j' <;>
      cases hpm : preMatches pre (st.getDoc i' j') <;>
      simp_all [Store.getDoc_putDoc_ne _ _ _ _ _ _ hne]

/-- With pairwise-distinct keys, the bulk items' responses are those of the
sub-operations applied independently to the initial store. -/
theorem runBulkOps_fst (st2 : Store) :
    ∀ (ops : List BulkOp) (st1 : Store),
      (∀ op ∈ ops, st1.getDoc op.opKey.1 op.opKey.2 = st2.getDoc op.opKey.1 op.opKey.2) →
      st1.failingIds = st2.failingIds →
      (ops.map BulkOp.opKey).Nodup →
      (runBulkOps st1 ops).1 = ops.map fun op => (applyBulkOp st2 op).1 := by
  intro ops
  induction ops with
  | nil => intro st1 h hf hnd; rfl
  | cons op rest ih =>
    intro st1 h hf hnd
    rcases happ : applyBulkOp st1 op with ⟨res, st1'⟩
    rcases hrun : runBulkOps st1' rest with ⟨ress, st1''⟩
    have hkey : ∀ op' ∈ rest, op'.opKey ≠ op.opKey := by
      intro op' hmem heq
      have := (List.nodup_cons.mp hnd).1
      exact this (heq ▸ List.mem_map_of_mem BulkOp.opKey hmem)
    have h1 : ∀ op' ∈ rest,
        st1'.getDoc op'.opKey.1 op'.opKey.2 = st2.getDoc op'.opKey.1 op'.opKey.2 := by
      intro op' hmem
      have hne : op.opKey ≠ (op'.opKey.1, op'.opKey.2) := by
        intro heq
        exact hkey op' hmem (by simpa using heq.symm)
      calc st1'.getDoc op'.opKey.1 op'.opKey.2
          = (applyBulkOp st1 op).2.getDoc op'.opKey.1 op'.opKey.2 := by rw [happ]
        _ = st1.getDoc op'.opKey.1 op'.opKey.2 := applyBulkOp_getDoc_ne st1 op _ _ hne
        _ = st2.getDoc op'.opKey.1 op'.opKey.2 := h op' (List.mem_cons_of_mem op hmem)
    have h2 : st1'.failingIds = st2.failingIds := by
      calc st1'.failingIds = (applyBulkOp st1 op).2.failingIds := by rw [happ]
        _ = st1.failingIds := applyBulkOp_failingIds st1 op
        _ = st2.failingIds := hf
    have htail := ih st1' h1 h2 (List.nodup_cons.mp hnd).2
    have hhead : res = (applyBulkOp st2 op).1 := by
      rw [show res = (applyBulkOp st1 op).1 from by rw [happ]]
      exact applyBulkOp_fst_congr st1 st2 op (h op (by simp)) hf
    have htl : ress = rest.map (fun op => (applyBulkOp st2 op).1) := by
      rw [show ress = (runBulkOps st1' rest).1 from by rw [hrun]]
      exact htail
    simp only [runBulkOps, happ, hrun, List.map_cons, hhead, htl]

/-- `filterMapPos` of a position-blind function is `filterMap`. -/
theorem filterMapPos_eq_filterMap {α β : Type} (k : α → Option β) :
    ∀ (objs : List α) (pos : Nat),
      filterMapPos (fun _ a => k a) pos objs = objs.filterMap k := by
  intro objs
  induction objs with
  | nil => intro pos; rfl
  | cons a rest ih =>
    intro pos
    rw [filterMapPos, List.filterMap_cons]
    cases hk : k a <;> simp [hk, ih (pos + 1)]

/-- Keys extracted from the indexed phase-1 results form a sublist of the
per-input target keys, provided every extracted key agrees with its input's
target key. -/
theorem filterMap_assign_sublist {α L V K : Type}
    (f : Nat → α → Either L (V × Bool)) (k : Either L (V × Option Nat) → Option K)
    (kT : α → K) (hleft : ∀ l, k (.left l) = none) :
    ∀ (objs : List α) (pos c : Nat),
      (∀ p a v b oi res, a ∈ objs → f p a = .right (v, b) → oi.isSome = b →
        k (.right (v, oi)) = some res → res = kT a) →
      ((assignIndices f pos c objs).filterMap k).Sublist (objs.map kT) := by
  intro objs
  induction objs with
  | nil => intro pos c h; simp [assignIndices]
  | cons a rest ih =>
    intro pos c h
    have hrest : ∀ p a' v b oi res, a' ∈ rest → f p a' = .right (v, b) →
        oi.isSome = b → k (.right (v, oi)) = some res → res = kT a' :=
      fun p a' v b oi res ha' => h p a' v b oi res (List.mem_cons_of_mem a ha')
    rcases hf : f pos a with l | ⟨v, b⟩
    · rw [assignIndices, hf]
      rw [List.filterMap_cons, hleft l, List.map_cons]
      exact (ih (pos + 1) c hrest).cons _
    · cases b
      · rw [assignIndices, hf]
        rw [List.filterMap_cons, List.map_cons]
        rcases hk : k (.right (v, none)) with _ | res
        · exact (ih (pos + 1) c hrest).cons _
        · have hres := h pos a v false none res (by simp) hf (by simp) hk
          rw [hres]
          exact (ih (pos + 1) c hrest).cons₂ _
      · rw [assignIndices, hf]
        rw [List.filterMap_cons, List.map_cons]
        rcases hk : k (.right (v, some c)) with _ | res
        · exact (ih (pos + 1) (c + 1) hrest).cons _
        · have hres := h pos a v true (some c) res (by simp) hf (by simp) hk
          rw [hres]
          exact (ih (pos + 1) (c + 1) hrest).cons₂ _

/-- `bulkGet` phase 1 never drops a valid item from the multi-get batch. -/
theorem bulkGetPhase1_right_inv {r : Repo} {p : Nat} {o v : BulkGetObj} {b : Bool}
    (h : r.bulkGetPhase1 p o = .right (v, b)) : v = o ∧ b = true := by
  simp only [Repo.bulkGetPhase1] at h
  split at h <;> simp_all

/-- Inversion of `bulkCreate` phase 1 on a provisionally-valid item. -/
theorem bulkCreatePhase1_right_inv {r : Repo} {overwrite : Bool} {p : Nat}
    {o : BulkCreateObj} {v : BulkCreateRight} {b : Bool}
    (h : r.bulkCreatePhase1 overwrite p o = .right (v, b)) :
    v = { method := if strOptTruthy o.id && overwrite then .indexM else .createM,
          object := { o with id := some (o.id.getD (r.freshId p)) } }
      ∧ b = (strOptTruthy o.id && r.isMultiNamespace o.type) := by
  simp only [Repo.bulkCreatePhase1] at h
  split at h <;> simp_all

/-- With an explicit id, `bulkCreate` phase 1 is position-blind. -/
theorem bulkCreatePhase1_pos_indep {r : Repo} {overwrite : Bool}
    {o : BulkCreateObj} {s : String} (ho : o.id = some s) (p : Nat) :
    r.bulkCreatePhase1 overwrite p o = r.bulkCreatePhase1 overwrite 0 o := by
  simp [Repo.bulkCreatePhase1, ho]

/-- `bulkCreate` phase 2 always keeps a surviving item in the bulk batch. -/
theorem bulkCreatePhase2R_right_true {r : Repo} {ns : Option String}
    {time : String} {v : BulkCreateRight} {pre : Option (Option EsDoc)}
    {w : BulkCreateW} {b : Bool}
    (h : r.bulkCreatePhase2R ns time v pre = .right (w, b)) : b = true := by
  simp only [Repo.bulkCreatePhase2R] at h
  (repeat' split at h) <;> simp_all

/-- Inversion of `bulkUpdate` phase 1 on a provisionally-valid item. -/
theorem bulkUpdatePhase1_right_inv {r : Repo} {time : String} {p : Nat}
    {o : BulkUpdateObj} {v : BulkUpdateRight} {b : Bool}
    (h : r.bulkUpdatePhase1 time p o = .right (v, b)) :
    v = { type := o.type, id := o.id, version := o.version,
          documentToSave := { attributes := o.attributes, updatedAt := time,
                              references := o.references },
          nsObj := o.nsObj }
      ∧ b = r.isMultiNamespace o.type := by
  simp only [Repo.bulkUpdatePhase1] at h
  split at h
  · simp_all
  · split at h <;> simp_all

/-- `bulkUpdate` phase 2 always keeps a surviving item in the bulk batch. -/
theorem bulkUpdatePhase2R_right_true {r : Repo} {ns : Option String}
    {v : BulkUpdateRight} {pre : Option (Option EsDoc)}
    {w : BulkUpdateW} {b : Bool}
    (h : r.bulkUpdatePhase2R ns v pre = .right (w, b)) : b = true := by
  rcases pre with _ | ar <;> simp only [Repo.bulkUpdatePhase2R] at h
  · simp_all
  · split at h <;> simp_all

/-- `bulkUpdate` phase 2 carries type, id and per-object namespace through. -/
theorem bulkUpdatePhase2R_fields {r : Repo} {ns : Option String}
    {v : BulkUpdateRight} {pre : Option (Option EsDoc)}
    {w : BulkUpdateW} {b : Bool}
    (h : r.bulkUpdatePhase2R ns v pre = .right (w, b)) :
    w.type = v.type ∧ w.id = v.id ∧ w.nsObj = v.nsObj := by
  rcases pre with _ | ar <;> simp only [Repo.bulkUpdatePhase2R] at h
  · simp only [Either.right.injEq, Prod.mk.injEq] at h
    obtain ⟨hw, -⟩ := h
    subst hw
    simp
  · split at h
    · simp_all
    · simp only [Either.right.injEq, Prod.mk.injEq] at h
      obtain ⟨hw, -⟩ := h
      subst hw
      simp

/-- The bulk sub-operation of a surviving `bulkCreate` item is keyed by the
input's index and (operation-namespace) raw id, given an explicit id and no
initial namespaces. -/
theorem bulkCreate_opKey {r : Repo} {ns : Option String} {time : String}
    {overwrite : Bool} {o : BulkCreateObj} {s : String}
    (ho : o.id = some s) (hins : o.initialNamespaces = none)
    {p : Nat} {v : BulkCreateRight} {b : Bool}
    (h1 : r.bulkCreatePhase1 overwrite p o = .right (v, b))
    {pre : Option (Option EsDoc)} (hpre : pre.isSome = b)
    {w : BulkCreateW} {b2 : Bool}
    (h2 : r.bulkCreatePhase2R ns time v pre = .right (w, b2)) :
    (bulkCreateOpOf overwrite w).opKey
      = (r.getIndexForType o.type, r.generateRawId ns o.type (o.id.getD "")) := by
  obtain ⟨hv, hb⟩ := bulkCreatePhase1_right_inv h1
  have hvobj : v.object = { o with id := some s } := by
    rw [hv]; simp [ho]
  have hkey : (bulkCreateOpOf overwrite w).opKey = (w.index, w.rawId) := by
    rcases w with ⟨m, rid, idx, raw, rsrc, vp⟩
    cases m <;> rfl
  rw [hkey]
  have hvt : v.object.type = o.type := by rw [hvobj]
  have hvi : v.object.id = some s := by rw [hvobj]
  have hvn : v.object.initialNamespaces = none := by rw [hvobj]; exact hins
  cases hbv : b with
  | false =>
    have hpre0 : pre = none := by
      rw [hbv] at hpre; exact Option.not_isSome_iff_eq_none.mp (by simp [hpre])
    subst hpre0
    simp only [Repo.bulkCreatePhase2R, hvt, hvi, hvn, Option.getD_some] at h2
    by_cases hsingle : r.isSingleNamespace o.type = true
    · rw [if_pos hsingle] at h2
      simp only [Either.right.injEq, Prod.mk.injEq] at h2
      obtain ⟨hw, -⟩ := h2
      subst hw
      simp [ho]
    · have hsf : r.isSingleNamespace o.type = false := by simpa using hsingle
      rw [if_neg hsingle] at h2
      split at h2
      · rename_i heq
        split at heq <;> simp_all
      · rename_i sn sns vp heq
        have hsn : sn = none := by
          split at heq <;>
            (simp only [Either.right.injEq, Prod.mk.injEq] at heq;
             exact heq.1.1.symm)
        simp only [Either.right.injEq, Prod.mk.injEq] at h2
        obtain ⟨hw, -⟩ := h2
        subst hw
        simp [ho, hsn, generateRawId_of_not_single hsf]
  | true =>
    have hand : strOptTruthy o.id = true ∧ r.isMultiNamespace o.type = true := by
      rw [hbv] at hb
      simpa [Bool.and_eq_true] using hb.symm
    have hsf : r.isSingleNamespace o.type = false := isSingle_false_of_multi hand.2
    rw [hbv] at hpre
    obtain ⟨ar, har⟩ := Option.isSome_iff_exists.mp hpre
    subst har
    simp only [Repo.bulkCreatePhase2R, hvt, hvi, hvn, Option.getD_some] at h2
    split at h2
    · simp_all
    · simp only [Either.right.injEq, Prod.mk.injEq] at h2
      obtain ⟨hw, -⟩ := h2
      subst hw
      simp [ho, generateRawId_of_not_single hsf]

/-- The bulk sub-operation of a surviving `bulkUpdate` item is keyed by the
input's index and (effective-namespace) raw id. -/
theorem bulkUpdate_opKey {r : Repo} {ns : Option String} {time : String}
    {o : BulkUpdateObj}
    {p : Nat} {v : BulkUpdateRight} {b : Bool}
    (h1 : r.bulkUpdatePhase1 time p o = .right (v, b))
    {pre : Option (Option EsDoc)} {w : BulkUpdateW} {b2 : Bool}
    (h2 : r.bulkUpdatePhase2R ns v pre = .right (w, b2)) :
    (r.bulkUpdateOpOf ns w).opKey
      = (r.getIndexForType o.type,
         r.generateRawId (getNamespaceId ns o.nsObj) o.type o.id) := by
  obtain ⟨hv, _⟩ := bulkUpdatePhase1_right_inv h1
  obtain ⟨ht, hi, hn⟩ := bulkUpdatePhase2R_fields h2
  simp [Repo.bulkUpdateOpOf, BulkOp.opKey, ht, hi, hn, hv]

/-- The preflight multi-get phase, written as one pure pair. -/
theorem mgetRun (st : Store) (docs : List (String × String)) :
    (if docs.isEmpty then (([] : List (Option EsDoc)), st) else esMget st docs)
      = (docs.map fun d => st.getDoc d.1 d.2,
         if docs.isEmpty then st else st.logReq (.mgetReq docs)) := by
  rcases docs with _ | ⟨d, ds⟩ <;> simp [esMget]

/-- The store coming out of the preflight phase reads like the input store. -/
theorem getDoc_mgetStore (st : Store) (docs : List (String × String))
    (i j : String) :
    (if docs.isEmpty then st else st.logReq (.mgetReq docs)).getDoc i j
      = st.getDoc i j := by
  split <;> simp

/-- The store coming out of the preflight phase has the same injected
failures as the input store. -/
theorem failingIds_mgetStore (st : Store) (docs : List (String × String)) :
    (if docs.isEmpty then st else st.logReq (.mgetReq docs)).failingIds
      = st.failingIds := by
  split <;> simp

/-- `bulkGet` returns, in input order, exactly the per-item slot of each
input computed against the initial store. -/
theorem bulkGet_eq_map (r : Repo) (st : Store) (objects : List BulkGetObj)
    (nsOpt ns : Option String) (hns : normalizeNamespace nsOpt = .ok ns) :
    (r.bulkGet st objects nsOpt).1 = .ok (objects.map (r.bulkGetSlot st ns)) := by
  by_cases hobj : objects.isEmpty = true
  · have hnil : objects = [] := by
      cases objects with
      | nil => rfl
      | cons a t => simp [List.isEmpty] at hobj
    subst hnil
    simp [Repo.bulkGet, hns]
  · simp only [Repo.bulkGet, hns]
    rw [if_neg hobj, mgetRun]
    have hresp : ∀ k,
        (((idxItems r.bulkGetPhase1 0 objects).map (r.bulkGetDocOf ns)).map
          (fun d => st.getDoc d.1 d.2)).get? (0 + k)
          = ((idxItems r.bulkGetPhase1 0 objects).get? k).map
              (fun v => st.getDoc (r.bulkGetDocOf ns v).1 (r.bulkGetDocOf ns v).2) := by
      intro k
      rw [Nat.zero_add, List.get?_map, List.get?_map]
      cases (idxItems r.bulkGetPhase1 0 objects).get? k <;> rfl
    rw [idxRequests_assignIndices]
    refine Eq.trans (congrArg Except.ok
      (phase2Map_assignIndices r.bulkGetPhase1
        (fun v => st.getDoc (r.bulkGetDocOf ns v).1 (r.bulkGetDocOf ns v).2)
        BulkSlot.failure (r.bulkGetRightSlot ns)
        (fun v => r.bulkGetRightSlot ns v none) objects 0 0 _ hresp)) ?_
    refine congrArg Except.ok (mapPos_eq_map _ _ objects 0 ?_)
    intro p a ha
    rcases hc : r.bulkGetPhase1 p a with l | ⟨v, b⟩
    · have hc0 : r.bulkGetPhase1 0 a = .left l := hc
      simp [Repo.bulkGetSlot, hc0]
    · have hc0 : r.bulkGetPhase1 0 a = .right (v, b) := hc
      obtain ⟨hvo, hb⟩ := bulkGetPhase1_right_inv hc
      subst hb
      simp [Repo.bulkGetSlot, hc0]

/-- The physical bulk-write phase, written as one pure pair. -/
theorem bulkRun (st : Store) (ops : List BulkOp) :
    (if ops.isEmpty then (([] : List BulkItemRes), st) else esBulk st ops)
      = (if ops.isEmpty then [] else (esBulk st ops).1,
         if ops.isEmpty then st else (esBulk st ops).2) := by
  split <;> rfl

/-- Under explicit ids, no initial namespaces, and pairwise-distinct raw
target keys, `bulkCreate` returns, in input order, exactly the per-item slot
of each input computed against the initial store. -/
theorem bulkCreate_eq_map (r : Repo) (st : Store) (objects : List BulkCreateObj)
    (overwrite : Bool) (nsOpt ns : Option String)
    (hns : normalizeNamespace nsOpt = .ok ns)
    (hid : ∀ o ∈ objects, strOptTruthy o.id = true ∧ o.initialNamespaces = none)
    (hnd : (objects.map fun o => (r.getIndexForType o.type,
        r.generateRawId ns o.type (o.id.getD ""))).Nodup) :
    (r.bulkCreate st objects overwrite nsOpt).1
      = .ok (objects.map (r.bulkCreateSlot st ns overwrite 0)) := by
  simp only [Repo.bulkCreate, hns]
  rw [mgetRun]
  simp only []
  rw [bulkRun]
  simp only []
  set es1 := assignIndices (r.bulkCreatePhase1 overwrite) 0 0 objects with hE1
  set docs1 := idxRequests (r.bulkCreateDocOf ns) es1 with hD1
  set resp1 := docs1.map (fun d => st.getDoc d.1 d.2) with hR1
  set stp := if docs1.isEmpty then st else st.logReq (.mgetReq docs1) with hSP
  set es2 := assignIndices (fun _ e => r.bulkCreatePhase2 ns r.now resp1 e) 0 0 es1
    with hE2
  set params := idxRequests (bulkCreateOpOf overwrite) es2 with hP
  have hr1 : resp1 = (idxItems (r.bulkCreatePhase1 overwrite) 0 objects).map
      (fun v => st.getDoc (r.bulkCreateDocOf ns v).1 (r.bulkCreateDocOf ns v).2) := by
    rw [hR1, hD1, hE1, idxRequests_assignIndices, List.map_map]
    rfl
  have hstp_gd : ∀ i j, stp.getDoc i j = st.getDoc i j := by
    intro i j; rw [hSP]; exact getDoc_mgetStore st docs1 i j
  have hstp_f : stp.failingIds = st.failingIds := by
    rw [hSP]; exact failingIds_mgetStore st docs1
  have hsub2 : (es1.filterMap (fun e =>
      match r.bulkCreatePhase2 ns r.now resp1 e with
      | .left _ => (none : Option (String × String))
      | .right (w, _) => some (bulkCreateOpOf overwrite w).opKey)).Sublist
      (objects.map fun o => (r.getIndexForType o.type,
        r.generateRawId ns o.type (o.id.getD ""))) := by
    rw [hE1]
    refine filterMap_assign_sublist _ _ _ (fun l => rfl) objects 0 0 ?_
    intro p a v b oi res ha hf1 hoi hk
    obtain ⟨hot, hins⟩ := hid a ha
    obtain ⟨s, hs⟩ : ∃ s, a.id = some s := by
      rcases hx : a.id with _ | s
      · rw [hx] at hot; exact absurd hot (by decide)
      · exact ⟨s, rfl⟩
    rcases hph : r.bulkCreatePhase2R ns r.now v (oi.map fun i => (resp1.get? i).join)
      with l2 | ⟨w, b2⟩
    · rw [show r.bulkCreatePhase2 ns r.now resp1 (.right (v, oi))
          = r.bulkCreatePhase2R ns r.now v (oi.map fun i => (resp1.get? i).join)
          from rfl, hph] at hk
      simp at hk
    · rw [show r.bulkCreatePhase2 ns r.now resp1 (.right (v, oi))
          = r.bulkCreatePhase2R ns r.now v (oi.map fun i => (resp1.get? i).join)
          from rfl, hph] at hk
      simp only [Option.some.injEq] at hk
      rw [← hk]
      exact bulkCreate_opKey hs hins hf1 (by cases oi <;> simp_all) hph
  have hsub1 : ((idxItems (fun _ e => r.bulkCreatePhase2 ns r.now resp1 e) 0 es1).map
      (fun w => (bulkCreateOpOf overwrite w).opKey)).Sublist
      (es1.filterMap (fun e =>
        match r.bulkCreatePhase2 ns r.now resp1 e with
        | .left _ => (none : Option (String × String))
        | .right (w, _) => some (bulkCreateOpOf overwrite w).opKey)) := by
    have hcons : ∀ (p : Nat) (a : Either BulkErrSlot (BulkCreateRight × Option Nat))
        (v : BulkCreateW) (b : Bool), a ∈ es1 →
        (fun _ e => r.bulkCreatePhase2 ns r.now resp1 e) p a = .right (v, b) →
        (fun (_ : Nat) e =>
          match r.bulkCreatePhase2 ns r.now resp1 e with
          | .left _ => (none : Option (String × String))
          | .right (w, _) => some (bulkCreateOpOf overwrite w).opKey) p a
          = some (bulkCreateOpOf overwrite v).opKey := by
      intro p a v b _ hf
      simp only at hf ⊢
      rw [hf]
    have hfm := idxItems_map_sublist_fm
      (fun _ e => r.bulkCreatePhase2 ns r.now resp1 e)
      (fun w => (bulkCreateOpOf overwrite w).opKey)
      (fun (_ : Nat) e =>
        match r.bulkCreatePhase2 ns r.now resp1 e with
        | .left _ => (none : Option (String × String))
        | .right (w, _) => some (bulkCreateOpOf overwrite w).opKey)
      es1 0 hcons
    rwa [filterMapPos_eq_filterMap] at hfm
  have hnodup : ((idxItems (fun _ e => r.bulkCreatePhase2 ns r.now resp1 e) 0 es1).map
      (fun w => (bulkCreateOpOf overwrite w).opKey)).Nodup :=
    hnd.sublist (hsub1.trans hsub2)
  have hps : params = (idxItems (fun _ e => r.bulkCreatePhase2 ns r.now resp1 e) 0 es1).map
      (bulkCreateOpOf overwrite) := by
    rw [hP, hE2, idxRequests_assignIndices]
  have hc1 : (if params.isEmpty then ([] : List BulkItemRes) else (esBulk stp params).1)
      = params.map fun op => (applyBulkOp st op).1 := by
    split
    · rename_i h
      have hp0 : params = [] := by
        cases hpp : params with
        | nil => rfl
        | cons x xs => rw [hpp] at h; simp [List.isEmpty] at h
      rw [hp0]; rfl
    · simp only [esBulk]
      refine runBulkOps_fst st params (stp.logReq (.bulkReq params.length)) ?_ ?_ ?_
      · intro op _; simp [hstp_gd]
      · simp [hstp_f]
      · rw [hps, List.map_map]
        exact hnodup
  have hresp2 : ∀ k, (if params.isEmpty then ([] : List BulkItemRes)
        else (esBulk stp params).1).get? (0 + k)
      = ((idxItems (fun _ e => r.bulkCreatePhase2 ns r.now resp1 e) 0 es1).get? k).map
          (fun w => (applyBulkOp st (bulkCreateOpOf overwrite w)).1) := by
    intro k
    rw [Nat.zero_add, hc1, hps, List.map_map, List.get?_map]
    cases (idxItems (fun _ e => r.bulkCreatePhase2 ns r.now resp1 e) 0 es1).get? k <;> rfl
  rw [hE2]
  refine Eq.trans (congrArg Except.ok
    (phase2Map_assignIndices (fun _ e => r.bulkCreatePhase2 ns r.now resp1 e)
      (fun w => (applyBulkOp st (bulkCreateOpOf overwrite w)).1)
      BulkSlot.failure r.bulkCreateRightSlot
      (fun w => r.bulkCreateRightSlot w none) es1 0 0 _ hresp2)) ?_
  refine Eq.trans (congrArg Except.ok (mapPos_eq_map _
      (fun e => match r.bulkCreatePhase2 ns r.now resp1 e with
        | .left l => BulkSlot.failure l
        | .right (w, _) => r.bulkCreateRightSlot w
            (some (applyBulkOp st (bulkCreateOpOf overwrite w)).1))
      es1 0 ?_)) ?_
  · intro p e he
    rcases e with l0 | ⟨v0, oi0⟩
    · rfl
    · rcases hph : r.bulkCreatePhase2R ns r.now v0 (oi0.map fun i => (resp1.get? i).join)
        with l2 | ⟨w, b2⟩
      · simp only [Repo.bulkCreatePhase2]
        rw [hph]
      · have hb2 := bulkCreatePhase2R_right_true hph
        subst hb2
        simp only [Repo.bulkCreatePhase2]
        rw [hph]
  · have hmapPhase : es1.map (fun e => match r.bulkCreatePhase2 ns r.now resp1 e with
        | .left l => BulkSlot.failure l
        | .right (w, _) => r.bulkCreateRightSlot w
            (some (applyBulkOp st (bulkCreateOpOf overwrite w)).1))
        = phase2Map resp1 BulkSlot.failure
            (fun v od => match r.bulkCreatePhase2R ns r.now v (some od.join) with
              | .left l => BulkSlot.failure l
              | .right (w, _) => r.bulkCreateRightSlot w
                  (some (applyBulkOp st (bulkCreateOpOf overwrite w)).1))
            (fun v => match r.bulkCreatePhase2R ns r.now v none with
              | .left l => BulkSlot.failure l
              | .right (w, _) => r.bulkCreateRightSlot w
                  (some (applyBulkOp st (bulkCreateOpOf overwrite w)).1))
            es1 := by
      simp only [phase2Map]
      refine List.map_congr_left ?_
      intro e he
      rcases e with l0 | ⟨v0, _ | i⟩ <;> rfl
    rw [hmapPhase, hE1]
    have hresp1m : ∀ k, resp1.get? (0 + k)
        = ((idxItems (r.bulkCreatePhase1 overwrite) 0 objects).get? k).map
            (fun v => st.getDoc (r.bulkCreateDocOf ns v).1 (r.bulkCreateDocOf ns v).2) := by
      intro k
      rw [Nat.zero_add, hr1, List.get?_map]
    refine Eq.trans (congrArg Except.ok
      (phase2Map_assignIndices (r.bulkCreatePhase1 overwrite)
        (fun v => st.getDoc (r.bulkCreateDocOf ns v).1 (r.bulkCreateDocOf ns v).2)
        BulkSlot.failure _ _ objects 0 0 _ hresp1m)) ?_
    refine congrArg Except.ok (mapPos_eq_map _ _ objects 0 ?_)
    intro p o ho
    obtain ⟨hot, hoi⟩ := hid o ho
    obtain ⟨s, hs⟩ : ∃ s, o.id = some s := by
      rcases hx : o.id with _ | s
      · rw [hx] at hot; exact absurd hot (by decide)
      · exact ⟨s, rfl⟩
    rw [bulkCreatePhase1_pos_indep hs p]
    rcases hc : r.bulkCreatePhase1 overwrite 0 o with l | ⟨v, b⟩
    · simp [Repo.bulkCreateSlot, hc]
    · cases b
      · rcases hph : r.bulkCreatePhase2R ns r.now v none with l2 | ⟨w, b2⟩
        · simp [Repo.bulkCreateSlot, hc, hph]
        · have hb2 := bulkCreatePhase2R_right_true hph
          subst hb2
          simp [Repo.bulkCreateSlot, hc, hph]
      · rcases hph : r.bulkCreatePhase2R ns r.now v
            (some (st.getDoc (r.bulkCreateDocOf ns v).1 (r.bulkCreateDocOf ns v).2))
          with l2 | ⟨w, b2⟩
        · simp [Repo.bulkCreateSlot, hc, hph]
        · have hb2 := bulkCreatePhase2R_right_true hph
          subst hb2
          simp [Repo.bulkCreateSlot, hc, hph]

/-- Under pairwise-distinct raw target keys, `bulkUpdate` returns, in input
order, exactly the per-item slot of each input computed against the initial
store. -/
theorem bulkUpdate_eq_map (r : Repo) (st : Store) (objects : List BulkUpdateObj)
    (nsOpt ns : Option String)
    (hns : normalizeNamespace nsOpt = .ok ns)
    (hnd : (objects.map fun o => (r.getIndexForType o.type,
        r.generateRawId (getNamespaceId ns o.nsObj) o.type o.id)).Nodup) :
    (r.bulkUpdate st objects nsOpt).1
      = .ok (objects.map (r.bulkUpdateSlot st ns)) := by
  simp only [Repo.bulkUpdate, hns]
  rw [mgetRun]
  simp only []
  rw [bulkRun]
  simp only []
  set es1 := assignIndices (r.bulkUpdatePhase1 r.now) 0 0 objects with hE1
  set docs1 := idxRequests (r.bulkUpdateDocOf ns) es1 with hD1
  set resp1 := docs1.map (fun d => st.getDoc d.1 d.2) with hR1
  set stp := if docs1.isEmpty then st else st.logReq (.mgetReq docs1) with hSP
  set es2 := assignIndices (fun _ e => r.bulkUpdatePhase2 ns resp1 e) 0 0 es1
    with hE2
  set params := idxRequests (r.bulkUpdateOpOf ns) es2 with hP
  have hr1 : resp1 = (idxItems (r.bulkUpdatePhase1 r.now) 0 objects).map
      (fun v => st.getDoc (r.bulkUpdateDocOf ns v).1 (r.bulkUpdateDocOf ns v).2) := by
    rw [hR1, hD1, hE1, idxRequests_assignIndices, List.map_map]
    rfl
  have hstp_gd : ∀ i j, stp.getDoc i j = st.getDoc i j := by
    intro i j; rw [hSP]; exact getDoc_mgetStore st docs1 i j
  have hstp_f : stp.failingIds = st.failingIds := by
    rw [hSP]; exact failingIds_mgetStore st docs1
  have hsub2 : (es1.filterMap (fun e =>
      match r.bulkUpdatePhase2 ns resp1 e with
      | .left _ => (none : Option (String × String))
      | .right (w, _) => some (r.bulkUpdateOpOf ns w).opKey)).Sublist
      (objects.map fun o => (r.getIndexForType o.type,
        r.generateRawId (getNamespaceId ns o.nsObj) o.type o.id)) := by
    rw [hE1]
    refine filterMap_assign_sublist _ _ _ (fun l => rfl) objects 0 0 ?_
    intro p a v b oi res ha hf1 hoi hk
    rcases hph : r.bulkUpdatePhase2R ns v (oi.map fun i => (resp1.get? i).join)
      with l2 | ⟨w, b2⟩
    · rw [show r.bulkUpdatePhase2 ns resp1 (.right (v, oi))
          = r.bulkUpdatePhase2R ns v (oi.map fun i => (resp1.get? i).join)
          from rfl, hph] at hk
      simp at hk
    · rw [show r.bulkUpdatePhase2 ns resp1 (.right (v, oi))
          = r.bulkUpdatePhase2R ns v (oi.map fun i => (resp1.get? i).join)
          from rfl, hph] at hk
      simp only [Option.some.injEq] at hk
      rw [← hk]
      exact bulkUpdate_opKey hf1 hph
  have hsub1 : ((idxItems (fun _ e => r.bulkUpdatePhase2 ns resp1 e) 0 es1).map
      (fun w => (r.bulkUpdateOpOf ns w).opKey)).Sublist
      (es1.filterMap (fun e =>
        match r.bulkUpdatePhase2 ns resp1 e with
        | .left _ => (none : Option (String × String))
        | .right (w, _) => some (r.bulkUpdateOpOf ns w).opKey)) := by
    have hcons : ∀ (p : Nat) (a : Either BulkErrSlot (BulkUpdateRight × Option Nat))
        (v : BulkUpdateW) (b : Bool), a ∈ es1 →
        (fun _ e => r.bulkUpdatePhase2 ns resp1 e) p a = .right (v, b) →
        (fun (_ : Nat) e =>
          match r.bulkUpdatePhase2 ns resp1 e with
          | .left _ => (none : Option (String × String))
          | .right (w, _) => some (r.bulkUpdateOpOf ns w).opKey) p a
          = some (r.bulkUpdateOpOf ns v).opKey := by
      intro p a v b _ hf
      simp only at hf ⊢
      rw [hf]
    have hfm := idxItems_map_sublist_fm
      (fun _ e => r.bulkUpdatePhase2 ns resp1 e)
      (fun w => (r.bulkUpdateOpOf ns w).opKey)
      (fun (_ : Nat) e =>
        match r.bulkUpdatePhase2 ns resp1 e with
        | .left _ => (none : Option (String × String))
        | .right (w, _) => some (r.bulkUpdateOpOf ns w).opKey)
      es1 0 hcons
    rwa [filterMapPos_eq_filterMap] at hfm
  have hnodup : ((idxItems (fun _ e => r.bulkUpdatePhase2 ns resp1 e) 0 es1).map
      (fun w => (r.bulkUpdateOpOf ns w).opKey)).Nodup :=
    hnd.sublist (hsub1.trans hsub2)
  have hps : params = (idxItems (fun _ e => r.bulkUpdatePhase2 ns resp1 e) 0 es1).map
      (r.bulkUpdateOpOf ns) := by
    rw [hP, hE2, idxRequests_assignIndices]
  have hc1 : (if params.isEmpty then ([] : List BulkItemRes) else (esBulk stp params).1)
      = params.map fun op => (applyBulkOp st op).1 := by
    split
    · rename_i h
      have hp0 : params = [] := by
        cases hpp : params with
        | nil => rfl
        | cons x xs => rw [hpp] at h; simp [List.isEmpty] at h
      rw [hp0]; rfl
    · simp only [esBulk]
      refine runBulkOps_fst st params (stp.logReq (.bulkReq params.length)) ?_ ?_ ?_
      · intro op _; simp [hstp_gd]
      · simp [hstp_f]
      · rw [hps, List.map_map]
        exact hnodup
  have hresp2 : ∀ k, (if params.isEmpty then ([] : List BulkItemRes)
        else (esBulk stp params).1).get? (0 + k)
      = ((idxItems (fun _ e => r.bulkUpdatePhase2 ns resp1 e) 0 es1).get? k).map
          (fun w => (applyBulkOp st (r.bulkUpdateOpOf ns w)).1) := by
    intro k
    rw [Nat.zero_add, hc1, hps, List.map_map, List.get?_map]
    cases (idxItems (fun _ e => r.bulkUpdatePhase2 ns resp1 e) 0 es1).get? k <;> rfl
  rw [hE2]
  refine Eq.trans (congrArg Except.ok
    (phase2Map_assignIndices (fun _ e => r.bulkUpdatePhase2 ns resp1 e)
      (fun w => (applyBulkOp st (r.bulkUpdateOpOf ns w)).1)
      BulkSlot.failure bulkUpdateRightSlot
      (fun w => bulkUpdateRightSlot w none) es1 0 0 _ hresp2)) ?_
  refine Eq.trans (congrArg Except.ok (mapPos_eq_map _
      (fun e => match r.bulkUpdatePhase2 ns resp1 e with
        | .left l => BulkSlot.failure l
        | .right (w, _) => bulkUpdateRightSlot w
            (some (applyBulkOp st (r.bulkUpdateOpOf ns w)).1))
      es1 0 ?_)) ?_
  · intro p e he
    rcases e with l0 | ⟨v0, oi0⟩
    · rfl
    · rcases hph : r.bulkUpdatePhase2R ns v0 (oi0.map fun i => (resp1.get? i).join)
        with l2 | ⟨w, b2⟩
      · simp only [Repo.bulkUpdatePhase2]
        rw [hph]
      · have hb2 := bulkUpdatePhase2R_right_true hph
        subst hb2
        simp only [Repo.bulkUpdatePhase2]
        rw [hph]
  · have hmapPhase : es1.map (fun e => match r.bulkUpdatePhase2 ns resp1 e with
        | .left l => BulkSlot.failure l
        | .right (w, _) => bulkUpdateRightSlot w
            (some (applyBulkOp st (r.bulkUpdateOpOf ns w)).1))
        = phase2Map resp1 BulkSlot.failure
            (fun v od => match r.bulkUpdatePhase2R ns v (some od.join) with
              | .left l => BulkSlot.failure l
              | .right (w, _) => bulkUpdateRightSlot w
                  (some (applyBulkOp st (r.bulkUpdateOpOf ns w)).1))
            (fun v => match r.bulkUpdatePhase2R ns v none with
              | .left l => BulkSlot.failure l
              | .right (w, _) => bulkUpdateRightSlot w
                  (some (applyBulkOp st (r.bulkUpdateOpOf ns w)).1))
            es1 := by
      simp only [phase2Map]
      refine List.map_congr_left ?_
      intro e he
      rcases e with l0 | ⟨v0, _ | i⟩ <;> rfl
    rw [hmapPhase, hE1]
    have hresp1m : ∀ k, resp1.get? (0 + k)
        = ((idxItems (r.bulkUpdatePhase1 r.now) 0 objects).get? k).map
            (fun v => st.getDoc (r.bulkUpdateDocOf ns v).1 (r.bulkUpdateDocOf ns v).2) := by
      intro k
      rw [Nat.zero_add, hr1, List.get?_map]
    refine Eq.trans (congrArg Except.ok
      (phase2Map_assignIndices (r.bulkUpdatePhase1 r.now)
        (fun v => st.getDoc (r.bulkUpdateDocOf ns v).1 (r.bulkUpdateDocOf ns v).2)
        BulkSlot.failure _ _ objects 0 0 _ hresp1m)) ?_
    refine congrArg Except.ok (mapPos_eq_map _ _ objects 0 ?_)
    intro p o ho
    rcases hc : r.bulkUpdatePhase1 r.now p o with l | ⟨v, b⟩
    · have hc0 : r.bulkUpdatePhase1 r.now 0 o = .left l := hc
      simp [Repo.bulkUpdateSlot, hc, hc0]
    · have hc0 : r.bulkUpdatePhase1 r.now 0 o = .right (v, b) := hc
      cases b
      · rcases hph : r.bulkUpdatePhase2R ns v none with l2 | ⟨w, b2⟩
        · simp [Repo.bulkUpdateSlot, hc, hc0, hph]
        · have hb2 := bulkUpdatePhase2R_right_true hph
          subst hb2
          simp [Repo.bulkUpdateSlot, hc, hc0, hph]
      · rcases hph : r.bulkUpdatePhase2R ns v
            (some (st.getDoc (r.bulkUpdateDocOf ns v).1 (r.bulkUpdateDocOf ns v).2))
          with l2 | ⟨w, b2⟩
        · simp [Repo.bulkUpdateSlot, hc, hc0, hph]
        · have hb2 := bulkUpdatePhase2R_right_true hph
          subst hb2
          simp [Repo.bulkUpdateSlot, hc, hc0, hph]

/-- C2: for every input array given to a bulk operation (`bulkGet`,
`bulkCreate`, `bulkUpdate`), the overall call succeeds (never fails
atomically for a per-item problem) and the result array is the input array
mapped slot by slot through a per-item function of that input and the
initial store alone — so it has the same length and order as the input, each
slot holds the saved object or an `{id, type, error}` record for its own
input, and one item's failure (e.g. an unregistered type) cannot affect a
sibling's outcome.  For the two write operations the per-item isolation is
stated under the batch side conditions (explicit ids and no initial
namespaces for `bulkCreate`; pairwise-distinct physical document keys). -/
theorem claim_C2_bulk_order_isolation :
    (∀ (r : Repo) (st : Store) (objects : List BulkGetObj) (nsOpt ns : Option String),
      normalizeNamespace nsOpt = .ok ns →
      (r.bulkGet st objects nsOpt).1 = .ok (objects.map (r.bulkGetSlot st ns))) ∧
    (∀ (r : Repo) (st : Store) (objects : List BulkCreateObj) (overwrite : Bool)
        (nsOpt ns : Option String),
      normalizeNamespace nsOpt = .ok ns →
      (∀ o ∈ objects, strOptTruthy o.id = true ∧ o.initialNamespaces = none) →
      (objects.map fun o => (r.getIndexForType o.type,
        r.generateRawId ns o.type (o.id.getD ""))).Nodup →
      (r.bulkCreate st objects overwrite nsOpt).1
        = .ok (objects.map (r.bulkCreateSlot st ns overwrite 0))) ∧
    (∀ (r : Repo) (st : Store) (objects : List BulkUpdateObj) (nsOpt ns : Option String),
      normalizeNamespace nsOpt = .ok ns →
      (objects.map fun o => (r.getIndexForType o.type,
        r.generateRawId (getNamespaceId ns o.nsObj) o.type o.id)).Nodup →
      (r.bulkUpdate st objects nsOpt).1 = .ok (objects.map (r.bulkUpdateSlot st ns))) :=
  ⟨bulkGet_eq_map,
   fun r st objects overwrite nsOpt ns h1 h2 h3 =>
     bulkCreate_eq_map r st objects overwrite nsOpt ns h1 h2 h3,
   fun r st objects nsOpt ns h1 h2 =>
     bulkUpdate_eq_map r st objects nsOpt ns h1 h2⟩

/-- Witness for C2 at concrete inputs: each bulk operation on a two-item
batch (one of them invalid or conflicting) returns the per-item slots in
input order. -/
theorem claim_C2_witness :
    (sampleRepo.bulkGet sampleStore
        [{ type := "dash", id := "w1" }, { type := "nope", id := "x" }] none).1
      = .ok ([{ type := "dash", id := "w1" }, { type := "nope", id := "x" }].map
          (sampleRepo.bulkGetSlot sampleStore none)) ∧
    (sampleRepo.bulkCreate sampleStore
        [{ type := "dash", id := some "w9" }, { type := "share", id := some "s1" }]
        true none).1
      = .ok ([{ type := "dash", id := some "w9" },
              { type := "share", id := some "s1" }].map
          (sampleRepo.bulkCreateSlot sampleStore none true 0)) ∧
    (sampleRepo.bulkUpdate sampleStore
        [{ type := "dash", id := "w1" }, { type := "nope", id := "x" }] none).1
      = .ok ([{ type := "dash", id := "w1" }, { type := "nope", id := "x" }].map
          (sampleRepo.bulkUpdateSlot sampleStore none)) :=
  ⟨claim_C2_bulk_order_isolation.1 sampleRepo sampleStore _ none none rfl,
   claim_C2_bulk_order_isolation.2.1 sampleRepo sampleStore _ true none none rfl
     (by decide) (by decide),
   claim_C2_bulk_order_isolation.2.2 sampleRepo sampleStore _ none none rfl
     (by decide)⟩

/-- Witness for C9 at concrete inputs: `get` with namespace `'*'` fails
BadRequest; a bulkUpdate item with per-object namespace `'*'` yields a
per-item BadRequest slot. -/
theorem claim_C9_witness :
    "dash" ∈ sampleRepo.allowedTypes
  ∧ (sampleRepo.get sampleStore "dash" "w1" (some "*")).1
      = .error (.badRequest "options.namespace cannot be *")
  ∧ (sampleRepo.bulkUpdate sampleStore
        [{ type := "dash", id := "w1", nsObj := some "*" }] none).1
      = .ok [.failure { id := some "w1", type := "dash",
                        error := .badRequest "namespace cannot be *" }] :=
  ⟨by decide,
   ((claim_C9_wildcard_namespace sampleRepo sampleStore "dash" "w1"
      ).2.2.2.2.2.2.2.2.2.1 (by decide)).1,
   (claim_C9_wildcard_namespace sampleRepo sampleStore "dash" "w1"
      ).2.2.2.2.2.2.2.2.2.2.2.2.2.1 "w1" [] none none none none rfl (by decide)⟩

/-- Witness for C1 at a concrete input: an update against the stored `dash`
document (concurrency pair (4, 2)) carrying stale version (0, 1) fails with
Conflict and leaves the stored documents unchanged. -/
theorem claim_C1_witness :
    decodeRequestVersion ⟨0, 1⟩ ≠ ((4 : Nat), (2 : Nat))
  ∧ (sampleRepo.update sampleStore "dash" "w1" [("n", 9)]
        { version := some ⟨0, 1⟩ }).1 = .error (.conflict "dash" "w1")
  ∧ (sampleRepo.update sampleStore "dash" "w1" [("n", 9)]
        { version := some ⟨0, 1⟩ }).2.docs = sampleStore.docs :=
  ⟨by decide,
   ((claim_C1_stale_version_conflict sampleRepo sampleStore "dash" "w1"
      ⟨{ type := "dash", attributes := [("n", 1)], updatedAt := some "T0" }, 4, 2⟩
      ⟨0, 1⟩ none none rfl (by decide) (by decide) (by decide) (by decide) (by decide)
      (by decide)).2.1 [("n", 9)] none).1,
   ((claim_C1_stale_version_conflict sampleRepo sampleStore "dash" "w1"
      ⟨{ type := "dash", attributes := [("n", 1)], updatedAt := some "T0" }, 4, 2⟩
      ⟨0, 1⟩ none none rfl (by decide) (by decide) (by decide) (by decide) (by decide)
      (by decide)).2.1 [("n", 9)] none).2⟩

/-- Witness for C10 at a concrete disallowed type: `get` fails NotFound,
`create` fails UnsupportedType. -/
theorem claim_C10_witness :
    sampleRepo.allowedTypes.contains "nope" = false
  ∧ (sampleRepo.get emptyStore "nope" "x" none).1 = .error (.notFound "nope" "x")
  ∧ (sampleRepo.create emptyStore "nope" [] {}).1 = .error (.unsupportedType "nope") :=
  ⟨by decide,
   ((claim_C10_disallowed_type_error_kinds sampleRepo emptyStore "nope" "x" (by decide)).1 none).1,
   ((claim_C10_disallowed_type_error_kinds sampleRepo emptyStore "nope" "x"
      (by decide)).2.2.2.2.2.1 [] {} none rfl rfl).1⟩

end SORepo
